import Mathlib

/-!
# InstantGate: the dynamic query pipeline

A shallow embedding of `internal/query` (filter parser and query builder) and of
the schema records of `internal/database/mysql`, together with the part of the
SQL generator `github.com/Masterminds/squirrel` that the builder drives.

Conventions.
* A Go `map[string]T` is an association list with pairwise distinct keys; the
  order of the list is the order in which one `range` loop visits the map.
* A Go `interface{}` holding a request value is a `Value`.
* A Go result triple `(string, []interface{}, error)` is a `SqlResult`; a nil
  slice and an empty slice are both the empty list.
-/

namespace InstantGate

/-! ## Go values -/

/-- A `time.Time`: seconds and nanoseconds since the epoch and the zone offset. -/
structure GoTime where
  sec : Int
  nsec : Nat
  offset : Int
  deriving DecidableEq, Repr

/-- The dynamic values that flow through the pipeline as `interface{}`:
`nil`, `bool`, `int64`, `float64` (its IEEE-754 bit pattern), `string`,
`time.Time` and `[]interface{}`. -/
inductive Value where
  | null
  | bool (b : Bool)
  | int (i : Int)
  | float (bits : Nat)
  | str (s : String)
  | time (t : GoTime)
  | list (vs : List Value)

/-- A value that is neither `nil` nor a slice: what the SQL generator binds to a
single placeholder. -/
def Value.isScalar : Value → Bool
  | .null => false
  | .list _ => false
  | _ => true

/-- Lookup `m[k]` in a Go map; `none` is the `ok == false` case. -/
def mapGet {β : Type} : List (String × β) → String → Option β
  | [], _ => none
  | (k', v) :: rest, k => if k' = k then some v else mapGet rest k

/-- The keys of a Go map, in iteration order. -/
def mapKeys {β : Type} (m : List (String × β)) : List String :=
  m.map Prod.fst

/-- The result triple `(sql, args, err)` of the builder functions. -/
structure SqlResult where
  sql : String
  args : List Value
  err : Option String

/-- The Go statement `return "", nil, err`. -/
def SqlResult.fail (msg : String) : SqlResult :=
  ⟨"", [], some msg⟩

/-! ## internal/database/mysql: schema records -/

/-- The record `database.RelationshipInfo`. -/
structure RelationshipInfo where
  ColumnName : String
  ReferencedTable : String
  ReferencedColumn : String
  ConstraintName : String
  deriving DecidableEq, Repr

/-- The record `mysql.ColumnInfo`. -/
structure ColumnInfo where
  Name : String
  Type_ : String
  GoType : String
  Nullable : Bool
  IsPrimaryKey : Bool
  IsAutoIncrement : Bool
  MaxLength : Option Int
  deriving DecidableEq, Repr

/-- The record `mysql.TableSchema`. -/
structure TableSchema where
  Name : String
  Columns : List (String × ColumnInfo)
  PrimaryKey : String
  Relationships : List RelationshipInfo
  deriving DecidableEq, Repr

/-- The record `mysql.SchemaCache` (its lock is not modelled). -/
structure SchemaCache where
  tables : List (String × TableSchema)
  deriving DecidableEq, Repr

/-- The method `SchemaCache.Get`. -/
def SchemaCache.Get (sc : SchemaCache) (table : String) : Option TableSchema :=
  mapGet sc.tables table

/-! ## internal/query/filter.go: the query model -/

/-- The string type `FilterOperator`. -/
abbrev FilterOperator := String

def OpEqual : FilterOperator := "eq"
def OpNotEqual : FilterOperator := "ne"
def OpGreater : FilterOperator := "gt"
def OpGreaterEqual : FilterOperator := "gte"
def OpLess : FilterOperator := "lt"
def OpLessEqual : FilterOperator := "lte"
def OpLike : FilterOperator := "like"
def OpNotLike : FilterOperator := "nlike"
def OpIn : FilterOperator := "in"
def OpNotIn : FilterOperator := "nin"

/-- The record `Filter`; an unset `Value` is `nil`, an unset `Values` is empty. -/
structure Filter where
  Field : String
  Operator : FilterOperator
  Value : InstantGate.Value
  Values : List InstantGate.Value

/-- The record `Pagination`. -/
structure Pagination where
  Limit : Int
  Offset : Int
  Page : Int
  deriving DecidableEq, Repr

/-- The record `Sorting`. -/
structure Sorting where
  Field : String
  Direction : String
  deriving DecidableEq, Repr

/-- The record `QueryParams`; a nil pointer is `none`. -/
structure QueryParams where
  Filters : List Filter
  Pagination : Option Pagination
  Sorting : Option Sorting
  Fields : List String

/-- The function `isListOperator`. -/
def isListOperator (op : FilterOperator) : Bool :=
  op == OpIn || op == OpNotIn

/-- The function `IsValidOperator`. -/
def IsValidOperator (op : String) : Bool :=
  if op = OpEqual ∨ op = OpNotEqual ∨ op = OpGreater ∨ op = OpGreaterEqual ∨
      op = OpLess ∨ op = OpLessEqual ∨ op = OpLike ∨ op = OpNotLike ∨
      op = OpIn ∨ op = OpNotIn then true
  else false

/-! ## github.com/Masterminds/squirrel: statement generation

The builder drives the SQL generator through `Select/From/Where/OrderBy/Limit/
Offset`, `Insert/Columns/Values`, `Update/SetMap/Where` and `Delete/Where`, always
with the `?` placeholder format. The definitions below follow the generator's
`ToSql` methods for exactly these calls. -/

namespace sq

/-- The predicates the builder passes to `Where`; each is a one-entry map
`{key: val}` of the named squirrel type. -/
inductive Sqlizer where
  | Eq (key : String) (val : Value)
  | NotEq (key : String) (val : Value)
  | Lt (key : String) (val : Value)
  | LtOrEq (key : String) (val : Value)
  | Gt (key : String) (val : Value)
  | GtOrEq (key : String) (val : Value)
  | Like (key : String) (val : Value)
  | NotLike (key : String) (val : Value)

/-- The function `Placeholders`: `count` question marks separated by commas. -/
def Placeholders (count : Nat) : String :=
  ",".intercalate (List.replicate count "?")

/-- The method `Eq.toSQL` on a one-entry map: `nil` becomes `IS [NOT] NULL`, a
slice becomes `[NOT] IN (...)` (or the constant predicate when it is empty),
anything else is bound to one placeholder. -/
def eqToSQL (useNotOpr : Bool) (key : String) (val : Value) : SqlResult :=
  let equalOpr := if useNotOpr then "<>" else "="
  let inOpr := if useNotOpr then "NOT IN" else "IN"
  let nullOpr := if useNotOpr then "IS NOT" else "IS"
  let inEmptyExpr := if useNotOpr then "(1=1)" else "(1=0)"
  match val with
  | .null => ⟨key ++ " " ++ nullOpr ++ " NULL", [], none⟩
  | .list vs =>
    if vs.length = 0 then ⟨inEmptyExpr, [], none⟩
    else ⟨key ++ " " ++ inOpr ++ " (" ++ Placeholders vs.length ++ ")", vs, none⟩
  | v => ⟨key ++ " " ++ equalOpr ++ " ?", [v], none⟩

/-- The method `Lt.toSql` on a one-entry map. -/
def ltToSql (opposite orEq : Bool) (key : String) (val : Value) : SqlResult :=
  let opr := if opposite then ">" else "<"
  let opr := if orEq then opr ++ "=" else opr
  match val with
  | .null => SqlResult.fail "cannot use null with less than or greater than operators"
  | .list _ =>
    SqlResult.fail "cannot use array or slice with less than or greater than operators"
  | v => ⟨key ++ " " ++ opr ++ " ?", [v], none⟩

/-- The method `Like.toSql` on a one-entry map. -/
def likeToSql (opr : String) (key : String) (val : Value) : SqlResult :=
  match val with
  | .null => SqlResult.fail "cannot use null with like operators"
  | .list _ => SqlResult.fail "cannot use array or slice with like operators"
  | v => ⟨key ++ " " ++ opr ++ " ?", [v], none⟩

/-- The method `ToSql` of each predicate type. -/
def Sqlizer.ToSql : Sqlizer → SqlResult
  | .Eq k v => eqToSQL false k v
  | .NotEq k v => eqToSQL true k v
  | .Lt k v => ltToSql false false k v
  | .LtOrEq k v => ltToSql false true k v
  | .Gt k v => ltToSql true false k v
  | .GtOrEq k v => ltToSql true true k v
  | .Like k v => likeToSql "LIKE" k v
  | .NotLike k v => likeToSql "NOT LIKE" k v

/-- The method `part.ToSql` of a plain-string part (a column, the table, an
ORDER BY item). -/
def partToSql (pred : String) : SqlResult :=
  ⟨pred, [], none⟩

/-- The loop of `appendToSql` from index `i` on: a part whose SQL is empty is
skipped, and the separator is written before every other part except the one at
index 0. -/
def appendToSqlFrom (sep : String) :
    Nat → List SqlResult → String → List Value → Except String (String × List Value)
  | _, [], w, args => .ok (w, args)
  | i, p :: ps, w, args =>
    match p.err with
    | some e => .error e
    | none =>
      if p.sql.length = 0 then appendToSqlFrom sep (i + 1) ps w args
      else
        appendToSqlFrom sep (i + 1) ps
          ((if i > 0 then w ++ sep else w) ++ p.sql) (args ++ p.args)

/-- The function `appendToSql(parts, w, sep, args)`. -/
def appendToSql (parts : List SqlResult) (w : String) (sep : String) (args : List Value) :
    Except String (String × List Value) :=
  appendToSqlFrom sep 0 parts w args

/-- Turn the outcome of a generator body into the result triple: on an error the
SQL text is empty and the argument slice is nil. -/
def finish : Except String (String × List Value) → SqlResult
  | .ok (sql, args) => ⟨sql, args, none⟩
  | .error e => SqlResult.fail e

/-- The record `selectData`, restricted to the fields the builder sets. -/
structure SelectData where
  Columns : List String
  From : Option String
  WhereParts : List Sqlizer
  OrderByParts : List String
  Limit : String
  Offset : String

/-- The call `sb.Select(columns...)`. -/
def Select (columns : List String) : SelectData :=
  ⟨columns, none, [], [], "", ""⟩

/-- The method `SelectBuilder.From`. -/
def SelectData.from_ (d : SelectData) (table : String) : SelectData :=
  { d with From := some table }

/-- The method `SelectBuilder.Where` applied to a non-nil predicate map. -/
def SelectData.Where (d : SelectData) (pred : Sqlizer) : SelectData :=
  { d with WhereParts := d.WhereParts ++ [pred] }

/-- The method `SelectBuilder.OrderBy` with one clause. -/
def SelectData.OrderBy (d : SelectData) (orderBy : String) : SelectData :=
  { d with OrderByParts := d.OrderByParts ++ [orderBy] }

/-- The method `SelectBuilder.Limit`: the number printed with `%d`. -/
def SelectData.setLimit (d : SelectData) (limit : Nat) : SelectData :=
  { d with Limit := Nat.repr limit }

/-- The method `SelectBuilder.Offset`: the number printed with `%d`. -/
def SelectData.setOffset (d : SelectData) (offset : Nat) : SelectData :=
  { d with Offset := Nat.repr offset }

/-- The method `selectData.toSqlRaw`; every `match` on an error is the Go
`if err != nil { return }`. -/
def SelectData.toSqlRaw (d : SelectData) : Except String (String × List Value) :=
  if d.Columns.length = 0 then
    .error "select statements must have at least one result column"
  else
    match appendToSql (d.Columns.map partToSql) "SELECT " ", " [] with
    | .error e => .error e
    | .ok (sql, args) =>
      match (match d.From with
        | some t => appendToSql [partToSql t] (sql ++ " FROM ") "" args
        | none => .ok (sql, args)) with
      | .error e => .error e
      | .ok (sql, args) =>
        match (if d.WhereParts.length > 0 then
            appendToSql (d.WhereParts.map Sqlizer.ToSql) (sql ++ " WHERE ") " AND " args
          else .ok (sql, args)) with
        | .error e => .error e
        | .ok (sql, args) =>
          match (if d.OrderByParts.length > 0 then
              appendToSql (d.OrderByParts.map partToSql) (sql ++ " ORDER BY ") ", " args
            else .ok (sql, args)) with
          | .error e => .error e
          | .ok (sql, args) =>
            let sql := if d.Limit.length > 0 then sql ++ " LIMIT " ++ d.Limit else sql
            let sql := if d.Offset.length > 0 then sql ++ " OFFSET " ++ d.Offset else sql
            .ok (sql, args)

/-- The method `SelectBuilder.ToSql` (the `?` format leaves the text unchanged). -/
def SelectData.ToSql (d : SelectData) : SqlResult :=
  finish d.toSqlRaw

/-- The record `insertData`, restricted to the fields the builder sets. -/
structure InsertData where
  Into : String
  Columns : List String
  Values : List (List Value)

/-- The call `sb.Insert(into)`. -/
def Insert (into : String) : InsertData :=
  ⟨into, [], []⟩

/-- The method `InsertBuilder.Columns`. -/
def InsertData.addColumns (d : InsertData) (columns : List String) : InsertData :=
  { d with Columns := d.Columns ++ columns }

/-- The method `InsertBuilder.Values`: one row is appended, also when it has no
value. -/
def InsertData.addValues (d : InsertData) (values : List Value) : InsertData :=
  { d with Values := d.Values ++ [values] }

/-- The method `insertData.appendValuesToSQL`: every value is bound to a `?`. -/
def InsertData.appendValuesToSQL (d : InsertData) (w : String) (args : List Value) :
    Except String (String × List Value) :=
  if d.Values.length = 0 then .error "values for insert statements are not set"
  else
    let valuesStrings :=
      d.Values.map fun row => "(" ++ ",".intercalate (row.map fun _ => "?") ++ ")"
    .ok (w ++ "VALUES " ++ ",".intercalate valuesStrings, args ++ d.Values.flatten)

/-- The method `insertData.ToSql`. -/
def InsertData.ToSql (d : InsertData) : SqlResult :=
  if d.Into.length = 0 then SqlResult.fail "insert statements must specify a table"
  else if d.Values.length = 0 then
    SqlResult.fail "insert statements must have at least one set of values or select clause"
  else
    let sql := "INSERT " ++ "INTO " ++ d.Into ++ " "
    let sql :=
      if d.Columns.length > 0 then sql ++ "(" ++ ",".intercalate d.Columns ++ ") " else sql
    finish (d.appendValuesToSQL sql [])

/-- The record `updateData`, restricted to the fields the builder sets. -/
structure UpdateData where
  Table : String
  SetClauses : List (String × Value)
  WhereParts : List Sqlizer

/-- The call `sb.Update(table)`. -/
def Update (table : String) : UpdateData :=
  ⟨table, [], []⟩

/-- Insert a key into a list of keys sorted by `sort.Strings` (byte order, which
on well-formed text is the order of `String`). -/
def insertSorted (k : String × Value) : List (String × Value) → List (String × Value)
  | [] => [k]
  | x :: xs => if k.1 ≤ x.1 then k :: x :: xs else x :: insertSorted k xs

/-- The keys of a map sorted as by `sort.Strings`, each with its value. -/
def sortedEntries : List (String × Value) → List (String × Value)
  | [] => []
  | x :: xs => insertSorted x (sortedEntries xs)

/-- The method `UpdateBuilder.SetMap`: one `Set` per key, in sorted key order. -/
def UpdateData.SetMap (d : UpdateData) (clauses : List (String × Value)) : UpdateData :=
  { d with SetClauses := d.SetClauses ++ sortedEntries clauses }

/-- The method `UpdateBuilder.Where`. -/
def UpdateData.Where (d : UpdateData) (pred : Sqlizer) : UpdateData :=
  { d with WhereParts := d.WhereParts ++ [pred] }

/-- The method `updateData.ToSql`. -/
def UpdateData.ToSql (d : UpdateData) : SqlResult :=
  if d.Table.length = 0 then SqlResult.fail "update statements must specify a table"
  else if d.SetClauses.length = 0 then
    SqlResult.fail "update statements must have at least one Set clause"
  else
    let setSqls := d.SetClauses.map fun c => c.1 ++ " = " ++ "?"
    let sql := "UPDATE " ++ d.Table ++ " SET " ++ ", ".intercalate setSqls
    let args := d.SetClauses.map Prod.snd
    if d.WhereParts.length > 0 then
      finish (appendToSql (d.WhereParts.map Sqlizer.ToSql) (sql ++ " WHERE ") " AND " args)
    else ⟨sql, args, none⟩

/-- The record `deleteData`, restricted to the fields the builder sets. -/
structure DeleteData where
  From : String
  WhereParts : List Sqlizer

/-- The call `sb.Delete(from)`. -/
def Delete (from_ : String) : DeleteData :=
  ⟨from_, []⟩

/-- The method `DeleteBuilder.Where`. -/
def DeleteData.Where (d : DeleteData) (pred : Sqlizer) : DeleteData :=
  { d with WhereParts := d.WhereParts ++ [pred] }

/-- The method `deleteData.ToSql`. -/
def DeleteData.ToSql (d : DeleteData) : SqlResult :=
  if d.From.length = 0 then SqlResult.fail "delete statements must specify a From table"
  else
    let sql := "DELETE FROM " ++ d.From
    if d.WhereParts.length > 0 then
      finish (appendToSql (d.WhereParts.map Sqlizer.ToSql) (sql ++ " WHERE ") " AND " [])
    else ⟨sql, [], none⟩

end sq

/-! ## Go standard library used by the filter parser -/

/-- The library functions the parser calls whose tables and number formats are
taken as given: the lower-case mapping of a non-ASCII rune (`unicode.ToLower`),
`strconv.ParseFloat(s, 64)` and `time.Parse(layout, s)`. A result `none` is a
non-nil error. -/
structure GoLib where
  unicodeToLower : Char → Char
  ParseFloat : String → Option Nat
  timeParse : String → String → Option GoTime

/-- The function `strings.ToLower`: ASCII letters are lowered directly, every
other rune through the Unicode mapping. -/
def GoLib.ToLower (lib : GoLib) (s : String) : String :=
  String.mk (s.data.map fun c => if c.toNat < 128 then c.toLower else lib.unicodeToLower c)

/-- The predicate `unicode.IsSpace`. -/
def isSpace (c : Char) : Bool :=
  let n := c.toNat
  n = 9 || n = 10 || n = 11 || n = 12 || n = 13 || n = 32 || n = 0x85 || n = 0xA0 ||
    n = 0x1680 || (0x2000 ≤ n && n ≤ 0x200A) || n = 0x2028 || n = 0x2029 || n = 0x202F ||
    n = 0x205F || n = 0x3000

/-- The function `strings.TrimSpace`. -/
def TrimSpace (s : String) : String :=
  String.mk ((s.data.dropWhile isSpace).reverse.dropWhile isSpace).reverse

/-- The function `strings.Contains(s, sep)` for a one-character separator. -/
def Contains (s : String) (sep : Char) : Bool :=
  s.data.contains sep

/-- Cut a text at the first separator. -/
def cutFirst (sep : Char) : List Char → Option (List Char × List Char)
  | [] => none
  | c :: cs =>
    if c = sep then some ([], cs)
    else
      match cutFirst sep cs with
      | some (before, after) => some (c :: before, after)
      | none => none

/-- The function `strings.SplitN(s, sep, 2)` for a one-character separator. -/
def SplitN2 (s : String) (sep : Char) : List String :=
  match cutFirst sep s.data with
  | some (before, after) => [String.mk before, String.mk after]
  | none => [s]

/-- Split a text at every separator. -/
def splitAll (sep : Char) : List Char → List (List Char)
  | [] => [[]]
  | c :: cs =>
    if c = sep then [] :: splitAll sep cs
    else
      match splitAll sep cs with
      | [] => [[c]]
      | piece :: pieces => (c :: piece) :: pieces

/-- The function `strings.Split(s, sep)` for a one-character separator. -/
def Split (s : String) (sep : Char) : List String :=
  (splitAll sep s.data).map String.mk

/-- The value of a run of ASCII decimal digits, most significant first, on top
of `acc`; `none` when a character is not a digit. -/
def digitsValue : List Char → Nat → Option Nat
  | [], acc => some acc
  | c :: cs, acc =>
    if 48 ≤ c.toNat ∧ c.toNat ≤ 57 then digitsValue cs (acc * 10 + (c.toNat - 48)) else none

/-- The function `strconv.ParseInt(s, 10, 64)`: an optional sign and at least
one decimal digit, with the value in the signed 64-bit range. -/
def ParseInt (s : String) : Option Int :=
  match s.data with
  | [] => none
  | c :: rest =>
    let neg := c = '-'
    let digits := if c = '+' ∨ c = '-' then rest else c :: rest
    if digits.length = 0 then none
    else
      match digitsValue digits 0 with
      | none => none
      | some un =>
        if ¬ neg ∧ un ≥ 2 ^ 63 then none
        else if neg ∧ un > 2 ^ 63 then none
        else some (if neg then -(un : Int) else (un : Int))

/-- The double quote character. -/
def doubleQuote : Char := Char.ofNat 34

/-- The single quote character. -/
def singleQuote : Char := Char.ofNat 39

/-- The test of `parseValue` and `parseValues` for surrounding quotes: at least
two bytes, and the first and the last byte are the same kind of quote. -/
def isQuoted (value : String) : Bool :=
  value.utf8ByteSize ≥ 2 &&
    ((value.data.head? = some doubleQuote && value.data.getLast? = some doubleQuote) ||
      (value.data.head? = some singleQuote && value.data.getLast? = some singleQuote))

/-- The slice `value[1 : len(value)-1]` of a quoted text. -/
def unquote (value : String) : String :=
  String.mk value.data.tail.dropLast

/-- The layout `time.RFC3339`. -/
def RFC3339 : String := "2006-01-02T15:04:05Z07:00"

/-- The function `parseValue`. -/
def parseValue (lib : GoLib) (value : String) : Except String Value :=
  let value := TrimSpace value
  if isQuoted value then .ok (.str (unquote value))
  else
    let lower := lib.ToLower value
    if lower = "true" then .ok (.bool true)
    else if lower = "false" then .ok (.bool false)
    else if lower = "null" then .ok .null
    else
      match ParseInt value with
      | some i => .ok (.int i)
      | none =>
        match lib.ParseFloat value with
        | some f => .ok (.float f)
        | none =>
          match lib.timeParse RFC3339 value with
          | some t => .ok (.time t)
          | none =>
            match lib.timeParse "2006-01-02" value with
            | some t => .ok (.time t)
            | none => .ok (.str value)

/-- The function `parseValues`. -/
def parseValues (values : List String) : List Value :=
  values.map fun v =>
    let v := TrimSpace v
    if isQuoted v then .str (unquote v) else .str v

/-- The function `parseFilter`; the result `none` is the nil filter. -/
def parseFilter (lib : GoLib) (field value : String) : Except String (Option Filter) :=
  if value = "" then .ok none
  else
    let whole : Except String (Option Filter) :=
      match parseValue lib value with
      | .error e => .error e
      | .ok parsedVal => .ok (some ⟨field, OpEqual, parsedVal, []⟩)
    if Contains value '.' then
      match SplitN2 value '.' with
      | [part0, part1] =>
        let op : FilterOperator := lib.ToLower part0
        if isListOperator op then
          .ok (some ⟨field, op, .null, parseValues (Split part1 ',')⟩)
        else
          match parseValue lib part1 with
          | .error e => .error e
          | .ok parsedVal => .ok (some ⟨field, op, parsedVal, []⟩)
      | _ => whole
    else whole

/-- A library instance for examples: no rune outside ASCII is changed, and no
text is accepted as a float or a time. -/
def asciiLib : GoLib :=
  ⟨fun c => c, fun _ => none, fun _ _ => none⟩

/-! ## internal/query/builder.go -/

/-- The record `Builder`: the statement builder is fixed to the `?` format, so
only the schema cache is state. -/
structure Builder where
  schema : SchemaCache

/-- The function `applyFilter`. -/
def applyFilter (query : sq.SelectData) (filter : Filter) : sq.SelectData :=
  if filter.Operator = OpEqual then query.Where (.Eq filter.Field filter.Value)
  else if filter.Operator = OpNotEqual then query.Where (.NotEq filter.Field filter.Value)
  else if filter.Operator = OpGreater then query.Where (.Gt filter.Field filter.Value)
  else if filter.Operator = OpGreaterEqual then
    query.Where (.GtOrEq filter.Field filter.Value)
  else if filter.Operator = OpLess then query.Where (.Lt filter.Field filter.Value)
  else if filter.Operator = OpLessEqual then query.Where (.LtOrEq filter.Field filter.Value)
  else if filter.Operator = OpLike then query.Where (.Like filter.Field filter.Value)
  else if filter.Operator = OpNotLike then query.Where (.NotLike filter.Field filter.Value)
  else if filter.Operator = OpIn then query.Where (.Eq filter.Field (.list filter.Values))
  else if filter.Operator = OpNotIn then
    query.Where (.NotEq filter.Field (.list filter.Values))
  else query.Where (.Eq filter.Field filter.Value)

/-- The error text of an unknown column. -/
def unknownColumn (col table : String) : String :=
  "unknown column '" ++ col ++ "' in table '" ++ table ++ "'"

/-- The projection loop of `BuildSelect` and `BuildSelectByID`: every requested
field must be a key of `Columns`; the first that is not ends the call. -/
def projectFields (tableSchema : TableSchema) (table : String) :
    List String → Except String (List String)
  | [] => .ok []
  | field :: rest =>
    match mapGet tableSchema.Columns field with
    | none => .error (unknownColumn field table)
    | some _ =>
      match projectFields tableSchema table rest with
      | .error e => .error e
      | .ok columns => .ok (field :: columns)

/-- The column list of a SELECT: the requested fields, or every key of `Columns`
in iteration order when none is requested. -/
def selectColumns (tableSchema : TableSchema) (table : String) (fields : List String) :
    Except String (List String) :=
  if fields.length > 0 then projectFields tableSchema table fields
  else .ok (mapKeys tableSchema.Columns)

/-- The filter loop of `BuildSelect`: each filter's field is checked, then the
filter is applied. -/
def selectFilters (tableSchema : TableSchema) (table : String) :
    sq.SelectData → List Filter → Except String sq.SelectData
  | query, [] => .ok query
  | query, filter :: rest =>
    match mapGet tableSchema.Columns filter.Field with
    | none => .error (unknownColumn filter.Field table)
    | some _ => selectFilters tableSchema table (applyFilter query filter) rest

/-- The sorting step of `BuildSelect`. -/
def selectSorting (tableSchema : TableSchema) (query : sq.SelectData) :
    Option Sorting → Except String sq.SelectData
  | none => .ok query
  | some sorting =>
    match mapGet tableSchema.Columns sorting.Field with
    | none => .error ("unknown column '" ++ sorting.Field ++ "' for sorting")
    | some _ =>
      let orderClause :=
        if sorting.Direction = "desc" then sorting.Field ++ " DESC"
        else sorting.Field ++ " ASC"
      .ok (query.OrderBy orderClause)

/-- The pagination step of `BuildSelect`. -/
def selectPagination (query : sq.SelectData) : Option Pagination → sq.SelectData
  | none => query
  | some pagination =>
    let query := if pagination.Limit > 0 then query.setLimit pagination.Limit.toNat else query
    if pagination.Offset > 0 then query.setOffset pagination.Offset.toNat else query

/-- The method `Builder.BuildSelect`. -/
def Builder.BuildSelect (b : Builder) (table : String) (params : QueryParams) : SqlResult :=
  match b.schema.Get table with
  | none => SqlResult.fail ("table '" ++ table ++ "' not found")
  | some tableSchema =>
    match selectColumns tableSchema table params.Fields with
    | .error e => SqlResult.fail e
    | .ok columns =>
      let query := (sq.Select columns).from_ table
      match selectFilters tableSchema table query params.Filters with
      | .error e => SqlResult.fail e
      | .ok query =>
        match selectSorting tableSchema query params.Sorting with
        | .error e => SqlResult.fail e
        | .ok query => (selectPagination query params.Pagination).ToSql

/-- The method `Builder.BuildSelectByID`. -/
def Builder.BuildSelectByID (b : Builder) (table : String) (id : Value)
    (fields : List String) : SqlResult :=
  match b.schema.Get table with
  | none => SqlResult.fail ("table '" ++ table ++ "' not found")
  | some tableSchema =>
    if tableSchema.PrimaryKey = "" then
      SqlResult.fail ("table '" ++ table ++ "' has no primary key")
    else
      match selectColumns tableSchema table fields with
      | .error e => SqlResult.fail e
      | .ok columns =>
        ((((sq.Select columns).from_ table).Where (.Eq tableSchema.PrimaryKey id)).setLimit
          1).ToSql

/-- The method `Builder.BuildCount`. -/
def Builder.BuildCount (b : Builder) (table : String) (params : QueryParams) : SqlResult :=
  match b.schema.Get table with
  | none => SqlResult.fail ("table '" ++ table ++ "' not found")
  | some _ =>
    let query := (sq.Select ["COUNT(*) as count"]).from_ table
    (params.Filters.foldl applyFilter query).ToSql

/-- The payload loop of `BuildInsert`: an unknown key ends the call, an
auto-increment column is skipped, every other pair is kept in visiting order. -/
def insertColumns (tableSchema : TableSchema) (table : String) :
    List (String × Value) → Except String (List String × List Value)
  | [] => .ok ([], [])
  | (col, val) :: rest =>
    match mapGet tableSchema.Columns col with
    | none => .error (unknownColumn col table)
    | some colInfo =>
      match insertColumns tableSchema table rest with
      | .error e => .error e
      | .ok (columns, values) =>
        if colInfo.IsAutoIncrement then .ok (columns, values)
        else .ok (col :: columns, val :: values)

/-- The method `Builder.BuildInsert`; `data` lists the payload map in the order
the loop visits it. -/
def Builder.BuildInsert (b : Builder) (table : String) (data : List (String × Value)) :
    SqlResult :=
  match b.schema.Get table with
  | none => SqlResult.fail ("table '" ++ table ++ "' not found")
  | some tableSchema =>
    match insertColumns tableSchema table data with
    | .error e => SqlResult.fail e
    | .ok (columns, values) =>
      (((sq.Insert table).addColumns columns).addValues values).ToSql

/-- The payload loop of `BuildUpdate`: an unknown key ends the call, primary-key
and auto-increment columns are skipped, every other pair goes to `updateData`. -/
def updateColumns (tableSchema : TableSchema) (table : String) :
    List (String × Value) → Except String (List (String × Value))
  | [] => .ok []
  | (col, val) :: rest =>
    match mapGet tableSchema.Columns col with
    | none => .error (unknownColumn col table)
    | some colInfo =>
      match updateColumns tableSchema table rest with
      | .error e => .error e
      | .ok updateData =>
        if colInfo.IsPrimaryKey || colInfo.IsAutoIncrement then .ok updateData
        else .ok ((col, val) :: updateData)

/-- The method `Builder.BuildUpdate`; `data` lists the payload map in the order
the loop visits it. -/
def Builder.BuildUpdate (b : Builder) (table : String) (id : Value)
    (data : List (String × Value)) : SqlResult :=
  match b.schema.Get table with
  | none => SqlResult.fail ("table '" ++ table ++ "' not found")
  | some tableSchema =>
    if tableSchema.PrimaryKey = "" then
      SqlResult.fail ("table '" ++ table ++ "' has no primary key")
    else
      match updateColumns tableSchema table data with
      | .error e => SqlResult.fail e
      | .ok updateData =>
        if updateData.length = 0 then SqlResult.fail "no updateable columns provided"
        else (((sq.Update table).SetMap updateData).Where (.Eq tableSchema.PrimaryKey id)).ToSql

/-- The method `Builder.BuildDelete`. -/
def Builder.BuildDelete (b : Builder) (table : String) (id : Value) : SqlResult :=
  match b.schema.Get table with
  | none => SqlResult.fail ("table '" ++ table ++ "' not found")
  | some tableSchema =>
    if tableSchema.PrimaryKey = "" then
      SqlResult.fail ("table '" ++ table ++ "' has no primary key")
    else ((sq.Delete table).Where (.Eq tableSchema.PrimaryKey id)).ToSql

/-! ## Reading the generated SQL -/

/-- The text `appendToSql` writes for parts with the given SQL texts, from index
`i` on. -/
def sq.writtenFrom (sep : String) : Nat → List String → String
  | _, [] => ""
  | i, s :: rest =>
    if s.length = 0 then sq.writtenFrom sep (i + 1) rest
    else (if i > 0 then sep else "") ++ s ++ sq.writtenFrom sep (i + 1) rest

/-- The predicate that `applyFilter` hands to `Where` for a filter. -/
def filterPredicate (filter : Filter) : sq.Sqlizer :=
  (applyFilter (sq.Select []) filter).WhereParts.getLastD (.Eq filter.Field filter.Value)

/-- The operand values of a filter: the list of `in`/`nin`, the scalar otherwise. -/
def operands (filter : Filter) : List Value :=
  if isListOperator filter.Operator then filter.Values else [filter.Value]

/-- The SQL shape the specification gives to each of the ten operators, with one
`?` per element of an `in`/`nin` list. -/
def specPredicate (filter : Filter) : String :=
  if filter.Operator = "eq" then filter.Field ++ " = ?"
  else if filter.Operator = "ne" then filter.Field ++ " <> ?"
  else if filter.Operator = "gt" then filter.Field ++ " > ?"
  else if filter.Operator = "gte" then filter.Field ++ " >= ?"
  else if filter.Operator = "lt" then filter.Field ++ " < ?"
  else if filter.Operator = "lte" then filter.Field ++ " <= ?"
  else if filter.Operator = "like" then filter.Field ++ " LIKE ?"
  else if filter.Operator = "nlike" then filter.Field ++ " NOT LIKE ?"
  else if filter.Operator = "in" then
    filter.Field ++ " IN (" ++ ",".intercalate (filter.Values.map fun _ => "?") ++ ")"
  else if filter.Operator = "nin" then
    filter.Field ++ " NOT IN (" ++ ",".intercalate (filter.Values.map fun _ => "?") ++ ")"
  else ""

/-- The WHERE clause as a conjunction of predicate texts, in order; no clause
when there is no predicate. -/
def whereClause (predicates : List String) : String :=
  if predicates.length > 0 then " WHERE " ++ " AND ".intercalate predicates else ""

/-- The ORDER BY clause of `BuildSelect`. -/
def orderByClause : Option Sorting → String
  | none => ""
  | some sorting =>
    " ORDER BY " ++ sorting.Field ++ (if sorting.Direction = "desc" then " DESC" else " ASC")

/-- The LIMIT clause of `BuildSelect`. -/
def limitClause : Option Pagination → String
  | none => ""
  | some pagination =>
    if pagination.Limit > 0 then " LIMIT " ++ Nat.repr pagination.Limit.toNat else ""

/-- The OFFSET clause of `BuildSelect`. -/
def offsetClause : Option Pagination → String
  | none => ""
  | some pagination =>
    if pagination.Offset > 0 then " OFFSET " ++ Nat.repr pagination.Offset.toNat else ""

/-- The comparison the generator writes for a scalar operator; an operator
outside the switch of `applyFilter` is treated as `eq`. -/
def operatorSymbol (op : FilterOperator) : String :=
  if op = OpNotEqual then "<>"
  else if op = OpGreater then ">"
  else if op = OpGreaterEqual then ">="
  else if op = OpLess then "<"
  else if op = OpLessEqual then "<="
  else if op = OpLike then "LIKE"
  else if op = OpNotLike then "NOT LIKE"
  else "="

/-- Two filters of the same shape: same field, same operator and, for `in`/`nin`,
lists of the same length; for every other operator both operands are non-null
scalars. Only the operand values may differ. -/
def sameShape (f g : Filter) : Prop :=
  f.Field = g.Field ∧ f.Operator = g.Operator ∧
    (if isListOperator f.Operator then f.Values.length = g.Values.length
      else f.Value.isScalar = true ∧ g.Value.isScalar = true)

instance (f g : Filter) : Decidable (sameShape f g) := by
  unfold sameShape
  infer_instance

/-- Whether a payload key names an auto-increment column of the table. -/
def isAutoIncrement (tableSchema : TableSchema) (col : String) : Bool :=
  match mapGet tableSchema.Columns col with
  | some colInfo => colInfo.IsAutoIncrement
  | none => false

/-- Whether a payload key names a column flagged as primary key. -/
def isPrimaryKey (tableSchema : TableSchema) (col : String) : Bool :=
  match mapGet tableSchema.Columns col with
  | some colInfo => colInfo.IsPrimaryKey
  | none => false

/-- The text of an INSERT into `table` with the given column list and one `?`
per column; the parenthesised column list is absent when there is no column. -/
def insertSql (table : String) (columns : List String) : String :=
  "INSERT INTO " ++ table ++ " " ++
    (if columns.length > 0 then "(" ++ ",".intercalate columns ++ ") " else "") ++
    "VALUES (" ++ ",".intercalate (columns.map fun _ => "?") ++ ")"

/-- The SET clause assigning one `?` to each of the given columns. -/
def setClause (columns : List String) : String :=
  " SET " ++ ", ".intercalate (columns.map fun c => c ++ " = ?")

/-! ## A sample schema: `users(id PK auto_inc, email, age, created_at, active)` -/

/-- A column record with the given name, type and key flags. -/
def sampleColumn (name type_ : String) (pk auto : Bool) : String × ColumnInfo :=
  (name, ⟨name, type_, "", false, pk, auto, none⟩)

/-- The table `users` of the scenarios. -/
def usersTable : TableSchema :=
  { Name := "users"
    Columns := [sampleColumn "id" "int" true true, sampleColumn "email" "varchar(255)" false false,
      sampleColumn "age" "int" false false, sampleColumn "created_at" "datetime" false false,
      sampleColumn "active" "bool" false false]
    PrimaryKey := "id"
    Relationships := [] }

/-- A table whose primary key `code` is not auto-increment. -/
def countriesTable : TableSchema :=
  { Name := "countries"
    Columns := [sampleColumn "code" "char(2)" true false,
      sampleColumn "name" "varchar(64)" false false]
    PrimaryKey := "code"
    Relationships := [] }

/-- A table without a primary key. -/
def logsTable : TableSchema :=
  { Name := "logs"
    Columns := [sampleColumn "line" "text" false false]
    PrimaryKey := ""
    Relationships := [] }

/-- A builder over the three sample tables. -/
def sampleBuilder : Builder :=
  ⟨⟨[("users", usersTable), ("countries", countriesTable), ("logs", logsTable)]⟩⟩

/-- The INSERT payload of scenario 4, `{"id":99,"email":"a@b","age":30}`. -/
def scenario4Payload : List (String × Value) :=
  [("id", .int 99), ("email", .str "a@b"), ("age", .int 30)]

/-- The UPDATE payload of scenario 5, `{"id":8,"email":"x@y"}`. -/
def scenario5Payload : List (String × Value) :=
  [("id", .int 8), ("email", .str "x@y")]

/-- The parameters of scenario 1, `age=gt.18&order=created_at.desc&limit=2`. -/
def scenario1Params : QueryParams :=
  { Filters := [⟨"age", OpGreater, .int 18, []⟩]
    Pagination := some ⟨2, 0, 0⟩
    Sorting := some ⟨"created_at", "desc"⟩
    Fields := [] }

/-! ## internal/config and internal/security: table access control -/

/-- The record `config.SecurityConfig`. -/
structure SecurityConfig where
  Enabled : Bool
  Whitelist : List String
  Blacklist : List String
  RequireAuth : Bool
  deriving DecidableEq, Repr

/-- The assignment `m[k] = v` on a Go map: the entry of `k` is replaced, or
added when there is none. -/
def mapSet {β : Type} : List (String × β) → String → β → List (String × β)
  | [], k, v => [(k, v)]
  | (k', v') :: rest, k, v =>
    if k' = k then (k, v) :: rest else (k', v') :: mapSet rest k v

/-- The statement `delete(m, k)` on a Go map. -/
def mapDelete {β : Type} (m : List (String × β)) (k : String) : List (String × β) :=
  m.filter fun kv => kv.1 ≠ k

/-- The read `m[k]` of a `map[string]bool`: `false` when the key is absent. -/
def mapBool (m : List (String × Bool)) (k : String) : Bool :=
  (mapGet m k).getD false

/-- The test of `strings.EqualFold` on one pair of runes: equal, or an ASCII
upper-case letter and its lower-case form; when the larger rune is not ASCII the
answer is that of `fold`, the orbit test of `unicode.SimpleFold`. -/
def equalFoldRune (fold : Char → Char → Bool) (sr tr : Char) : Bool :=
  if tr = sr then true
  else
    let lo := if tr < sr then tr else sr
    let hi := if tr < sr then sr else tr
    if hi.toNat < 128 then 65 ≤ lo.toNat && lo.toNat ≤ 90 && hi.toNat = lo.toNat + 32
    else fold lo hi

/-- The rune-by-rune loop of `strings.EqualFold`. -/
def equalFoldChars (fold : Char → Char → Bool) : List Char → List Char → Bool
  | [], [] => true
  | sr :: s, tr :: t => equalFoldRune fold sr tr && equalFoldChars fold s t
  | _, _ => false

/-- The function `strings.EqualFold`. -/
def EqualFold (fold : Char → Char → Bool) (s t : String) : Bool :=
  equalFoldChars fold s.data t.data

/-- The method `SecurityConfig.IsTableAllowed` of `config.go`. -/
def SecurityConfig.IsTableAllowed (fold : Char → Char → Bool) (s : SecurityConfig)
    (table : String) : Bool :=
  if s.Blacklist.any (fun blocked => EqualFold fold blocked table) then false
  else if s.Whitelist.length = 0 then true
  else s.Whitelist.any (fun allowed => EqualFold fold allowed table)

/-- The record `security.AccessControl` (its lock is not modelled); `cfg` is the
configuration the pointer refers to. -/
structure AccessControl where
  cfg : SecurityConfig
  whitelistMap : List (String × Bool)
  blacklistMap : List (String × Bool)
  deriving DecidableEq, Repr

/-- The function `NewAccessControl`. -/
def NewAccessControl (cfg : SecurityConfig) : AccessControl :=
  { cfg := cfg
    whitelistMap := cfg.Whitelist.foldl (fun m table => mapSet m table true) []
    blacklistMap := cfg.Blacklist.foldl (fun m table => mapSet m table true) [] }

/-- The method `AccessControl.IsTableAllowed`. -/
def AccessControl.IsTableAllowed (ac : AccessControl) (table : String) : Bool :=
  if !ac.cfg.Enabled then true
  else if mapBool ac.blacklistMap table then false
  else if ac.whitelistMap.length = 0 then true
  else mapBool ac.whitelistMap table

/-- The method `AccessControl.AddToWhitelist`. -/
def AccessControl.AddToWhitelist (ac : AccessControl) (table : String) : AccessControl :=
  { ac with whitelistMap := mapSet ac.whitelistMap table true }

/-- The method `AccessControl.AddToBlacklist`. -/
def AccessControl.AddToBlacklist (ac : AccessControl) (table : String) : AccessControl :=
  { ac with blacklistMap := mapSet ac.blacklistMap table true }

/-- The method `AccessControl.RemoveFromWhitelist`. -/
def AccessControl.RemoveFromWhitelist (ac : AccessControl) (table : String) :
    AccessControl :=
  { ac with whitelistMap := mapDelete ac.whitelistMap table }

/-- The method `AccessControl.RemoveFromBlacklist`. -/
def AccessControl.RemoveFromBlacklist (ac : AccessControl) (table : String) :
    AccessControl :=
  { ac with blacklistMap := mapDelete ac.blacklistMap table }

/-- A fold test for examples: no rune outside ASCII has a case variant. -/
def asciiFold : Char → Char → Bool :=
  fun _ _ => false

/-! ## internal/database/mysql/types.go: the type mapper -/

namespace mysql

/-- The record `TypeMapping`. -/
structure TypeMapping where
  GoType : String
  SQLType : String
  IsNumeric : Bool
  IsText : Bool
  IsTime : Bool
  IsBinary : Bool
  deriving DecidableEq, Repr

/-- An entry of the table for a numeric type. -/
def numericType (goType sqlType : String) : TypeMapping :=
  ⟨goType, sqlType, true, false, false, false⟩

/-- An entry of the table for a text type. -/
def textType (sqlType : String) : TypeMapping :=
  ⟨"string", sqlType, false, true, false, false⟩

/-- An entry of the table for a binary type. -/
def binaryType : TypeMapping :=
  ⟨"[]byte", "blob", false, false, false, true⟩

/-- An entry of the table for a temporal type. -/
def timeType (sqlType : String) : TypeMapping :=
  ⟨"time.Time", sqlType, false, false, true, false⟩

/-- The table `mysqlTypeMap`. -/
def mysqlTypeMap : List (String × TypeMapping) :=
  [("tinyint", numericType "int64" "integer"), ("smallint", numericType "int64" "integer"),
    ("mediumint", numericType "int64" "integer"), ("int", numericType "int64" "integer"),
    ("integer", numericType "int64" "integer"), ("bigint", numericType "int64" "bigint"),
    ("float", numericType "float64" "float"), ("double", numericType "float64" "double"),
    ("decimal", numericType "float64" "decimal"), ("numeric", numericType "float64" "decimal"),
    ("bit", numericType "int64" "integer"),
    ("char", textType "text"), ("varchar", textType "text"), ("tinytext", textType "text"),
    ("text", textType "text"), ("mediumtext", textType "text"), ("longtext", textType "text"),
    ("binary", binaryType), ("varbinary", binaryType), ("tinyblob", binaryType),
    ("blob", binaryType), ("mediumblob", binaryType), ("longblob", binaryType),
    ("date", timeType "date"), ("datetime", timeType "timestamp"),
    ("timestamp", timeType "timestamp"), ("time", timeType "time"),
    ("year", numericType "int64" "integer"),
    ("json", textType "json"),
    ("enum", textType "text"), ("set", textType "text"),
    ("bool", numericType "bool" "boolean")]

/-- The function `GetTypeMapping`. -/
def GetTypeMapping (mysqlType : String) : Option TypeMapping :=
  mapGet mysqlTypeMap mysqlType

/-- The function `toLower` of `types.go`: only the bytes `A`..`Z` change. -/
def toLower (s : String) : String :=
  String.mk
    (s.data.map fun c =>
      if 65 ≤ c.toNat ∧ c.toNat ≤ 90 then Char.ofNat (c.toNat + 32) else c)

/-- The first position at which `sub` occurs in a text. -/
def indexOf (sub : List Char) : List Char → Option Nat
  | [] => if sub = [] then some 0 else none
  | c :: cs =>
    if sub.isPrefixOf (c :: cs) then some 0
    else
      match indexOf sub cs with
      | some i => some (i + 1)
      | none => none

/-- The function `indexIgnoreCase`; `none` is the result `-1`. The suffixes
searched are ASCII, so a match starts on a rune boundary and the index counts
runes where the source counts bytes. -/
def indexIgnoreCase (s substr : String) : Option Nat :=
  indexOf (toLower substr).data (toLower s).data

/-- The list `suffixes` of `normalizeType`. -/
def suffixes : List String :=
  [" unsigned", " signed", " zerofill", " unsigned zerofill"]

/-- The function `normalizeType`: the text is cut at the first occurrence of each
suffix in turn. -/
def normalizeType (t : String) : String :=
  suffixes.foldl
    (fun t suffix =>
      match indexIgnoreCase t suffix with
      | some idx => String.mk (t.data.take idx)
      | none => t)
    t

/-- The function `ParseType`: the normalized text up to the first `(` or space. -/
def ParseType (typeDef : String) : String :=
  String.mk ((normalizeType typeDef).data.takeWhile fun c => !(c = '(' || c = ' '))

/-- The function `getGoType`. -/
def getGoType (mysqlType : String) : String :=
  match GetTypeMapping (ParseType mysqlType) with
  | none => "interface\x7b\x7d"
  | some mapping => mapping.GoType

end mysql

/-! ## internal/database: the driver interface; internal/database/mysql/introspector.go -/

/-- The record `database.ColumnInfo` that the driver returns. -/
structure DriverColumnInfo where
  Name : String
  Type_ : String
  Nullable : Bool
  DefaultValue : Option String
  IsPrimaryKey : Bool
  IsAutoIncrement : Bool
  MaxLength : Option Int
  deriving DecidableEq, Repr

/-- The answers of the driver to the catalog queries of one `LoadSchema` call;
an `error` is a non-nil error. -/
structure Driver where
  GetTables : Except String (List String)
  GetColumns : String → Except String (List DriverColumnInfo)
  GetPrimaryKey : String → Except String String
  GetRelationships : String → Except String (List RelationshipInfo)

/-- The function `NewSchemaCache`. -/
def NewSchemaCache : SchemaCache :=
  ⟨[]⟩

/-- The method `SchemaCache.Set`. -/
def SchemaCache.Set (sc : SchemaCache) (table : String) (schema : TableSchema) : SchemaCache :=
  ⟨mapSet sc.tables table schema⟩

/-- The method `SchemaCache.GetTables`. -/
def SchemaCache.GetTables (sc : SchemaCache) : List String :=
  mapKeys sc.tables

/-- The method `SchemaCache.TableExists`. -/
def SchemaCache.TableExists (sc : SchemaCache) (table : String) : Bool :=
  (mapGet sc.tables table).isSome

/-- The record `Introspector`: the cache its field points to. -/
structure Introspector where
  cache : SchemaCache
  deriving DecidableEq, Repr

/-- The method `Introspector.loadTableSchema`. -/
def loadTableSchema (driver : Driver) (tableName : String) : Except String TableSchema :=
  match driver.GetColumns tableName with
  | .error e => .error e
  | .ok columns =>
    match driver.GetPrimaryKey tableName with
    | .error e => .error e
    | .ok pk =>
      match driver.GetRelationships tableName with
      | .error e => .error e
      | .ok relationships =>
        .ok
          { Name := tableName
            Columns := columns.foldl
              (fun columnMap col =>
                mapSet columnMap col.Name
                  { Name := col.Name
                    Type_ := col.Type_
                    GoType := mysql.getGoType col.Type_
                    Nullable := col.Nullable
                    IsPrimaryKey := col.IsPrimaryKey
                    IsAutoIncrement := col.IsAutoIncrement
                    MaxLength := col.MaxLength })
              []
            PrimaryKey := pk
            Relationships := relationships }

/-- The loop of `LoadSchema` over the table names: `cache` is the object that
`i.cache` already points to; a failing table ends the loop with the tables set
so far. -/
def loadTables (driver : Driver) : SchemaCache → List String → SchemaCache × Option String
  | cache, [] => (cache, none)
  | cache, table :: rest =>
    match loadTableSchema driver table with
    | .error e => (cache, some ("failed to load schema for table " ++ table ++ ": " ++ e))
    | .ok tableSchema => loadTables driver (cache.Set table tableSchema) rest

/-- The method `Introspector.LoadSchema`: the introspector after the call and the
returned pair `(cache, err)`. -/
def Introspector.LoadSchema (i : Introspector) (driver : Driver) :
    Introspector × Except String SchemaCache :=
  match driver.GetTables with
  | .error e => (i, .error ("failed to load schema: " ++ e))
  | .ok tables =>
    match loadTables driver NewSchemaCache tables with
    | (cache, some e) => ({ i with cache := cache }, .error e)
    | (cache, none) => ({ i with cache := cache }, .ok cache)

/-- The method `Introspector.GetCachedSchema`. -/
def Introspector.GetCachedSchema (i : Introspector) : SchemaCache :=
  i.cache

/-- A driver whose catalog lists the tables `a` and `b`; the columns of `b`
cannot be read. -/
def failingDriver : Driver :=
  { GetTables := .ok ["a", "b"]
    GetColumns := fun table =>
      if table = "b" then .error "connection lost"
      else .ok [⟨"id", "int(11)", false, none, true, true, none⟩]
    GetPrimaryKey := fun _ => .ok "id"
    GetRelationships := fun _ => .ok [] }

/-- An introspector whose cache holds the table `users`. -/
def loadedIntrospector : Introspector :=
  ⟨⟨[("users", usersTable)]⟩⟩

/-! ## internal/query/filter.go: pagination and sorting -/

/-- The type `url.Values`, a `map[string][]string`. -/
abbrev UrlValues := List (String × List String)

/-- The method `url.Values.Get`: the first value of the key, or the empty text. -/
def UrlValues.Get (query : UrlValues) (key : String) : String :=
  match mapGet query key with
  | some (v :: _) => v
  | _ => ""

/-- The function `strconv.Atoi` on a 64-bit platform: the texts and values of
`strconv.ParseInt(s, 10, 64)`. -/
def Atoi (s : String) : Option Int :=
  ParseInt s

/-- The value a Go `int` holds after an arithmetic result: reduction to the
signed 64-bit range. -/
def wrapInt64 (x : Int) : Int :=
  (x + 2 ^ 63) % 2 ^ 64 - 2 ^ 63

/-- The `limit` step of `parsePagination`. -/
def applyLimit (pag : Pagination) (limit : String) : Pagination :=
  if limit ≠ "" then
    match Atoi limit with
    | some l => if l > 0 then { pag with Limit := if l > 1000 then 1000 else l } else pag
    | none => pag
  else pag

/-- The `offset` step of `parsePagination`. -/
def applyOffset (pag : Pagination) (offset : String) : Pagination :=
  if offset ≠ "" then
    match Atoi offset with
    | some o => if o ≥ 0 then { pag with Offset := o } else pag
    | none => pag
  else pag

/-- The `page` step of `parsePagination`; the product is a Go `int`. -/
def applyPage (pag : Pagination) (page : String) : Pagination :=
  if page ≠ "" then
    match Atoi page with
    | some p =>
      if p > 0 then { pag with Page := p, Offset := wrapInt64 ((p - 1) * pag.Limit) } else pag
    | none => pag
  else pag

/-- The function `parsePagination`. -/
def parsePagination (query : UrlValues) : Pagination :=
  let pag : Pagination := { Limit := 50, Offset := 0, Page := 0 }
  let pag := applyLimit pag (query.Get "limit")
  let pag := applyOffset pag (query.Get "offset")
  applyPage pag (query.Get "page")

/-- The function `parseSorting`; the result `none` is the nil pointer. -/
def parseSorting (lib : GoLib) (query : UrlValues) : Option Sorting :=
  let orderParam := query.Get "order"
  let orderParam := if orderParam = "" then query.Get "sort" else orderParam
  if orderParam = "" then none
  else
    let parts := Split orderParam '.'
    let sort : Sorting := { Field := parts.headD "", Direction := "asc" }
    match parts with
    | _ :: part1 :: _ =>
      let direction := lib.ToLower part1
      if direction = "desc" ∨ direction = "d" ∨ direction = "-" then
        some { sort with Direction := "desc" }
      else some sort
    | _ => some sort

/-- The text before the first occurrence of a separator, the whole text when
there is none. -/
def beforeFirst (s : String) (sep : Char) : String :=
  match cutFirst sep s.data with
  | some (before, _) => String.mk before
  | none => s

/-! ## internal/query/filter.go: the request parser -/

/-- The keys that the `switch` of `ParseFilters` skips. -/
def reservedKeys : List String :=
  ["limit", "offset", "page", "order", "sort", "fields"]

/-- The function `parseFields`; the nil slice is the empty list. -/
def parseFields (query : UrlValues) : List String :=
  let fieldsStr := query.Get "fields"
  if fieldsStr = "" then []
  else ((Split fieldsStr ',').map TrimSpace).filter fun f => f ≠ ""

/-- The loop of `ParseFilters` over the entries of `r.URL.Query()`, in the
visiting order of the map: an entry without values is skipped, the key is
lower-cased, a reserved key is skipped, and the first value of every other key
goes through `parseFilter`; the first error ends the loop. -/
def parseFilterEntries (lib : GoLib) : UrlValues → Except String (List Filter)
  | [] => .ok []
  | (key, values) :: rest =>
    match values with
    | [] => parseFilterEntries lib rest
    | value :: _ =>
      let key := lib.ToLower key
      if key ∈ reservedKeys then parseFilterEntries lib rest
      else
        match parseFilter lib key value with
        | .error err => .error ("invalid filter '" ++ key ++ "': " ++ err)
        | .ok filter =>
          match parseFilterEntries lib rest with
          | .error err => .error err
          | .ok filters =>
            match filter with
            | none => .ok filters
            | some f => .ok (f :: filters)

/-- The function `ParseFilters`, on the decoded query `r.URL.Query()` of the
request. -/
def ParseFilters (lib : GoLib) (query : UrlValues) : Except String QueryParams :=
  match parseFilterEntries lib query with
  | .error err => .error err
  | .ok filters =>
    .ok ⟨filters, some (parsePagination query), parseSorting lib query, parseFields query⟩

/-- The filter that one entry of the query contributes when `parseFilter`
accepts its first value. -/
def entryFilter (lib : GoLib) (entry : String × List String) : Option Filter :=
  match entry.2 with
  | [] => none
  | value :: _ =>
    if lib.ToLower entry.1 ∈ reservedKeys then none
    else
      match parseFilter lib (lib.ToLower entry.1) value with
      | .ok (some f) => some f
      | _ => none

/-- Scenario 1 as a decoded query: `age=gt.18&order=created_at.desc&limit=2`. -/
def scenario1Query : UrlValues :=
  [("age", ["gt.18"]), ("order", ["created_at.desc"]), ("limit", ["2"])]

/-- Scenario 2 as a decoded query: `email=like.%25@example.com&fields=id,email`,
where `%25` decodes to the percent sign. -/
def scenario2Query : UrlValues :=
  [("email", ["like.%@example.com"]), ("fields", ["id,email"])]

/-- A table whose column names contain upper-case letters. -/
def ordersTable : TableSchema :=
  { Name := "orders"
    Columns := [sampleColumn "Id" "int" true true, sampleColumn "Total" "int" false false]
    PrimaryKey := "Id"
    Relationships := [] }

/-- A builder over the table `orders`. -/
def ordersBuilder : Builder :=
  ⟨⟨[("orders", ordersTable)]⟩⟩

/-! ## internal/api/handlers/errors.go -/

/-- The record `ErrorResponse`, the error envelope. -/
structure ErrorResponse where
  Error : String
  Message : String
  Code : Int
  deriving DecidableEq, Repr

/-- What `SendError` writes to the response writer: the content type header,
the status line and the envelope that is encoded as the body. -/
structure SentError where
  ContentType : String
  Status : Int
  Body : ErrorResponse
  deriving DecidableEq, Repr

/-- The function `SendError`. The table `http.StatusText` of the standard
library is a parameter; the error `none` is the nil error, an error `some e`
has the text `e`. -/
def SendError (StatusText : Int → String) (status : Int) (message : String)
    (err : Option String) : SentError :=
  let resp : ErrorResponse := { Error := StatusText status, Message := message, Code := status }
  let resp := if err.isSome ∧ status ≥ 500 then { resp with Message := "An internal error occurred" }
    else resp
  { ContentType := "application/json", Status := status, Body := resp }

/-- The constant `ErrInvalidRequest`. -/
def ErrInvalidRequest : String := "Invalid request"

/-- The constant `ErrInvalidFilter`. -/
def ErrInvalidFilter : String := "Invalid filter"

/-- The call of `SendError` in the middleware `Recovery` after a panic. -/
def recoverySendError (StatusText : Int → String) : SentError :=
  SendError StatusText 500 "Internal server error" none

/-- The entries of `http.StatusText` used in the examples. -/
def sampleStatusText (status : Int) : String :=
  if status = 400 then "Bad Request"
  else if status = 404 then "Not Found"
  else if status = 500 then "Internal Server Error"
  else ""

/-- The table `users` when a `range` over its `Columns` map visits `email`
before `id`: the same map in another visiting order. -/
def usersTableRevisited : TableSchema :=
  { usersTable with
    Columns := [sampleColumn "email" "varchar(255)" false false, sampleColumn "id" "int" true true,
      sampleColumn "age" "int" false false, sampleColumn "created_at" "datetime" false false,
      sampleColumn "active" "bool" false false] }

/-- The builder over the sample tables at that second visit. -/
def revisitedBuilder : Builder :=
  ⟨⟨[("users", usersTableRevisited), ("countries", countriesTable), ("logs", logsTable)]⟩⟩

/-- A table with the columns `Order` and `Page`, whose lower-cased names are
reserved keys of the query string. -/
def itemsTable : TableSchema :=
  { Name := "items"
    Columns := [sampleColumn "id" "int" true true, sampleColumn "Order" "int" false false,
      sampleColumn "Page" "int" false false]
    PrimaryKey := "id"
    Relationships := [] }

/-- A builder over the table `items`. -/
def itemsBuilder : Builder :=
  ⟨⟨[("items", itemsTable)]⟩⟩

/-- A schema value whose column map holds both `Total` and `total`. -/
def ledgerTable : TableSchema :=
  { Name := "ledger"
    Columns := [sampleColumn "id" "int" true true, sampleColumn "Total" "int" false false,
      sampleColumn "total" "int" false false]
    PrimaryKey := "id"
    Relationships := [] }

/-- A builder over the table `ledger`. -/
def ledgerBuilder : Builder :=
  ⟨⟨[("ledger", ledgerTable)]⟩⟩

/-! ## Lookup in Go maps -/

theorem mapGet_eq_none_iff {β : Type} (m : List (String × β)) (k : String) :
    mapGet m k = none ↔ k ∉ mapKeys m := by
  induction m with
  | nil => simp [mapGet, mapKeys]
  | cons hd tl ih =>
    obtain ⟨k', v⟩ := hd
    by_cases h : k' = k
    · simp [mapGet, mapKeys, h]
    · have h' : ¬ k = k' := fun e => h e.symm
      simpa [mapGet, mapKeys, h, h'] using ih

theorem mapGet_isSome_of_mem {β : Type} (m : List (String × β)) (k : String)
    (h : k ∈ mapKeys m) : ∃ v, mapGet m k = some v := by
  cases hg : mapGet m k with
  | none => exact absurd h ((mapGet_eq_none_iff m k).1 hg)
  | some v => exact ⟨v, rfl⟩

/-! ## The validation loops of `BuildSelect` -/

theorem projectFields_error (ts : TableSchema) (table : String) (fields : List String)
    (h : ∃ f ∈ fields, f ∉ mapKeys ts.Columns) :
    ∃ e, projectFields ts table fields = .error e := by
  induction fields with
  | nil => simp at h
  | cons f rest ih =>
    unfold projectFields
    cases hg : mapGet ts.Columns f with
    | none => exact ⟨_, rfl⟩
    | some c =>
      have hf : f ∈ mapKeys ts.Columns := by
        by_contra hn
        rw [(mapGet_eq_none_iff _ _).2 hn] at hg
        cases hg
      have hrest : ∃ g ∈ rest, g ∉ mapKeys ts.Columns := by
        obtain ⟨g, hg1, hg2⟩ := h
        rcases List.mem_cons.1 hg1 with rfl | hmem
        · exact absurd hf hg2
        · exact ⟨g, hmem, hg2⟩
      obtain ⟨e, he⟩ := ih hrest
      exact ⟨e, by simp [he]⟩

theorem projectFields_ok (ts : TableSchema) (table : String) (fields : List String)
    (h : ∀ f ∈ fields, f ∈ mapKeys ts.Columns) :
    projectFields ts table fields = .ok fields := by
  induction fields with
  | nil => rfl
  | cons f rest ih =>
    unfold projectFields
    obtain ⟨c, hc⟩ := mapGet_isSome_of_mem ts.Columns f (h f (List.mem_cons_self _ _))
    rw [hc, ih (fun g hg => h g (List.mem_cons_of_mem _ hg))]

theorem selectFilters_error (ts : TableSchema) (table : String) (filters : List Filter)
    (h : ∃ f ∈ filters, f.Field ∉ mapKeys ts.Columns) (query : sq.SelectData) :
    ∃ e, selectFilters ts table query filters = .error e := by
  induction filters generalizing query with
  | nil => simp at h
  | cons f rest ih =>
    unfold selectFilters
    cases hg : mapGet ts.Columns f.Field with
    | none => exact ⟨_, rfl⟩
    | some c =>
      have hf : f.Field ∈ mapKeys ts.Columns := by
        by_contra hn
        rw [(mapGet_eq_none_iff _ _).2 hn] at hg
        cases hg
      have hrest : ∃ g ∈ rest, g.Field ∉ mapKeys ts.Columns := by
        obtain ⟨g, hg1, hg2⟩ := h
        rcases List.mem_cons.1 hg1 with rfl | hmem
        · exact absurd hf hg2
        · exact ⟨g, hmem, hg2⟩
      exact ih hrest _

theorem selectFilters_ok (ts : TableSchema) (table : String) (filters : List Filter)
    (h : ∀ f ∈ filters, f.Field ∈ mapKeys ts.Columns) (query : sq.SelectData) :
    selectFilters ts table query filters = .ok (filters.foldl applyFilter query) := by
  induction filters generalizing query with
  | nil => rfl
  | cons f rest ih =>
    unfold selectFilters
    obtain ⟨c, hc⟩ := mapGet_isSome_of_mem ts.Columns f.Field (h f (List.mem_cons_self _ _))
    rw [hc]
    exact ih (fun g hg => h g (List.mem_cons_of_mem _ hg)) _

/-! ## C1 -/

/-- C1: for a table of the schema cache, when a projection field, a filter field
or the sorting field is not a key of the table's `Columns`, `BuildSelect` returns
an error with empty SQL text and no arguments. -/
theorem BuildSelect_unknown_column_rejected (b : Builder) (table : String)
    (ts : TableSchema) (params : QueryParams)
    (hget : b.schema.Get table = some ts)
    (hunknown : (∃ f ∈ params.Fields, f ∉ mapKeys ts.Columns) ∨
      (∃ f ∈ params.Filters, f.Field ∉ mapKeys ts.Columns) ∨
      (∃ s, params.Sorting = some s ∧ s.Field ∉ mapKeys ts.Columns)) :
    ∃ msg, b.BuildSelect table params = ⟨"", [], some msg⟩ := by
  unfold Builder.BuildSelect
  rw [hget]
  simp only
  cases hc : selectColumns ts table params.Fields with
  | error e => exact ⟨e, rfl⟩
  | ok columns =>
    simp only
    cases hf : selectFilters ts table ((sq.Select columns).from_ table) params.Filters with
    | error e => exact ⟨e, rfl⟩
    | ok query =>
      simp only
      cases hs : selectSorting ts query params.Sorting with
      | error e => exact ⟨e, rfl⟩
      | ok query' =>
        exfalso
        rcases hunknown with h | h | ⟨s, hs1, hs2⟩
        · have hne : params.Fields.length > 0 := by
            obtain ⟨f, hf1, _⟩ := h
            exact List.length_pos_of_mem hf1
          obtain ⟨e, he⟩ := projectFields_error ts table params.Fields h
          simp [selectColumns, hne, he] at hc
        · obtain ⟨e, he⟩ := selectFilters_error ts table params.Filters h
            ((sq.Select columns).from_ table)
          rw [he] at hf
          cases hf
        · rw [hs1] at hs
          simp [selectSorting, (mapGet_eq_none_iff _ _).2 hs2] at hs

theorem BuildSelect_unknown_column_rejected_witness :
    sampleBuilder.schema.Get "users" = some usersTable ∧
    ∃ msg, sampleBuilder.BuildSelect "users"
      ⟨[⟨"age", OpGreater, .int 18, []⟩], none, some ⟨"nope", "desc"⟩, ["id"]⟩ =
        ⟨"", [], some msg⟩ :=
  ⟨by decide, BuildSelect_unknown_column_rejected sampleBuilder "users" usersTable _
    (by decide) (Or.inr (Or.inr ⟨⟨"nope", "desc"⟩, rfl, by decide⟩))⟩

/-! ## C2 -/

/-- C2 (divergence): `BuildCount` does not check filter fields. On `users`, the
filter `nope = 18` on a column that does not exist is compiled to SQL text with
no error, while `BuildSelect` rejects the same request. -/
theorem BuildCount_unknown_column_emits_sql :
    "nope" ∉ mapKeys usersTable.Columns ∧
      sampleBuilder.BuildCount "users" ⟨[⟨"nope", OpEqual, .int 18, []⟩], none, none, []⟩ =
        ⟨"SELECT COUNT(*) as count FROM users WHERE nope = ?", [.int 18], none⟩ ∧
      sampleBuilder.BuildSelect "users" ⟨[⟨"nope", OpEqual, .int 18, []⟩], none, none, []⟩ =
        ⟨"", [], some "unknown column 'nope' in table 'users'"⟩ :=
  ⟨by decide, rfl, rfl⟩

/-! ## Text written by the generator -/

theorem eq_empty_of_length_eq_zero (s : String) (h : s.length = 0) : s = "" := by
  cases s with
  | mk data =>
    have hd : data = [] := List.length_eq_zero.1 h
    subst hd
    rfl

theorem writtenFrom_pos (sep : String) (l : List String) (i j : Nat) (hi : 0 < i) (hj : 0 < j) :
    sq.writtenFrom sep i l = sq.writtenFrom sep j l := by
  induction l generalizing i j with
  | nil => simp [sq.writtenFrom]
  | cons s rest ih =>
    simp only [sq.writtenFrom, hi, hj, if_true]
    rw [ih (i + 1) (j + 1) (Nat.succ_pos _) (Nat.succ_pos _)]

theorem intercalate_go_eq (sep : String) (l : List String) (acc : String)
    (h : ∀ s ∈ l, s.length ≠ 0) :
    String.intercalate.go acc sep l = acc ++ sq.writtenFrom sep 1 l := by
  induction l generalizing acc with
  | nil => simp [String.intercalate.go, sq.writtenFrom]
  | cons s rest ih =>
    have hs : s.length ≠ 0 := h s (List.mem_cons_self _ _)
    simp only [String.intercalate.go, sq.writtenFrom, hs, if_false]
    rw [ih _ (fun t ht => h t (List.mem_cons_of_mem _ ht))]
    rw [writtenFrom_pos sep rest (1 + 1) 1 (by decide) (by decide)]
    simp [String.append_assoc]

theorem writtenFrom_eq_intercalate (sep : String) (l : List String)
    (h : ∀ s ∈ l, s.length ≠ 0) :
    sq.writtenFrom sep 0 l = sep.intercalate l := by
  cases l with
  | nil => rfl
  | cons s rest =>
    have hs : s.length ≠ 0 := h s (List.mem_cons_self _ _)
    simp only [sq.writtenFrom, hs, if_false, String.intercalate]
    rw [intercalate_go_eq sep rest s (fun t ht => h t (List.mem_cons_of_mem _ ht))]
    simp

theorem appendToSqlFrom_ok (sep : String) (parts : List SqlResult)
    (h : ∀ p ∈ parts, p.err = none ∧ (p.sql.length = 0 → p.args = []))
    (i : Nat) (w : String) (args : List Value) :
    sq.appendToSqlFrom sep i parts w args =
      .ok (w ++ sq.writtenFrom sep i (parts.map (·.sql)), args ++ parts.flatMap (·.args)) := by
  induction parts generalizing i w args with
  | nil => simp [sq.appendToSqlFrom, sq.writtenFrom]
  | cons p ps ih =>
    have hp : p.err = none := (h p (List.mem_cons_self _ _)).1
    have hps : ∀ q ∈ ps, q.err = none ∧ (q.sql.length = 0 → q.args = []) :=
      fun q hq => h q (List.mem_cons_of_mem _ hq)
    unfold sq.appendToSqlFrom
    rw [hp]
    simp only [List.map_cons, sq.writtenFrom, List.flatMap_cons]
    by_cases hz : p.sql.length = 0
    · have hargs : p.args = [] := (h p (List.mem_cons_self _ _)).2 hz
      simp only [hz, if_true]
      rw [ih hps, hargs]
      simp
    · simp only [hz, if_false]
      rw [ih hps]
      by_cases hi : i > 0 <;> simp [hi, String.append_assoc, List.append_assoc]


theorem appendToSql_strings (sep : String) (l : List String) (w : String) (args : List Value) :
    sq.appendToSql (l.map sq.partToSql) w sep args = .ok (w ++ sq.writtenFrom sep 0 l, args) := by
  unfold sq.appendToSql
  rw [appendToSqlFrom_ok sep _ (by simp [sq.partToSql])]
  simp [sq.partToSql, List.flatMap, Function.comp_def]

theorem writtenFrom_single (sep t : String) : sq.writtenFrom sep 0 [t] = t := by
  by_cases h : t.length = 0
  · simp [sq.writtenFrom, h, eq_empty_of_length_eq_zero t h]
  · simp [sq.writtenFrom, h]


/-! ## The predicates of `applyFilter` -/

theorem applyFilter_eq (query : sq.SelectData) (filter : Filter) :
    applyFilter query filter = query.Where (filterPredicate filter) := by
  unfold filterPredicate applyFilter
  by_cases h0 : filter.Operator = OpEqual
  · rw [if_pos h0, if_pos h0]; rfl
  rw [if_neg h0, if_neg h0]
  by_cases h1 : filter.Operator = OpNotEqual
  · rw [if_pos h1, if_pos h1]; rfl
  rw [if_neg h1, if_neg h1]
  by_cases h2 : filter.Operator = OpGreater
  · rw [if_pos h2, if_pos h2]; rfl
  rw [if_neg h2, if_neg h2]
  by_cases h3 : filter.Operator = OpGreaterEqual
  · rw [if_pos h3, if_pos h3]; rfl
  rw [if_neg h3, if_neg h3]
  by_cases h4 : filter.Operator = OpLess
  · rw [if_pos h4, if_pos h4]; rfl
  rw [if_neg h4, if_neg h4]
  by_cases h5 : filter.Operator = OpLessEqual
  · rw [if_pos h5, if_pos h5]; rfl
  rw [if_neg h5, if_neg h5]
  by_cases h6 : filter.Operator = OpLike
  · rw [if_pos h6, if_pos h6]; rfl
  rw [if_neg h6, if_neg h6]
  by_cases h7 : filter.Operator = OpNotLike
  · rw [if_pos h7, if_pos h7]; rfl
  rw [if_neg h7, if_neg h7]
  by_cases h8 : filter.Operator = OpIn
  · rw [if_pos h8, if_pos h8]; rfl
  rw [if_neg h8, if_neg h8]
  by_cases h9 : filter.Operator = OpNotIn
  · rw [if_pos h9, if_pos h9]; rfl
  rw [if_neg h9, if_neg h9]
  rfl

theorem foldl_applyFilter (filters : List Filter) (query : sq.SelectData) :
    filters.foldl applyFilter query =
      { query with WhereParts := query.WhereParts ++ filters.map filterPredicate } := by
  induction filters generalizing query with
  | nil => simp
  | cons f rest ih =>
    rw [List.foldl_cons, ih, applyFilter_eq]
    simp [sq.SelectData.Where]

theorem length_append_pos (a b : String) (h : 0 < b.length) : (a ++ b).length ≠ 0 := by
  rw [String.length_append]
  omega

theorem ToSql_sql_length (p : sq.Sqlizer) (h : p.ToSql.err = none) : p.ToSql.sql.length ≠ 0 := by
  cases p <;> rename_i k v <;> cases v <;>
    first
    | exact length_append_pos _ _ (by decide)
    | (simp only [sq.Sqlizer.ToSql, sq.eqToSQL]
       split_ifs <;> first | decide | exact length_append_pos _ _ (by decide))
    | (simp [sq.Sqlizer.ToSql, sq.ltToSql, sq.likeToSql, SqlResult.fail] at h)

theorem appendToSql_where (parts : List sq.Sqlizer) (h : ∀ p ∈ parts, p.ToSql.err = none)
    (w : String) (args : List Value) :
    sq.appendToSql (parts.map sq.Sqlizer.ToSql) w " AND " args =
      .ok (w ++ " AND ".intercalate (parts.map (·.ToSql.sql)),
        args ++ parts.flatMap (·.ToSql.args)) := by
  unfold sq.appendToSql
  rw [appendToSqlFrom_ok " AND " _ (by
    intro p hp
    obtain ⟨q, hq, rfl⟩ := List.mem_map.1 hp
    exact ⟨h q hq, fun hz => absurd hz (ToSql_sql_length q (h q hq))⟩)]
  rw [writtenFrom_eq_intercalate " AND " _ (by
    intro s hs
    simp only [List.map_map, List.mem_map, Function.comp] at hs
    obtain ⟨q, hq, rfl⟩ := hs
    exact ToSql_sql_length q (h q hq))]
  simp [List.flatMap, List.map_map, Function.comp_def]


theorem toDigitsCore_length_le (b fuel n : Nat) (ds : List Char) :
    ds.length ≤ (Nat.toDigitsCore b fuel n ds).length := by
  induction fuel generalizing n ds with
  | zero => simp [Nat.toDigitsCore]
  | succ f ih =>
    simp only [Nat.toDigitsCore]
    split_ifs
    · simp
    · exact Nat.le_trans (by simp) (ih _ _)

theorem repr_length_pos (n : Nat) : (Nat.repr n).length > 0 := by
  have h : (Nat.toDigits 10 n).length > 0 := by
    unfold Nat.toDigits
    simp only [Nat.toDigitsCore]
    split_ifs
    · simp
    · exact Nat.lt_of_lt_of_le (by simp) (toDigitsCore_length_le _ _ _ _)
  simpa [Nat.repr, List.asString, String.length] using h

/-! ## The normal form of a generated SELECT -/

theorem SelectData.ToSql_eq (d : sq.SelectData) (hcols : d.Columns ≠ [])
    (hwhere : ∀ p ∈ d.WhereParts, p.ToSql.err = none) :
    d.ToSql =
      ⟨"SELECT " ++ sq.writtenFrom ", " 0 d.Columns ++
          (match d.From with
            | some t => " FROM " ++ t
            | none => "") ++
          whereClause (d.WhereParts.map (·.ToSql.sql)) ++
          (if d.OrderByParts.length > 0 then
            " ORDER BY " ++ sq.writtenFrom ", " 0 d.OrderByParts else "") ++
          (if d.Limit.length > 0 then " LIMIT " ++ d.Limit else "") ++
          (if d.Offset.length > 0 then " OFFSET " ++ d.Offset else ""),
        d.WhereParts.flatMap (·.ToSql.args), none⟩ := by
  have hlen : ¬ d.Columns.length = 0 := fun h => hcols (List.length_eq_zero.1 h)
  unfold sq.SelectData.ToSql sq.SelectData.toSqlRaw
  rw [if_neg hlen, appendToSql_strings]
  simp only
  have hfrom : (match d.From with
      | some t => sq.appendToSql [sq.partToSql t]
          ("SELECT " ++ sq.writtenFrom ", " 0 d.Columns ++ " FROM ") "" []
      | none => Except.ok ("SELECT " ++ sq.writtenFrom ", " 0 d.Columns, [])) =
      Except.ok ("SELECT " ++ sq.writtenFrom ", " 0 d.Columns ++
          (match d.From with
            | some t => " FROM " ++ t
            | none => ""), []) := by
    cases d.From with
    | none => simp
    | some t =>
      have := appendToSql_strings "" [t]
        ("SELECT " ++ sq.writtenFrom ", " 0 d.Columns ++ " FROM ") []
      simp only [List.map_cons, List.map_nil] at this
      simp only [this, writtenFrom_single]
      simp [String.append_assoc]
  rw [hfrom]
  simp only
  by_cases hl : d.Limit.length > 0 <;> by_cases hf : d.Offset.length > 0
  all_goals
    by_cases hw : d.WhereParts.length > 0
    · by_cases ho : d.OrderByParts.length > 0
      · simp [sq.finish, whereClause, hw, ho, hl, hf, appendToSql_strings,
          appendToSql_where _ hwhere, String.append_assoc]
      · simp [sq.finish, whereClause, hw, ho, hl, hf, appendToSql_strings,
          appendToSql_where _ hwhere, String.append_assoc]
    · have hnil : d.WhereParts = [] := by
        cases hd : d.WhereParts with
        | nil => rfl
        | cons a l => simp [hd] at hw
      by_cases ho : d.OrderByParts.length > 0
      · simp [sq.finish, whereClause, hnil, ho, hl, hf, appendToSql_strings,
          String.append_assoc]
      · simp [sq.finish, whereClause, hnil, ho, hl, hf, appendToSql_strings,
          String.append_assoc]


theorem selectSorting_some (ts : TableSchema) (query : sq.SelectData) (s : Sorting)
    (hsort : s.Field ∈ mapKeys ts.Columns) :
    selectSorting ts query (some s) = .ok
      { query with OrderByParts := query.OrderByParts ++
          [s.Field ++ (if s.Direction = "desc" then " DESC" else " ASC")] } := by
  obtain ⟨c, hc⟩ := mapGet_isSome_of_mem ts.Columns s.Field hsort
  simp only [selectSorting, hc, sq.SelectData.OrderBy]
  split_ifs <;> rfl

theorem BuildSelect_eq (b : Builder) (table : String) (ts : TableSchema)
    (params : QueryParams) (columns : List String)
    (hget : b.schema.Get table = some ts)
    (hcols : selectColumns ts table params.Fields = .ok columns)
    (hne : columns ≠ [])
    (hfilters : ∀ f ∈ params.Filters, f.Field ∈ mapKeys ts.Columns)
    (hpred : ∀ f ∈ params.Filters, (filterPredicate f).ToSql.err = none)
    (hsort : ∀ s, params.Sorting = some s → s.Field ∈ mapKeys ts.Columns) :
    b.BuildSelect table params =
      ⟨"SELECT " ++ sq.writtenFrom ", " 0 columns ++ " FROM " ++ table ++
          whereClause (params.Filters.map fun f => (filterPredicate f).ToSql.sql) ++
          orderByClause params.Sorting ++ limitClause params.Pagination ++
          offsetClause params.Pagination,
        params.Filters.flatMap (fun f => (filterPredicate f).ToSql.args), none⟩ := by
  obtain ⟨filters, pagination, sorting, fields⟩ := params
  simp only at hcols hfilters hpred hsort
  unfold Builder.BuildSelect
  rw [hget]
  simp only [hcols]
  rw [selectFilters_ok ts table filters hfilters, foldl_applyFilter]
  simp only
  have hwhere : ∀ p ∈ List.map filterPredicate filters, p.ToSql.err = none := by
    intro p hp
    obtain ⟨f, hf, rfl⟩ := List.mem_map.1 hp
    exact hpred f hf
  have hrepr : ∀ n : Nat, 0 < (Nat.repr n).length := repr_length_pos
  cases sorting with
  | none =>
    simp only [selectSorting]
    cases pagination with
    | none =>
      simp only [selectPagination]
      rw [SelectData.ToSql_eq _ hne (by
        simpa [sq.Select, sq.SelectData.from_, sq.SelectData.setLimit,
          sq.SelectData.setOffset] using hwhere)]
      simp [sq.Select, sq.SelectData.from_, orderByClause, limitClause, offsetClause,
        List.flatMap, List.map_map, Function.comp_def, String.append_assoc]
    | some pg =>
      by_cases hl : pg.Limit > 0 <;> by_cases ho : pg.Offset > 0 <;>
      simp only [selectPagination, hl, ho, if_true, if_false] <;>
      rw [SelectData.ToSql_eq _ hne (by
        simpa [sq.Select, sq.SelectData.from_, sq.SelectData.setLimit,
          sq.SelectData.setOffset] using hwhere)] <;>
      simp [sq.Select, sq.SelectData.from_, orderByClause, limitClause, offsetClause,
        sq.SelectData.setLimit, sq.SelectData.setOffset,
        List.flatMap, List.map_map, Function.comp_def, String.append_assoc, hl, ho, hrepr]
  | some srt =>
    rw [selectSorting_some ts _ srt (hsort srt rfl)]
    simp only
    cases pagination with
    | none =>
      simp only [selectPagination]
      rw [SelectData.ToSql_eq _ hne (by
        simpa [sq.Select, sq.SelectData.from_, sq.SelectData.setLimit,
          sq.SelectData.setOffset] using hwhere)]
      simp [sq.Select, sq.SelectData.from_, orderByClause, limitClause, offsetClause,
        List.flatMap, List.map_map, Function.comp_def, String.append_assoc,
        writtenFrom_single]
    | some pg =>
      by_cases hl : pg.Limit > 0 <;> by_cases ho : pg.Offset > 0 <;>
      simp only [selectPagination, hl, ho, if_true, if_false] <;>
      rw [SelectData.ToSql_eq _ hne (by
        simpa [sq.Select, sq.SelectData.from_, sq.SelectData.setLimit,
          sq.SelectData.setOffset] using hwhere)] <;>
      simp [sq.Select, sq.SelectData.from_, orderByClause, limitClause, offsetClause,
        sq.SelectData.setLimit, sq.SelectData.setOffset,
        List.flatMap, List.map_map, Function.comp_def, String.append_assoc, hl, ho, hrepr,
        writtenFrom_single]


theorem eqToSQL_scalar (n : Bool) (k : String) (v : Value) (hv : v.isScalar = true) :
    sq.eqToSQL n k v = ⟨k ++ " " ++ (if n then "<>" else "=") ++ " ?", [v], none⟩ := by
  cases v <;> first | rfl | simp [Value.isScalar] at hv

theorem ltToSql_scalar (o e : Bool) (k : String) (v : Value) (hv : v.isScalar = true) :
    sq.ltToSql o e k v =
      ⟨k ++ " " ++
          (if e then (if o then ">" else "<") ++ "=" else (if o then ">" else "<")) ++ " ?",
        [v], none⟩ := by
  cases v <;> first | rfl | simp [Value.isScalar] at hv

theorem likeToSql_scalar (opr k : String) (v : Value) (hv : v.isScalar = true) :
    sq.likeToSql opr k v = ⟨k ++ " " ++ opr ++ " ?", [v], none⟩ := by
  cases v <;> first | rfl | simp [Value.isScalar] at hv

theorem filterPredicate_scalar (f : Filter) (hop : isListOperator f.Operator = false)
    (hv : f.Value.isScalar = true) :
    (filterPredicate f).ToSql =
      ⟨f.Field ++ " " ++ operatorSymbol f.Operator ++ " ?", [f.Value], none⟩ := by
  have hin : ¬ f.Operator = OpIn := by
    intro h; simp [isListOperator, h] at hop
  have hnin : ¬ f.Operator = OpNotIn := by
    intro h; simp [isListOperator, h] at hop
  unfold filterPredicate applyFilter operatorSymbol
  by_cases h0 : f.Operator = OpEqual
  · rw [if_pos h0]
    simp only [h0]
    exact eqToSQL_scalar false _ _ hv
  rw [if_neg h0]
  by_cases h1 : f.Operator = OpNotEqual
  · rw [if_pos h1]
    simp only [h1]
    exact eqToSQL_scalar true _ _ hv
  rw [if_neg h1]
  by_cases h2 : f.Operator = OpGreater
  · rw [if_pos h2]
    simp only [h2]
    exact ltToSql_scalar true false _ _ hv
  rw [if_neg h2]
  by_cases h3 : f.Operator = OpGreaterEqual
  · rw [if_pos h3]
    simp only [h3]
    exact ltToSql_scalar true true _ _ hv
  rw [if_neg h3]
  by_cases h4 : f.Operator = OpLess
  · rw [if_pos h4]
    simp only [h4]
    exact ltToSql_scalar false false _ _ hv
  rw [if_neg h4]
  by_cases h5 : f.Operator = OpLessEqual
  · rw [if_pos h5]
    simp only [h5]
    exact ltToSql_scalar false true _ _ hv
  rw [if_neg h5]
  by_cases h6 : f.Operator = OpLike
  · rw [if_pos h6]
    simp only [h6]
    exact likeToSql_scalar _ _ _ hv
  rw [if_neg h6]
  by_cases h7 : f.Operator = OpNotLike
  · rw [if_pos h7]
    simp only [h7]
    exact likeToSql_scalar _ _ _ hv
  rw [if_neg h7]
  rw [if_neg hin, if_neg hnin]
  simp only [h1, h2, h3, h4, h5, h6, h7, if_false]
  exact eqToSQL_scalar false _ _ hv

theorem filterPredicate_list (f : Filter) (hop : isListOperator f.Operator = true) :
    (filterPredicate f).ToSql =
      sq.eqToSQL (decide (f.Operator = OpNotIn)) f.Field (.list f.Values) := by
  have hcases : f.Operator = OpIn ∨ f.Operator = OpNotIn := by
    simpa [isListOperator] using hop
  rcases hcases with h | h
  · unfold filterPredicate applyFilter
    simp only [h]
    rfl
  · unfold filterPredicate applyFilter
    simp only [h]
    rfl

theorem filterPredicate_sameShape (f g : Filter) (h : sameShape f g) :
    (filterPredicate f).ToSql.err = none ∧ (filterPredicate g).ToSql.err = none ∧
      (filterPredicate f).ToSql.sql = (filterPredicate g).ToSql.sql ∧
      (filterPredicate f).ToSql.args = operands f ∧
      (filterPredicate g).ToSql.args = operands g := by
  obtain ⟨hfield, hop, hrest⟩ := h
  cases hl : isListOperator f.Operator with
  | true =>
    have hl' : isListOperator g.Operator = true := hop ▸ hl
    simp only [hl, if_true] at hrest
    rw [filterPredicate_list f hl, filterPredicate_list g hl', ← hfield, ← hop]
    by_cases hz : f.Values.length = 0
    · have hz' : g.Values.length = 0 := hrest ▸ hz
      simp [sq.eqToSQL, operands, hl, hl', List.length_eq_zero.1 hz,
        List.length_eq_zero.1 hz']
    · have hz' : ¬ g.Values.length = 0 := hrest ▸ hz
      simp only [sq.eqToSQL, operands, hl, hl', if_true, hz, hz', if_false, ← hrest]
      simp
  | false =>
    have hl' : isListOperator g.Operator = false := hop ▸ hl
    simp only [hl, if_false] at hrest
    rw [filterPredicate_scalar f hl hrest.1, filterPredicate_scalar g hl' hrest.2, ← hfield,
      ← hop]
    simp [operands, hl, hl']


theorem selectFilters_congr (ts : TableSchema) (table : String) (fs gs : List Filter)
    (h : List.Forall₂ sameShape fs gs) (q1 q2 : sq.SelectData) :
    (∃ e, selectFilters ts table q1 fs = .error e ∧ selectFilters ts table q2 gs = .error e) ∨
      ((∀ f ∈ fs, f.Field ∈ mapKeys ts.Columns) ∧
        (∀ g ∈ gs, g.Field ∈ mapKeys ts.Columns)) := by
  induction h generalizing q1 q2 with
  | nil => exact Or.inr ⟨by simp, by simp⟩
  | @cons f g fs' gs' hfg _ ih =>
    have hfield : f.Field = g.Field := hfg.1
    cases hg : mapGet ts.Columns f.Field with
    | none =>
      refine Or.inl ⟨unknownColumn f.Field table, ?_, ?_⟩
      · simp [selectFilters, hg]
      · simp [selectFilters, ← hfield, hg]
    | some c =>
      have hmem : f.Field ∈ mapKeys ts.Columns := by
        by_contra hn
        rw [(mapGet_eq_none_iff _ _).2 hn] at hg
        cases hg
      rcases ih (applyFilter q1 f) (applyFilter q2 g) with ⟨e, h1, h2⟩ | ⟨h1, h2⟩
      · refine Or.inl ⟨e, ?_, ?_⟩
        · simp [selectFilters, hg, h1]
        · simp [selectFilters, ← hfield, hg, h2]
      · refine Or.inr ⟨?_, ?_⟩
        · intro x hx
          rcases List.mem_cons.1 hx with rfl | hx
          · exact hmem
          · exact h1 x hx
        · intro x hx
          rcases List.mem_cons.1 hx with rfl | hx
          · exact hfield ▸ hmem
          · exact h2 x hx

theorem selectPagination_Columns (query : sq.SelectData) (pagination : Option Pagination) :
    (selectPagination query pagination).Columns = query.Columns := by
  cases pagination with
  | none => rfl
  | some pg =>
    simp only [selectPagination, sq.SelectData.setLimit, sq.SelectData.setOffset]
    split_ifs <;> rfl

theorem ToSql_no_columns (d : sq.SelectData) (h : d.Columns = []) :
    d.ToSql = SqlResult.fail "select statements must have at least one result column" := by
  simp [sq.SelectData.ToSql, sq.SelectData.toSqlRaw, h, sq.finish]

theorem BuildSelect_no_columns (b : Builder) (table : String) (ts : TableSchema)
    (params : QueryParams)
    (hget : b.schema.Get table = some ts)
    (hcols : selectColumns ts table params.Fields = .ok [])
    (hfilters : ∀ f ∈ params.Filters, f.Field ∈ mapKeys ts.Columns)
    (hsort : ∀ s, params.Sorting = some s → s.Field ∈ mapKeys ts.Columns) :
    b.BuildSelect table params =
      SqlResult.fail "select statements must have at least one result column" := by
  obtain ⟨filters, pagination, sorting, fields⟩ := params
  simp only at hcols hfilters hsort
  unfold Builder.BuildSelect
  rw [hget]
  simp only [hcols]
  rw [selectFilters_ok ts table filters hfilters, foldl_applyFilter]
  simp only
  cases sorting with
  | none =>
    simp only [selectSorting]
    exact ToSql_no_columns _ (by rw [selectPagination_Columns]; rfl)
  | some srt =>
    rw [selectSorting_some ts _ srt (hsort srt rfl)]
    exact ToSql_no_columns _ (by rw [selectPagination_Columns]; rfl)

theorem selectSorting_unknown (ts : TableSchema) (query : sq.SelectData) (s : Sorting)
    (h : s.Field ∉ mapKeys ts.Columns) :
    selectSorting ts query (some s) =
      .error ("unknown column '" ++ s.Field ++ "' for sorting") := by
  simp [selectSorting, (mapGet_eq_none_iff _ _).2 h]

theorem BuildSelect_sorting_unknown (b : Builder) (table : String) (ts : TableSchema)
    (params : QueryParams) (columns : List String) (s : Sorting)
    (hget : b.schema.Get table = some ts)
    (hcols : selectColumns ts table params.Fields = .ok columns)
    (hfilters : ∀ f ∈ params.Filters, f.Field ∈ mapKeys ts.Columns)
    (hs : params.Sorting = some s) (hunk : s.Field ∉ mapKeys ts.Columns) :
    b.BuildSelect table params =
      SqlResult.fail ("unknown column '" ++ s.Field ++ "' for sorting") := by
  unfold Builder.BuildSelect
  rw [hget]
  simp only [hcols]
  rw [selectFilters_ok ts table params.Filters hfilters]
  simp only [hs, selectSorting_unknown ts _ s hunk]

theorem flatMap_forall₂_args (fs : List Filter)
    (h : ∀ f ∈ fs, (filterPredicate f).ToSql.args = operands f) :
    fs.flatMap (fun f => (filterPredicate f).ToSql.args) = fs.flatMap operands := by
  induction fs with
  | nil => rfl
  | cons f rest ih =>
    simp only [List.flatMap_cons]
    rw [h f (List.mem_cons_self _ _), ih (fun g hg => h g (List.mem_cons_of_mem _ hg))]

theorem sameShape_facts (fs gs : List Filter) (h : List.Forall₂ sameShape fs gs) :
    (∀ f ∈ fs, (filterPredicate f).ToSql.err = none) ∧
      (∀ g ∈ gs, (filterPredicate g).ToSql.err = none) ∧
      fs.map (fun f => (filterPredicate f).ToSql.sql) =
        gs.map (fun g => (filterPredicate g).ToSql.sql) ∧
      (∀ f ∈ fs, (filterPredicate f).ToSql.args = operands f) ∧
      (∀ g ∈ gs, (filterPredicate g).ToSql.args = operands g) := by
  induction h with
  | nil => simp
  | @cons f g fs' gs' hfg _ ih =>
    obtain ⟨a1, a2, a3, a4, a5⟩ := filterPredicate_sameShape f g hfg
    obtain ⟨b1, b2, b3, b4, b5⟩ := ih
    refine ⟨?_, ?_, ?_, ?_, ?_⟩
    · intro x hx
      rcases List.mem_cons.1 hx with rfl | hx
      exacts [a1, b1 x hx]
    · intro x hx
      rcases List.mem_cons.1 hx with rfl | hx
      exacts [a2, b2 x hx]
    · simp [a3, b3]
    · intro x hx
      rcases List.mem_cons.1 hx with rfl | hx
      exacts [a4, b4 x hx]
    · intro x hx
      rcases List.mem_cons.1 hx with rfl | hx
      exacts [a5, b5 x hx]


/-! ## Operand values within one visit of the column map -/

/-- When both calls visit the column map in the same order: two parameter sets
with the same fields, sorting and pagination whose filters agree in field,
operator and list length get the same SQL text and the same error outcome from
`BuildSelect`; on success the returned arguments are the operand values, in
filter order. -/
theorem BuildSelect_operands_same_visit (b : Builder) (table : String)
    (p q : QueryParams)
    (hfields : p.Fields = q.Fields) (hsorting : p.Sorting = q.Sorting)
    (hpagination : p.Pagination = q.Pagination)
    (hshape : List.Forall₂ sameShape p.Filters q.Filters) :
    (b.BuildSelect table p).sql = (b.BuildSelect table q).sql ∧
      (b.BuildSelect table p).err = (b.BuildSelect table q).err ∧
      ((b.BuildSelect table p).err = none →
        (b.BuildSelect table p).args = p.Filters.flatMap operands ∧
        (b.BuildSelect table q).args = q.Filters.flatMap operands) := by
  cases hget : b.schema.Get table with
  | none => simp [Builder.BuildSelect, hget, SqlResult.fail]
  | some ts =>
    cases hc : selectColumns ts table p.Fields with
    | error e =>
      have hc' : selectColumns ts table q.Fields = .error e := hfields ▸ hc
      simp [Builder.BuildSelect, hget, hc, hc', SqlResult.fail]
    | ok columns =>
      have hc' : selectColumns ts table q.Fields = .ok columns := hfields ▸ hc
      rcases selectFilters_congr ts table p.Filters q.Filters hshape
          ((sq.Select columns).from_ table) ((sq.Select columns).from_ table) with
        ⟨e, h1, h2⟩ | ⟨k1, k2⟩
      · simp [Builder.BuildSelect, hget, hc, hc', h1, h2, SqlResult.fail]
      · by_cases hs : ∃ s, p.Sorting = some s ∧ s.Field ∉ mapKeys ts.Columns
        · obtain ⟨s, hs1, hs2⟩ := hs
          rw [BuildSelect_sorting_unknown b table ts p columns s hget hc k1 hs1 hs2,
            BuildSelect_sorting_unknown b table ts q columns s hget hc' k2 (hsorting ▸ hs1) hs2]
          simp [SqlResult.fail]
        · have hsp : ∀ s, p.Sorting = some s → s.Field ∈ mapKeys ts.Columns := by
            intro s hs1
            by_contra hn
            exact hs ⟨s, hs1, hn⟩
          have hsq : ∀ s, q.Sorting = some s → s.Field ∈ mapKeys ts.Columns :=
            hsorting ▸ hsp
          by_cases hne : columns = []
          · subst hne
            rw [BuildSelect_no_columns b table ts p hget hc k1 hsp,
              BuildSelect_no_columns b table ts q hget hc' k2 hsq]
            simp [SqlResult.fail]
          · obtain ⟨e1, e2, e3, e4, e5⟩ := sameShape_facts p.Filters q.Filters hshape
            rw [BuildSelect_eq b table ts p columns hget hc hne k1 e1 hsp,
              BuildSelect_eq b table ts q columns hget hc' hne k2 e2 hsq]
            refine ⟨?_, rfl, fun _ => ⟨?_, ?_⟩⟩
            · simp only [e3, hsorting, hpagination]
            · exact flatMap_forall₂_args _ e4
            · exact flatMap_forall₂_args _ e5


/-! ## C4 -/

/-- C4 (divergence): `parseFilter` never checks the text before the first `.`
against the operator names. The float literal `3.14`, whose prefix `3` is not an
operator, is not parsed as `eq` with the whole value: the operator becomes `3`
and the operand the integer 14, which the coercion of the whole value `3.14`
never yields. -/
theorem parseFilter_unknown_prefix_taken_as_operator (lib : GoLib) :
    parseFilter lib "price" "3.14" = .ok (some ⟨"price", "3", .int 14, []⟩) ∧
      IsValidOperator "3" = false ∧
      parseValue lib "3.14" ≠ .ok (.int 14) ∧
      applyFilter (sq.Select []) ⟨"price", "3", .int 14, []⟩ =
        (sq.Select []).Where (.Eq "price" (.int 14)) := by
  refine ⟨rfl, by decide, ?_, rfl⟩
  have e1 : TrimSpace "3.14" = "3.14" := by decide
  have e2 : isQuoted "3.14" = false := by decide
  have e3 : lib.ToLower "3.14" = "3.14" := rfl
  have e4 : ParseInt "3.14" = none := by decide
  cases h1 : lib.ParseFloat "3.14" <;> cases h2 : lib.timeParse RFC3339 "3.14" <;>
    cases h3 : lib.timeParse "2006-01-02" "3.14" <;>
    simp [parseValue, e1, e2, e3, e4, h1, h2, h3]

/-! ## The specified predicate shapes -/

theorem specPredicate_eq (f : Filter) (hvalid : IsValidOperator f.Operator = true)
    (hoperand : if isListOperator f.Operator then f.Values ≠ [] else f.Value.isScalar = true) :
    (filterPredicate f).ToSql.sql = specPredicate f ∧
      (filterPredicate f).ToSql.args = operands f ∧ (filterPredicate f).ToSql.err = none := by
  have hops : f.Operator = OpEqual ∨ f.Operator = OpNotEqual ∨ f.Operator = OpGreater ∨
      f.Operator = OpGreaterEqual ∨ f.Operator = OpLess ∨ f.Operator = OpLessEqual ∨
      f.Operator = OpLike ∨ f.Operator = OpNotLike ∨ f.Operator = OpIn ∨
      f.Operator = OpNotIn := by
    unfold IsValidOperator at hvalid
    by_contra hn
    rw [if_neg hn] at hvalid
    cases hvalid
  cases hl : isListOperator f.Operator with
  | true =>
    have hne : ¬ f.Values.length = 0 := by
      simp only [hl, if_true] at hoperand
      exact fun h => hoperand (List.length_eq_zero.1 h)
    have hcases : f.Operator = OpIn ∨ f.Operator = OpNotIn := by
      simpa [isListOperator] using hl
    rw [filterPredicate_list f hl]
    rcases hcases with h | h <;>
      simp [sq.eqToSQL, hne, operands, isListOperator, specPredicate, h, OpIn, OpNotIn,
        sq.Placeholders, String.append_assoc]
  | false =>
    simp only [hl] at hoperand
    rw [filterPredicate_scalar f hl (by simpa using hoperand)]
    rcases hops with h | h | h | h | h | h | h | h | h | h <;>
      first
      | (exfalso; simp [isListOperator, h, OpIn, OpNotIn] at hl; done)
      | simp [operands, isListOperator, specPredicate, operatorSymbol, h, OpEqual,
          OpNotEqual, OpGreater, OpGreaterEqual, OpLess, OpLessEqual, OpLike, OpNotLike,
          OpIn, OpNotIn, String.append_assoc]

theorem map_specPredicate (fs : List Filter)
    (h : ∀ f ∈ fs, (filterPredicate f).ToSql.sql = specPredicate f) :
    fs.map (fun f => (filterPredicate f).ToSql.sql) = fs.map specPredicate :=
  List.map_congr_left h

/-! ## C5 -/

/-- C5: for a table of the schema cache and a request whose projection, sorting
and filter fields are existing columns, whose filters use the ten operators with
a non-null scalar operand (a non-empty list for `in`/`nin`), `BuildSelect`
succeeds; the WHERE clause is the conjunction, in filter order, of the
specified predicate of each filter, and the arguments are the operand values in
the same order (lists expanded). -/
theorem BuildSelect_where_conjunction (b : Builder) (table : String) (ts : TableSchema)
    (params : QueryParams)
    (hget : b.schema.Get table = some ts)
    (hfields : ∀ f ∈ params.Fields, f ∈ mapKeys ts.Columns)
    (hcolumns : params.Fields ≠ [] ∨ ts.Columns ≠ [])
    (hsort : ∀ s, params.Sorting = some s → s.Field ∈ mapKeys ts.Columns)
    (hfilters : ∀ f ∈ params.Filters, f.Field ∈ mapKeys ts.Columns ∧
      IsValidOperator f.Operator = true ∧
      (if isListOperator f.Operator then f.Values ≠ [] else f.Value.isScalar = true)) :
    b.BuildSelect table params =
      ⟨"SELECT " ++
          sq.writtenFrom ", " 0
            (if params.Fields.length > 0 then params.Fields else mapKeys ts.Columns) ++
          " FROM " ++ table ++
          whereClause (params.Filters.map specPredicate) ++
          orderByClause params.Sorting ++ limitClause params.Pagination ++
          offsetClause params.Pagination,
        params.Filters.flatMap operands, none⟩ := by
  have hcols : selectColumns ts table params.Fields =
      .ok (if params.Fields.length > 0 then params.Fields else mapKeys ts.Columns) := by
    unfold selectColumns
    split_ifs
    · exact projectFields_ok ts table params.Fields hfields
    · rfl
  have hne : (if params.Fields.length > 0 then params.Fields else mapKeys ts.Columns) ≠ [] := by
    split_ifs with h
    · exact fun e => by simp [e] at h
    · rcases hcolumns with h' | h'
      · exact absurd (List.length_pos.2 h') h
      · simpa [mapKeys] using h'
  have hspec := fun f hf => specPredicate_eq f (hfilters f hf).2.1 (hfilters f hf).2.2
  rw [BuildSelect_eq b table ts params _ hget hcols hne (fun f hf => (hfilters f hf).1)
    (fun f hf => (hspec f hf).2.2) hsort]
  rw [map_specPredicate _ (fun f hf => (hspec f hf).1),
    flatMap_forall₂_args _ (fun f hf => (hspec f hf).2.1)]

/-- Scenario 1 with two more filters on `users`. -/
theorem BuildSelect_where_conjunction_witness :
    sampleBuilder.BuildSelect "users"
        ⟨[⟨"age", OpGreater, .int 18, []⟩, ⟨"email", OpNotLike, .str "%@x.org", []⟩,
            ⟨"id", OpIn, .null, [.int 1, .int 2, .int 3]⟩],
          some ⟨2, 0, 0⟩, some ⟨"created_at", "desc"⟩, ["id", "email"]⟩ =
      ⟨"SELECT id, email FROM users WHERE age > ? AND email NOT LIKE ? AND id IN (?,?,?)" ++
          " ORDER BY created_at DESC LIMIT 2",
        [.int 18, .str "%@x.org", .int 1, .int 2, .int 3], none⟩ :=
  (BuildSelect_where_conjunction sampleBuilder "users" usersTable _ (by decide) (by decide)
    (by decide) (by decide)
    (by
      intro f hf
      simp only [List.mem_cons, List.mem_singleton, List.not_mem_nil, or_false] at hf
      rcases hf with rfl | rfl | rfl <;>
        exact ⟨by decide, by decide, by simp [isListOperator, OpGreater, OpNotLike, OpIn,
          OpNotIn, Value.isScalar]⟩)).trans (by rfl)


/-! ## The payload loop of `BuildInsert` -/

theorem insertColumns_error (ts : TableSchema) (table : String) (data : List (String × Value))
    (h : ∃ k ∈ mapKeys data, k ∉ mapKeys ts.Columns) :
    ∃ e, insertColumns ts table data = .error e := by
  induction data with
  | nil => simp [mapKeys] at h
  | cons kv rest ih =>
    obtain ⟨k, v⟩ := kv
    unfold insertColumns
    cases hg : mapGet ts.Columns k with
    | none => exact ⟨_, rfl⟩
    | some c =>
      have hk : k ∈ mapKeys ts.Columns := by
        by_contra hn
        rw [(mapGet_eq_none_iff _ _).2 hn] at hg
        cases hg
      have hrest : ∃ k' ∈ mapKeys rest, k' ∉ mapKeys ts.Columns := by
        obtain ⟨k', hk1, hk2⟩ := h
        simp only [mapKeys, List.map_cons, List.mem_cons] at hk1
        rcases hk1 with rfl | hmem
        · exact absurd hk hk2
        · exact ⟨k', hmem, hk2⟩
      obtain ⟨e, he⟩ := ih hrest
      exact ⟨e, by simp [he]⟩

theorem insertColumns_ok (ts : TableSchema) (table : String) (data : List (String × Value))
    (h : ∀ k ∈ mapKeys data, k ∈ mapKeys ts.Columns) :
    insertColumns ts table data =
      .ok ((data.filter fun kv => !isAutoIncrement ts kv.1).map Prod.fst,
        (data.filter fun kv => !isAutoIncrement ts kv.1).map Prod.snd) := by
  induction data with
  | nil => rfl
  | cons kv rest ih =>
    obtain ⟨k, v⟩ := kv
    have hk : k ∈ mapKeys ts.Columns := h k (by simp [mapKeys])
    have hrest : ∀ k' ∈ mapKeys rest, k' ∈ mapKeys ts.Columns := by
      intro k' hk'
      exact h k' (by simp only [mapKeys, List.map_cons, List.mem_cons]; exact Or.inr hk')
    obtain ⟨c, hc⟩ := mapGet_isSome_of_mem ts.Columns k hk
    unfold insertColumns
    rw [hc, ih hrest]
    simp only
    cases hauto : c.IsAutoIncrement <;> simp [List.filter, isAutoIncrement, hc, hauto]

theorem map_const_question {α β : Type} (l : List α) (m : List β)
    (h : l.length = m.length) :
    (l.map fun _ => "?") = (m.map fun _ => "?") := by
  rw [List.map_const', List.map_const', h]

theorem Insert_ToSql (table : String) (columns : List String) (values : List Value)
    (htable : table ≠ "") (hlen : values.length = columns.length) :
    (((sq.Insert table).addColumns columns).addValues values).ToSql =
      ⟨insertSql table columns, values, none⟩ := by
  have hinto : ¬ table.length = 0 := fun h => htable (eq_empty_of_length_eq_zero table h)
  have hq := map_const_question values columns hlen
  by_cases hc : columns.length > 0 <;>
    simp [sq.InsertData.ToSql, sq.Insert, sq.InsertData.addColumns, sq.InsertData.addValues,
      hinto, sq.InsertData.appendValuesToSQL, sq.finish, insertSql, hc, hlen,
      String.intercalate, String.intercalate.go, String.append_assoc] <;>
    rfl


theorem BuildInsert_known (b : Builder) (table : String) (ts : TableSchema)
    (data : List (String × Value))
    (hget : b.schema.Get table = some ts) (htable : table ≠ "")
    (hknown : ∀ k ∈ mapKeys data, k ∈ mapKeys ts.Columns) :
    b.BuildInsert table data =
      ⟨insertSql table ((data.filter fun kv => !isAutoIncrement ts kv.1).map Prod.fst),
        (data.filter fun kv => !isAutoIncrement ts kv.1).map Prod.snd, none⟩ := by
  unfold Builder.BuildInsert
  rw [hget]
  simp only [insertColumns_ok ts table data hknown]
  exact Insert_ToSql table _ _ htable (by simp)

theorem mapGet_of_mem_nodup (data : List (String × Value)) (hnodup : (mapKeys data).Nodup)
    (kv : String × Value) (hmem : kv ∈ data) : mapGet data kv.1 = some kv.2 := by
  induction data with
  | nil => cases hmem
  | cons hd tl ih =>
    obtain ⟨k', v'⟩ := hd
    simp only [mapKeys, List.map_cons, List.nodup_cons] at hnodup
    rcases List.mem_cons.1 hmem with rfl | hmem'
    · simp [mapGet]
    · have hne : ¬ k' = kv.1 := by
        intro e
        exact hnodup.1 (e ▸ List.mem_map_of_mem Prod.fst hmem')
      simp only [mapGet, hne, if_false]
      exact ih hnodup.2 hmem'

/-! ## C6 -/

/-- C6 (divergence): `BuildInsert` has no check for an empty column list. On
`users`, whose `id` is auto-increment, the payload `{"id": 99}` has only known
keys and no effective column, and the call returns SQL text without an error. -/
theorem BuildInsert_no_effective_column_emits_sql :
    (∀ k ∈ mapKeys [("id", Value.int 99)], k ∈ mapKeys usersTable.Columns ∧
        isAutoIncrement usersTable k = true) ∧
      sampleBuilder.BuildInsert "users" [("id", .int 99)] =
        ⟨"INSERT INTO users VALUES ()", [], none⟩ :=
  ⟨by decide, rfl⟩

/-! ## C7 -/

/-- C7: for a table of the schema cache and an INSERT payload (a map, visited
in any order): if some key is not a column, `BuildInsert` fails with empty SQL
and no arguments; otherwise the emitted column list is the payload keys that are
not auto-increment columns, each once, in visiting order, the VALUES tuple has
one `?` per emitted column, and the i-th argument is the payload value of the
i-th emitted column. -/
theorem BuildInsert_columns_and_args (b : Builder) (table : String) (ts : TableSchema)
    (data : List (String × Value))
    (hget : b.schema.Get table = some ts) (htable : table ≠ "")
    (hnodup : (mapKeys data).Nodup) :
    ((∃ k ∈ mapKeys data, k ∉ mapKeys ts.Columns) →
        ∃ msg, b.BuildInsert table data = ⟨"", [], some msg⟩) ∧
      ((∀ k ∈ mapKeys data, k ∈ mapKeys ts.Columns) →
        ∃ columns : List String,
          columns = (mapKeys data).filter (fun k => !isAutoIncrement ts k) ∧
          columns.Nodup ∧
          (b.BuildInsert table data).sql = insertSql table columns ∧
          (b.BuildInsert table data).args.map some = columns.map (mapGet data) ∧
          (b.BuildInsert table data).err = none) := by
  constructor
  · intro hunk
    obtain ⟨e, he⟩ := insertColumns_error ts table data hunk
    exact ⟨e, by simp [Builder.BuildInsert, hget, he, SqlResult.fail]⟩
  · intro hknown
    rw [BuildInsert_known b table ts data hget htable hknown]
    have hcols : (data.filter fun kv => !isAutoIncrement ts kv.1).map Prod.fst =
        (mapKeys data).filter (fun k => !isAutoIncrement ts k) := by
      simp [mapKeys, List.filter_map, Function.comp_def]
    refine ⟨_, rfl, hnodup.filter _, by rw [hcols], ?_, rfl⟩
    rw [← hcols]
    simp only [List.map_map]
    apply List.map_congr_left
    intro kv hkv
    simp only [Function.comp]
    exact (mapGet_of_mem_nodup data hnodup kv (List.mem_filter.1 hkv).1).symm

/-- Scenario 4: the payload `{"id":99,"email":"a@b","age":30}` on `users`. -/
theorem BuildInsert_columns_and_args_witness :
    (∀ k ∈ mapKeys scenario4Payload,
        k ∈ mapKeys usersTable.Columns) ∧
      ∃ columns : List String,
        columns = (mapKeys scenario4Payload).filter
          (fun k => !isAutoIncrement usersTable k) ∧
        columns.Nodup ∧
        (sampleBuilder.BuildInsert "users" scenario4Payload).sql =
          insertSql "users" columns ∧
        (sampleBuilder.BuildInsert "users" scenario4Payload).args.map some =
          columns.map (mapGet scenario4Payload) ∧
        (sampleBuilder.BuildInsert "users" scenario4Payload).err = none :=
  ⟨by decide, (BuildInsert_columns_and_args sampleBuilder "users" usersTable
    scenario4Payload (by decide) (by decide) (by decide)).2 (by decide)⟩

/-! ## C8 -/

/-- C8 (counterexample): on `countries`, whose primary key `code` is not
auto-increment, the INSERT emitted for `{"code":"fr","name":"France"}` lists the
primary-key column. -/
theorem BuildInsert_keeps_primary_key :
    isPrimaryKey countriesTable "code" = true ∧
      sampleBuilder.BuildInsert "countries" [("code", .str "fr"), ("name", .str "France")] =
        ⟨insertSql "countries" ["code", "name"], [.str "fr", .str "France"], none⟩ ∧
      insertSql "countries" ["code", "name"] =
        "INSERT INTO countries (code,name) VALUES (?,?)" :=
  ⟨by decide, rfl, by decide⟩

/-- C8 (amended): for a table of the schema cache and an INSERT payload of known
columns, a payload key is in the emitted column list exactly when its column is
not auto-increment; the primary-key flag plays no role, so a primary-key column
that is not auto-increment is emitted. -/
theorem BuildInsert_omits_exactly_auto_increment (b : Builder) (table : String)
    (ts : TableSchema) (data : List (String × Value))
    (hget : b.schema.Get table = some ts) (htable : table ≠ "")
    (hknown : ∀ k ∈ mapKeys data, k ∈ mapKeys ts.Columns) :
    ∃ columns : List String,
      (b.BuildInsert table data).sql = insertSql table columns ∧
      (b.BuildInsert table data).err = none ∧
      (∀ k, k ∈ columns ↔ k ∈ mapKeys data ∧ isAutoIncrement ts k = false) ∧
      (∀ k ∈ mapKeys data, isPrimaryKey ts k = true → isAutoIncrement ts k = false →
        k ∈ columns) := by
  rw [BuildInsert_known b table ts data hget htable hknown]
  have hcols : (data.filter fun kv => !isAutoIncrement ts kv.1).map Prod.fst =
      (mapKeys data).filter (fun k => !isAutoIncrement ts k) := by
    simp [mapKeys, List.filter_map, Function.comp_def]
  refine ⟨_, rfl, rfl, ?_, ?_⟩
  · intro k
    rw [hcols]
    simp [List.mem_filter]
  · intro k hk _ hauto
    rw [hcols]
    simp [List.mem_filter, hk, hauto]

/-- The natural-key table: `code` is emitted, being primary key but not
auto-increment. -/
theorem BuildInsert_omits_exactly_auto_increment_witness :
    ∃ columns : List String,
      (sampleBuilder.BuildInsert "countries" [("code", .str "fr")]).sql =
        insertSql "countries" columns ∧
      (sampleBuilder.BuildInsert "countries" [("code", .str "fr")]).err = none ∧
      (∀ k, k ∈ columns ↔
        k ∈ mapKeys [("code", Value.str "fr")] ∧ isAutoIncrement countriesTable k = false) ∧
      (∀ k ∈ mapKeys [("code", Value.str "fr")], isPrimaryKey countriesTable k = true →
        isAutoIncrement countriesTable k = false → k ∈ columns) :=
  BuildInsert_omits_exactly_auto_increment sampleBuilder "countries" countriesTable
    [("code", .str "fr")] (by decide) (by decide) (by decide)


/-! ## The payload loop of `BuildUpdate` -/

theorem updateColumns_error (ts : TableSchema) (table : String) (data : List (String × Value))
    (h : ∃ k ∈ mapKeys data, k ∉ mapKeys ts.Columns) :
    ∃ e, updateColumns ts table data = .error e := by
  induction data with
  | nil => simp [mapKeys] at h
  | cons kv rest ih =>
    obtain ⟨k, v⟩ := kv
    unfold updateColumns
    cases hg : mapGet ts.Columns k with
    | none => exact ⟨_, rfl⟩
    | some c =>
      have hk : k ∈ mapKeys ts.Columns := by
        by_contra hn
        rw [(mapGet_eq_none_iff _ _).2 hn] at hg
        cases hg
      have hrest : ∃ k' ∈ mapKeys rest, k' ∉ mapKeys ts.Columns := by
        obtain ⟨k', hk1, hk2⟩ := h
        simp only [mapKeys, List.map_cons, List.mem_cons] at hk1
        rcases hk1 with rfl | hmem
        · exact absurd hk hk2
        · exact ⟨k', hmem, hk2⟩
      obtain ⟨e, he⟩ := ih hrest
      exact ⟨e, by simp [he]⟩

theorem updateColumns_ok (ts : TableSchema) (table : String) (data : List (String × Value))
    (h : ∀ k ∈ mapKeys data, k ∈ mapKeys ts.Columns) :
    updateColumns ts table data =
      .ok (data.filter fun kv => !(isPrimaryKey ts kv.1 || isAutoIncrement ts kv.1)) := by
  induction data with
  | nil => rfl
  | cons kv rest ih =>
    obtain ⟨k, v⟩ := kv
    have hk : k ∈ mapKeys ts.Columns := h k (by simp [mapKeys])
    have hrest : ∀ k' ∈ mapKeys rest, k' ∈ mapKeys ts.Columns := by
      intro k' hk'
      exact h k' (by simp only [mapKeys, List.map_cons, List.mem_cons]; exact Or.inr hk')
    obtain ⟨c, hc⟩ := mapGet_isSome_of_mem ts.Columns k hk
    unfold updateColumns
    rw [hc, ih hrest]
    simp only
    cases hpk : c.IsPrimaryKey <;> cases hauto : c.IsAutoIncrement <;>
      simp [List.filter, isAutoIncrement, isPrimaryKey, hc, hauto, hpk]

theorem insertSorted_perm (k : String × Value) (l : List (String × Value)) :
    (sq.insertSorted k l).Perm (k :: l) := by
  induction l with
  | nil => exact List.Perm.refl _
  | cons x xs ih =>
    unfold sq.insertSorted
    split_ifs
    · exact List.Perm.refl _
    · exact (List.Perm.cons x ih).trans (List.Perm.swap k x xs)

theorem sortedEntries_perm (l : List (String × Value)) : (sq.sortedEntries l).Perm l := by
  induction l with
  | nil => exact List.Perm.refl _
  | cons x xs ih =>
    unfold sq.sortedEntries
    exact (insertSorted_perm x _).trans (List.Perm.cons x ih)

theorem eqToSQL_err (n : Bool) (k : String) (v : Value) : (sq.eqToSQL n k v).err = none := by
  cases v <;> simp only [sq.eqToSQL]
  split_ifs <;> rfl

theorem appendToSql_Eq (key : String) (val : Value) (w : String) (args : List Value) :
    sq.appendToSql [(sq.Sqlizer.Eq key val).ToSql] w " AND " args =
      .ok (w ++ (sq.eqToSQL false key val).sql, args ++ (sq.eqToSQL false key val).args) := by
  have h := appendToSql_where [sq.Sqlizer.Eq key val]
    (by
      intro p hp
      rw [List.mem_singleton.1 hp]
      exact eqToSQL_err false key val) w args
  simpa [String.intercalate, String.intercalate.go, sq.Sqlizer.ToSql] using h

theorem Update_ToSql (table : String) (clauses : List (String × Value)) (key : String)
    (val : Value) (htable : table ≠ "") (hclauses : clauses ≠ []) :
    (((sq.Update table).SetMap clauses).Where (.Eq key val)).ToSql =
      ⟨"UPDATE " ++ table ++ setClause ((sq.sortedEntries clauses).map Prod.fst) ++
          " WHERE " ++ (sq.eqToSQL false key val).sql,
        (sq.sortedEntries clauses).map Prod.snd ++ (sq.eqToSQL false key val).args, none⟩ := by
  have htab : ¬ table.length = 0 := fun h => htable (eq_empty_of_length_eq_zero table h)
  have hlen : ¬ (sq.sortedEntries clauses).length = 0 := by
    rw [(sortedEntries_perm clauses).length_eq]
    exact fun h => hclauses (List.length_eq_zero.1 h)
  simp only [sq.UpdateData.ToSql, sq.Update, sq.UpdateData.SetMap, sq.UpdateData.Where,
    List.nil_append, htab, hlen, if_false, List.length_singleton, Nat.lt_one_iff,
    gt_iff_lt, zero_lt_one, if_true, List.map_cons, List.map_nil, appendToSql_Eq, sq.finish,
    setClause, List.map_map, Function.comp_def, String.append_assoc]
  rfl


theorem BuildUpdate_known (b : Builder) (table : String) (ts : TableSchema) (id : Value)
    (data : List (String × Value))
    (hget : b.schema.Get table = some ts) (hpk : ts.PrimaryKey ≠ "")
    (hknown : ∀ k ∈ mapKeys data, k ∈ mapKeys ts.Columns) :
    b.BuildUpdate table id data =
      if (data.filter fun kv => !(isPrimaryKey ts kv.1 || isAutoIncrement ts kv.1)).length = 0
      then SqlResult.fail "no updateable columns provided"
      else (((sq.Update table).SetMap
        (data.filter fun kv => !(isPrimaryKey ts kv.1 || isAutoIncrement ts kv.1))).Where
          (.Eq ts.PrimaryKey id)).ToSql := by
  unfold Builder.BuildUpdate
  rw [hget]
  simp only [hpk, if_false, updateColumns_ok ts table data hknown]

theorem filter_keys (ts : TableSchema) (data : List (String × Value)) :
    (data.filter fun kv => !(isPrimaryKey ts kv.1 || isAutoIncrement ts kv.1)).map Prod.fst =
      (mapKeys data).filter (fun k => !(isPrimaryKey ts k || isAutoIncrement ts k)) := by
  simp [mapKeys, List.filter_map, Function.comp_def]

/-! ## C9 -/

/-- C9: for a table of the schema cache with a primary key, any id and an UPDATE
payload (a map) whose keys are all known columns: when no key is left after
dropping primary-key and auto-increment columns, `BuildUpdate` returns an error
with empty SQL and no arguments; otherwise it succeeds and the columns assigned
in the SET clause are exactly the remaining keys, each once. -/
theorem BuildUpdate_set_columns (b : Builder) (table : String) (ts : TableSchema)
    (id : Value) (data : List (String × Value))
    (hget : b.schema.Get table = some ts) (hpk : ts.PrimaryKey ≠ "") (htable : table ≠ "")
    (hknown : ∀ k ∈ mapKeys data, k ∈ mapKeys ts.Columns)
    (hnodup : (mapKeys data).Nodup) :
    ((mapKeys data).filter (fun k => !(isPrimaryKey ts k || isAutoIncrement ts k)) = [] →
        b.BuildUpdate table id data = ⟨"", [], some "no updateable columns provided"⟩) ∧
      ((mapKeys data).filter (fun k => !(isPrimaryKey ts k || isAutoIncrement ts k)) ≠ [] →
        ∃ columns : List String,
          columns.Perm
            ((mapKeys data).filter (fun k => !(isPrimaryKey ts k || isAutoIncrement ts k))) ∧
          columns.Nodup ∧
          (b.BuildUpdate table id data).sql =
            "UPDATE " ++ table ++ setClause columns ++ " WHERE " ++
              (sq.eqToSQL false ts.PrimaryKey id).sql ∧
          (b.BuildUpdate table id data).err = none) := by
  rw [BuildUpdate_known b table ts id data hget hpk hknown, ← filter_keys]
  constructor
  · intro hempty
    have hnil : (data.filter fun kv => !(isPrimaryKey ts kv.1 || isAutoIncrement ts kv.1)) = [] :=
      List.map_eq_nil_iff.1 hempty
    rw [hnil]
    rfl
  · intro hne
    have hne' : (data.filter fun kv => !(isPrimaryKey ts kv.1 || isAutoIncrement ts kv.1)) ≠ [] :=
      fun h => hne (by rw [h]; rfl)
    have hlen : ¬ (data.filter
        fun kv => !(isPrimaryKey ts kv.1 || isAutoIncrement ts kv.1)).length = 0 :=
      fun h => hne' (List.length_eq_zero.1 h)
    rw [if_neg hlen, Update_ToSql table _ ts.PrimaryKey id htable hne']
    have hperm := (sortedEntries_perm
      (data.filter fun kv => !(isPrimaryKey ts kv.1 || isAutoIncrement ts kv.1))).map Prod.fst
    refine ⟨_, hperm, ?_, rfl, rfl⟩
    rw [hperm.nodup_iff, filter_keys]
    exact hnodup.filter _

/-- Scenario 5: the payload `{"id":8,"email":"x@y"}` on `users` with id 7. -/
theorem BuildUpdate_set_columns_witness :
    ((mapKeys scenario5Payload).filter
          (fun k => !(isPrimaryKey usersTable k || isAutoIncrement usersTable k)) ≠ []) ∧
      ∃ columns : List String,
        columns.Perm ((mapKeys scenario5Payload).filter
          (fun k => !(isPrimaryKey usersTable k || isAutoIncrement usersTable k))) ∧
        columns.Nodup ∧
        (sampleBuilder.BuildUpdate "users" (.str "7") scenario5Payload).sql =
          "UPDATE " ++ "users" ++ setClause columns ++ " WHERE " ++
            (sq.eqToSQL false usersTable.PrimaryKey (.str "7")).sql ∧
        (sampleBuilder.BuildUpdate "users" (.str "7") scenario5Payload).err = none :=
  ⟨by decide, (BuildUpdate_set_columns sampleBuilder "users" usersTable (.str "7")
    scenario5Payload (by decide) (by decide) (by decide) (by decide) (by decide)).2
      (by decide)⟩


/-! ## Statements addressed by primary key -/

theorem Delete_ToSql (table key : String) (val : Value) (htable : table ≠ "") :
    ((sq.Delete table).Where (.Eq key val)).ToSql =
      ⟨"DELETE FROM " ++ table ++ " WHERE " ++ (sq.eqToSQL false key val).sql,
        (sq.eqToSQL false key val).args, none⟩ := by
  have htab : ¬ table.length = 0 := fun h => htable (eq_empty_of_length_eq_zero table h)
  simp only [sq.DeleteData.ToSql, sq.Delete, sq.DeleteData.Where, List.nil_append, htab,
    if_false, List.length_singleton, gt_iff_lt, zero_lt_one, if_true, List.map_cons,
    List.map_nil, appendToSql_Eq, sq.finish, String.append_assoc]

theorem BuildSelectByID_known (b : Builder) (table : String) (ts : TableSchema) (id : Value)
    (fields : List String)
    (hget : b.schema.Get table = some ts) (hpk : ts.PrimaryKey ≠ "")
    (hfields : ∀ f ∈ fields, f ∈ mapKeys ts.Columns)
    (hcolumns : fields ≠ [] ∨ ts.Columns ≠ []) :
    b.BuildSelectByID table id fields =
      ⟨"SELECT " ++
          sq.writtenFrom ", " 0 (if fields.length > 0 then fields else mapKeys ts.Columns) ++
          " FROM " ++ table ++ " WHERE " ++ (sq.eqToSQL false ts.PrimaryKey id).sql ++
          " LIMIT 1",
        (sq.eqToSQL false ts.PrimaryKey id).args, none⟩ := by
  have hcols : selectColumns ts table fields =
      .ok (if fields.length > 0 then fields else mapKeys ts.Columns) := by
    unfold selectColumns
    split_ifs
    · exact projectFields_ok ts table fields hfields
    · rfl
  have hne : (if fields.length > 0 then fields else mapKeys ts.Columns) ≠ [] := by
    split_ifs with h
    · exact fun e => by simp [e] at h
    · rcases hcolumns with h' | h'
      · exact absurd (List.length_pos.2 h') h
      · simpa [mapKeys] using h'
  unfold Builder.BuildSelectByID
  rw [hget]
  simp only [hpk, if_false, hcols]
  rw [SelectData.ToSql_eq _ hne (by
    intro p hp
    simp only [sq.Select, sq.SelectData.from_, sq.SelectData.Where, sq.SelectData.setLimit,
      List.nil_append, List.mem_singleton] at hp
    rw [hp]
    exact eqToSQL_err false _ _)]
  simp [sq.Select, sq.SelectData.from_, sq.SelectData.Where, sq.SelectData.setLimit,
    whereClause, String.intercalate, String.intercalate.go, sq.Sqlizer.ToSql,
    String.append_assoc]
  rfl

/-! ## C10 -/

/-- C10 (counterexample): `users` has the primary key `id`, and for the id `nil`
`BuildDelete` does not bind the id: the predicate is `id IS NULL` and there is no
argument. -/
theorem BuildDelete_nil_id_not_bound :
    usersTable.PrimaryKey = "id" ∧
      sampleBuilder.BuildDelete "users" .null =
        ⟨"DELETE FROM users WHERE id IS NULL", [], none⟩ ∧
      sampleBuilder.BuildSelectByID "users" .null ["email"] =
        ⟨"SELECT email FROM users WHERE id IS NULL LIMIT 1", [], none⟩ :=
  ⟨rfl, rfl, rfl⟩

/-- C10 (amended): for a table of the schema cache whose `PrimaryKey` is empty,
`BuildSelectByID`, `BuildUpdate` and `BuildDelete` return the no-primary-key error
with empty SQL and no arguments, for every id, field list and payload. For a
table with the primary key `pk` and every id that is a non-null scalar,
`BuildDelete` returns `DELETE FROM t WHERE pk = ?` with the id as only argument
and, for a projection of known columns, `BuildSelectByID` returns a SELECT ending
in `WHERE pk = ? LIMIT 1` with the id as only argument. -/
theorem by_id_statements (b : Builder) (table : String) (ts : TableSchema)
    (hget : b.schema.Get table = some ts) :
    (ts.PrimaryKey = "" → ∀ (id : Value) (fields : List String) (data : List (String × Value)),
        b.BuildSelectByID table id fields =
          ⟨"", [], some ("table '" ++ table ++ "' has no primary key")⟩ ∧
        b.BuildUpdate table id data =
          ⟨"", [], some ("table '" ++ table ++ "' has no primary key")⟩ ∧
        b.BuildDelete table id =
          ⟨"", [], some ("table '" ++ table ++ "' has no primary key")⟩) ∧
      (ts.PrimaryKey ≠ "" → table ≠ "" → ∀ id : Value, id.isScalar = true →
        b.BuildDelete table id =
          ⟨"DELETE FROM " ++ table ++ " WHERE " ++ ts.PrimaryKey ++ " = ?", [id], none⟩ ∧
        ∀ fields : List String, (∀ f ∈ fields, f ∈ mapKeys ts.Columns) →
          (fields ≠ [] ∨ ts.Columns ≠ []) →
          b.BuildSelectByID table id fields =
            ⟨"SELECT " ++
                sq.writtenFrom ", " 0
                  (if fields.length > 0 then fields else mapKeys ts.Columns) ++
                " FROM " ++ table ++ " WHERE " ++ ts.PrimaryKey ++ " = ?" ++ " LIMIT 1",
              [id], none⟩) := by
  constructor
  · intro hpk id fields data
    simp [Builder.BuildSelectByID, Builder.BuildUpdate, Builder.BuildDelete, hget, hpk,
      SqlResult.fail]
  · intro hpk htable id hid
    have heq := eqToSQL_scalar false ts.PrimaryKey id hid
    constructor
    · unfold Builder.BuildDelete
      rw [hget]
      simp only [hpk, if_false]
      rw [Delete_ToSql table _ _ htable, heq]
      simp [String.append_assoc]
    · intro fields hfields hcolumns
      rw [BuildSelectByID_known b table ts id fields hget hpk hfields hcolumns, heq]
      simp [String.append_assoc]

/-- The table `logs` has no primary key; `users` has the primary key `id`
(scenario 3). -/
theorem by_id_statements_witness :
    (sampleBuilder.BuildDelete "logs" (.int 1) =
        ⟨"", [], some ("table '" ++ "logs" ++ "' has no primary key")⟩) ∧
      sampleBuilder.BuildDelete "users" (.int 42) =
        ⟨"DELETE FROM " ++ "users" ++ " WHERE " ++ usersTable.PrimaryKey ++ " = ?",
          [.int 42], none⟩ :=
  ⟨((by_id_statements sampleBuilder "logs" logsTable (by decide)).1 (by decide)
      (.int 1) [] []).2.2,
    ((by_id_statements sampleBuilder "users" usersTable (by decide)).2 (by decide)
      (by decide) (.int 42) (by decide)).1⟩

/-! ## Failure of a generated SELECT -/

theorem appendToSqlFrom_error (sep : String) (parts : List SqlResult)
    (h : ∃ p ∈ parts, p.err ≠ none) (i : Nat) (w : String) (args : List Value) :
    ∃ e, sq.appendToSqlFrom sep i parts w args = .error e := by
  induction parts generalizing i w args with
  | nil => simp at h
  | cons p ps ih =>
    unfold sq.appendToSqlFrom
    cases hp : p.err with
    | some e => exact ⟨e, rfl⟩
    | none =>
      have hrest : ∃ q ∈ ps, q.err ≠ none := by
        obtain ⟨q, hq1, hq2⟩ := h
        rcases List.mem_cons.1 hq1 with rfl | hmem
        · exact absurd hp hq2
        · exact ⟨q, hmem, hq2⟩
      simp only
      split_ifs <;> exact ih hrest _ _ _

theorem ToSql_where_error (d : sq.SelectData) (hcols : d.Columns ≠ [])
    (h : ∃ p ∈ d.WhereParts, p.ToSql.err ≠ none) :
    ∃ e, d.ToSql = SqlResult.fail e := by
  have hlen : ¬ d.Columns.length = 0 := fun e => hcols (List.length_eq_zero.1 e)
  have hw : d.WhereParts.length > 0 := by
    obtain ⟨p, hp, _⟩ := h
    exact List.length_pos_of_mem hp
  have herr : ∀ w args, ∃ e,
      sq.appendToSql (d.WhereParts.map sq.Sqlizer.ToSql) w " AND " args = .error e := by
    intro w args
    apply appendToSqlFrom_error
    obtain ⟨p, hp1, hp2⟩ := h
    exact ⟨p.ToSql, List.mem_map_of_mem _ hp1, hp2⟩
  unfold sq.SelectData.ToSql sq.SelectData.toSqlRaw
  rw [if_neg hlen, appendToSql_strings]
  simp only
  cases hf : d.From with
  | none =>
    simp only [hw, if_true]
    obtain ⟨e, he⟩ := herr ("SELECT " ++ sq.writtenFrom ", " 0 d.Columns ++ " WHERE ") []
    rw [he]
    exact ⟨e, rfl⟩
  | some t =>
    have := appendToSql_strings "" [t]
      ("SELECT " ++ sq.writtenFrom ", " 0 d.Columns ++ " FROM ") []
    simp only [List.map_cons, List.map_nil] at this
    simp only [this, hw, if_true]
    obtain ⟨e, he⟩ := herr ("SELECT " ++ sq.writtenFrom ", " 0 d.Columns ++ " FROM " ++
      sq.writtenFrom "" 0 [t] ++ " WHERE ") []
    rw [he]
    exact ⟨e, rfl⟩

theorem selectPagination_WhereParts (query : sq.SelectData) (pagination : Option Pagination) :
    (selectPagination query pagination).WhereParts = query.WhereParts := by
  cases pagination with
  | none => rfl
  | some pg =>
    simp only [selectPagination, sq.SelectData.setLimit, sq.SelectData.setOffset]
    split_ifs <;> rfl

theorem BuildSelect_where_error (b : Builder) (table : String) (ts : TableSchema)
    (params : QueryParams) (columns : List String)
    (hget : b.schema.Get table = some ts)
    (hcols : selectColumns ts table params.Fields = .ok columns)
    (hne : columns ≠ [])
    (hfilters : ∀ f ∈ params.Filters, f.Field ∈ mapKeys ts.Columns)
    (hsort : ∀ s, params.Sorting = some s → s.Field ∈ mapKeys ts.Columns)
    (hpred : ∃ f ∈ params.Filters, (filterPredicate f).ToSql.err ≠ none) :
    ∃ e, b.BuildSelect table params = SqlResult.fail e := by
  obtain ⟨filters, pagination, sorting, fields⟩ := params
  simp only at hcols hfilters hsort hpred
  unfold Builder.BuildSelect
  rw [hget]
  simp only [hcols]
  rw [selectFilters_ok ts table filters hfilters, foldl_applyFilter]
  simp only
  have hwhere : ∃ p ∈ List.map filterPredicate filters, p.ToSql.err ≠ none := by
    obtain ⟨f, hf1, hf2⟩ := hpred
    exact ⟨filterPredicate f, List.mem_map_of_mem _ hf1, hf2⟩
  cases sorting with
  | none =>
    simp only [selectSorting]
    apply ToSql_where_error
    · rw [selectPagination_Columns]; exact hne
    · rw [selectPagination_WhereParts]
      simpa [sq.Select, sq.SelectData.from_] using hwhere
  | some srt =>
    rw [selectSorting_some ts _ srt (hsort srt rfl)]
    simp only
    apply ToSql_where_error
    · rw [selectPagination_Columns]; exact hne
    · rw [selectPagination_WhereParts]
      simpa [sq.Select, sq.SelectData.from_] using hwhere

/-- What a successful `BuildSelect` implies about its input. -/
theorem BuildSelect_success (b : Builder) (table : String) (params : QueryParams)
    (hok : (b.BuildSelect table params).err = none) :
    ∃ ts columns, b.schema.Get table = some ts ∧
      selectColumns ts table params.Fields = .ok columns ∧ columns ≠ [] ∧
      (∀ f ∈ params.Filters, f.Field ∈ mapKeys ts.Columns) ∧
      (∀ f ∈ params.Filters, (filterPredicate f).ToSql.err = none) ∧
      (∀ s, params.Sorting = some s → s.Field ∈ mapKeys ts.Columns) := by
  cases hget : b.schema.Get table with
  | none => simp [Builder.BuildSelect, hget, SqlResult.fail] at hok
  | some ts =>
    cases hc : selectColumns ts table params.Fields with
    | error e => simp [Builder.BuildSelect, hget, hc, SqlResult.fail] at hok
    | ok columns =>
      have hfilters : ∀ f ∈ params.Filters, f.Field ∈ mapKeys ts.Columns := by
        by_contra hn
        push_neg at hn
        obtain ⟨e, he⟩ := selectFilters_error ts table params.Filters hn
          ((sq.Select columns).from_ table)
        simp [Builder.BuildSelect, hget, hc, he, SqlResult.fail] at hok
      have hsort : ∀ s, params.Sorting = some s → s.Field ∈ mapKeys ts.Columns := by
        intro s hs
        by_contra hn
        rw [BuildSelect_sorting_unknown b table ts params columns s hget hc hfilters hs hn]
          at hok
        simp [SqlResult.fail] at hok
      have hne : columns ≠ [] := by
        intro e
        subst e
        rw [BuildSelect_no_columns b table ts params hget hc hfilters hsort] at hok
        simp [SqlResult.fail] at hok
      refine ⟨ts, columns, rfl, hc, hne, hfilters, ?_, hsort⟩
      by_contra hn
      push_neg at hn
      obtain ⟨e, he⟩ := BuildSelect_where_error b table ts params columns hget hc hne
        hfilters hsort hn
      rw [he] at hok
      simp [SqlResult.fail] at hok

theorem BuildCount_eq (b : Builder) (table : String) (ts : TableSchema) (params : QueryParams)
    (hget : b.schema.Get table = some ts)
    (hpred : ∀ f ∈ params.Filters, (filterPredicate f).ToSql.err = none) :
    b.BuildCount table params =
      ⟨"SELECT COUNT(*) as count FROM " ++ table ++
          whereClause (params.Filters.map fun f => (filterPredicate f).ToSql.sql),
        params.Filters.flatMap (fun f => (filterPredicate f).ToSql.args), none⟩ := by
  unfold Builder.BuildCount
  rw [hget]
  simp only
  rw [foldl_applyFilter]
  have hwhere : ∀ p ∈ List.map filterPredicate params.Filters, p.ToSql.err = none := by
    intro p hp
    obtain ⟨f, hf, rfl⟩ := List.mem_map.1 hp
    exact hpred f hf
  rw [SelectData.ToSql_eq _ (by simp [sq.Select, sq.SelectData.from_])
    (by simpa [sq.Select, sq.SelectData.from_] using hwhere)]
  simp [sq.Select, sq.SelectData.from_, writtenFrom_single, List.flatMap, List.map_map,
    Function.comp_def, String.append_assoc]
  rfl


/-! ## C11 -/

/-- C11: whenever `BuildSelect` succeeds on a table and parameters, `BuildCount`
succeeds on the same input; its SQL is `SELECT COUNT(*) as count FROM table`
followed by exactly the WHERE clause of the SELECT and nothing else, its
arguments are those of the SELECT, and parameters with the same filters (any
sorting, fields and pagination) give the same `BuildCount` result. -/
theorem BuildCount_same_where_as_BuildSelect (b : Builder) (table : String)
    (p : QueryParams) (hok : (b.BuildSelect table p).err = none) :
    ∃ (columns : List String) (wh : String),
      wh = whereClause (p.Filters.map fun f => (filterPredicate f).ToSql.sql) ∧
      (b.BuildSelect table p).sql =
        "SELECT " ++ sq.writtenFrom ", " 0 columns ++ " FROM " ++ table ++ wh ++
          orderByClause p.Sorting ++ limitClause p.Pagination ++ offsetClause p.Pagination ∧
      b.BuildCount table p =
        ⟨"SELECT COUNT(*) as count FROM " ++ table ++ wh, (b.BuildSelect table p).args,
          none⟩ ∧
      ∀ q : QueryParams, q.Filters = p.Filters →
        b.BuildCount table q = b.BuildCount table p := by
  obtain ⟨ts, columns, hget, hc, hne, hfilters, hpred, hsort⟩ :=
    BuildSelect_success b table p hok
  refine ⟨columns, _, rfl, ?_, ?_, ?_⟩
  · rw [BuildSelect_eq b table ts p columns hget hc hne hfilters hpred hsort]
  · rw [BuildCount_eq b table ts p hget hpred,
      BuildSelect_eq b table ts p columns hget hc hne hfilters hpred hsort]
  · intro q hq
    simp only [Builder.BuildCount, hq]

/-- Scenario 1 on `users`: `age=gt.18&order=created_at.desc&limit=2`. -/
theorem BuildCount_same_where_as_BuildSelect_witness :
    (sampleBuilder.BuildSelect "users" scenario1Params).err = none ∧
      sampleBuilder.BuildCount "users" scenario1Params =
        ⟨"SELECT COUNT(*) as count FROM users WHERE age > ?", [.int 18], none⟩ ∧
      ∃ (columns : List String) (wh : String),
        wh = whereClause (scenario1Params.Filters.map fun f => (filterPredicate f).ToSql.sql) ∧
        (sampleBuilder.BuildSelect "users" scenario1Params).sql =
          "SELECT " ++ sq.writtenFrom ", " 0 columns ++ " FROM " ++ "users" ++ wh ++
            orderByClause scenario1Params.Sorting ++ limitClause scenario1Params.Pagination ++
            offsetClause scenario1Params.Pagination ∧
        sampleBuilder.BuildCount "users" scenario1Params =
          ⟨"SELECT COUNT(*) as count FROM " ++ "users" ++ wh,
            (sampleBuilder.BuildSelect "users" scenario1Params).args, none⟩ ∧
        ∀ q : QueryParams, q.Filters = scenario1Params.Filters →
          sampleBuilder.BuildCount "users" q = sampleBuilder.BuildCount "users" scenario1Params :=
  ⟨rfl, rfl, BuildCount_same_where_as_BuildSelect sampleBuilder "users" scenario1Params rfl⟩

/-! ## Assignment in Go maps -/

theorem mapGet_mapSet {β : Type} (m : List (String × β)) (k t : String) (v : β) :
    mapGet (mapSet m k v) t = if k = t then some v else mapGet m t := by
  induction m with
  | nil => simp [mapSet, mapGet]
  | cons hd tl ih =>
    obtain ⟨k', v'⟩ := hd
    by_cases h : k' = k
    · subst h
      by_cases h2 : k' = t <;> simp [mapSet, mapGet, h2]
    · by_cases h2 : k' = t
      · subst h2
        have h3 : ¬ k = k' := fun e => h e.symm
        simp [mapSet, mapGet, h, h3]
      · simp [mapSet, mapGet, h, h2, ih]

theorem mapBool_mapSet_true (m : List (String × Bool)) (k t : String) :
    mapBool (mapSet m k true) t = (decide (k = t) || mapBool m t) := by
  unfold mapBool
  rw [mapGet_mapSet]
  by_cases h : k = t <;> simp [h]

theorem mapBool_foldl_mapSet (l : List String) (m : List (String × Bool)) (t : String) :
    mapBool (l.foldl (fun m table => mapSet m table true) m) t =
      (mapBool m t || decide (t ∈ l)) := by
  induction l generalizing m with
  | nil => simp
  | cons x xs ih =>
    rw [List.foldl_cons, ih, mapBool_mapSet_true]
    by_cases h : x = t
    · simp [h]
    · have h' : ¬ t = x := fun e => h e.symm
      simp [h, h']

theorem mapSet_ne_nil {β : Type} (m : List (String × β)) (k : String) (v : β) :
    mapSet m k v ≠ [] := by
  cases m with
  | nil => simp [mapSet]
  | cons hd tl =>
    obtain ⟨k', v'⟩ := hd
    unfold mapSet
    split_ifs <;> simp

theorem foldl_mapSet_ne_nil (l : List String) (m : List (String × Bool)) (h : m ≠ []) :
    l.foldl (fun m table => mapSet m table true) m ≠ [] := by
  induction l generalizing m with
  | nil => simpa using h
  | cons x xs ih => exact ih _ (mapSet_ne_nil m x true)

theorem foldl_mapSet_length (l : List String) :
    (l.foldl (fun m table => mapSet m table true) ([] : List (String × Bool))).length = 0 ↔
      l = [] := by
  cases l with
  | nil => simp
  | cons x xs =>
    simp only [List.foldl_cons, List.length_eq_zero]
    constructor
    · intro h
      exact absurd h (foldl_mapSet_ne_nil xs _ (mapSet_ne_nil [] x true))
    · intro h
      cases h

theorem NewAccessControl_IsTableAllowed (cfg : SecurityConfig) (t : String) :
    (NewAccessControl cfg).IsTableAllowed t =
      (!cfg.Enabled ||
        (!decide (t ∈ cfg.Blacklist) &&
          (decide (cfg.Whitelist = []) || decide (t ∈ cfg.Whitelist)))) := by
  unfold AccessControl.IsTableAllowed NewAccessControl
  simp only [mapBool_foldl_mapSet, foldl_mapSet_length]
  cases cfg.Enabled <;> by_cases hb : t ∈ cfg.Blacklist <;>
    by_cases hw : cfg.Whitelist = [] <;> simp [mapBool, mapGet, hb, hw]

/-! ## C12 -/

/-- C12: for the access control built by `NewAccessControl` from a configuration
with whitelist `W`, blacklist `B` and flag `Enabled`, and every table name `t`:
`IsTableAllowed t` is true when `Enabled` is false; otherwise false when `t ∈ B`,
whether or not `t ∈ W`; otherwise true when `W` is empty; otherwise true exactly
when `t ∈ W`. -/
theorem IsTableAllowed_decision (cfg : SecurityConfig) (t : String) :
    (cfg.Enabled = false → (NewAccessControl cfg).IsTableAllowed t = true) ∧
      (cfg.Enabled = true → t ∈ cfg.Blacklist →
        (NewAccessControl cfg).IsTableAllowed t = false) ∧
      (cfg.Enabled = true → t ∉ cfg.Blacklist → cfg.Whitelist = [] →
        (NewAccessControl cfg).IsTableAllowed t = true) ∧
      (cfg.Enabled = true → t ∉ cfg.Blacklist → cfg.Whitelist ≠ [] →
        ((NewAccessControl cfg).IsTableAllowed t = true ↔ t ∈ cfg.Whitelist)) := by
  rw [NewAccessControl_IsTableAllowed]
  refine ⟨?_, ?_, ?_, ?_⟩
  · intro h; simp [h]
  · intro h hb; simp [h, hb]
  · intro h hb hw; simp [h, hb, hw]
  · intro h hb hw; simp [h, hb, hw]

/-- A blacklisted table that is also whitelisted is denied, and a table outside
a non-empty whitelist is denied. -/
theorem IsTableAllowed_decision_witness :
    (NewAccessControl ⟨true, ["users", "orders"], ["orders"], false⟩).IsTableAllowed
        "orders" = false ∧
      ((NewAccessControl ⟨true, ["users", "orders"], ["orders"], false⟩).IsTableAllowed
        "logs" = true ↔ "logs" ∈ ["users", "orders"]) :=
  ⟨(IsTableAllowed_decision ⟨true, ["users", "orders"], ["orders"], false⟩ "orders").2.1 rfl
      (by decide),
    (IsTableAllowed_decision ⟨true, ["users", "orders"], ["orders"], false⟩ "logs").2.2.2 rfl
      (by decide) (by decide)⟩

/-! ## C13 -/

/-- C13 (divergence): the blacklist of `AccessControl` is matched exactly. With
access control enabled and the blacklist entry `Orders`, the table name `orders`
is allowed, while the case-folding `SecurityConfig.IsTableAllowed` denies it. -/
theorem IsTableAllowed_blacklist_case_sensitive (fold : Char → Char → Bool) :
    EqualFold fold "Orders" "orders" = true ∧
      (NewAccessControl ⟨true, [], ["Orders"], false⟩).IsTableAllowed "orders" = true ∧
      SecurityConfig.IsTableAllowed fold ⟨true, [], ["Orders"], false⟩ "orders" = false ∧
      (NewAccessControl ⟨true, [], ["Orders"], false⟩).IsTableAllowed "Orders" = false :=
  ⟨rfl, by decide, rfl, by decide⟩

/-! ## C14 -/

theorem LoadSchema_enumeration_failure (i : Introspector) (driver : Driver) (e : String)
    (h : driver.GetTables = .error e) :
    i.LoadSchema driver = (i, .error ("failed to load schema: " ++ e)) := by
  simp [Introspector.LoadSchema, h]

/-- C14 (divergence): `LoadSchema` replaces `i.cache` by a fresh cache before the
loop over the tables. With a cache holding `users` and a driver that lists `a`
and `b` and fails on the columns of `b`, the call returns an error, and the cache
returned afterwards by `GetCachedSchema` holds exactly the table `a`: it is not
the cache of before the call. -/
theorem LoadSchema_failure_publishes_partial_cache :
    (loadedIntrospector.LoadSchema failingDriver).2 =
        .error "failed to load schema for table b: connection lost" ∧
      loadedIntrospector.GetCachedSchema.GetTables = ["users"] ∧
      (loadedIntrospector.LoadSchema failingDriver).1.GetCachedSchema.GetTables = ["a"] ∧
      (loadedIntrospector.LoadSchema failingDriver).1.GetCachedSchema ≠
        loadedIntrospector.GetCachedSchema := by
  refine ⟨rfl, rfl, rfl, ?_⟩
  intro h
  have h2 := congrArg SchemaCache.GetTables h
  revert h2
  decide

/-! ## C15 -/

theorem ParseInt_range (s : String) (i : Int) (h : ParseInt s = some i) :
    -(2 ^ 63 : Int) ≤ i ∧ i ≤ 2 ^ 63 - 1 := by
  cases hs : s.data with
  | nil => simp [ParseInt, hs] at h
  | cons c rest =>
    simp only [ParseInt, hs] at h
    generalize (if c = '+' ∨ c = '-' then rest else c :: rest) = digits at h
    by_cases hl : digits.length = 0
    · simp [hl] at h
    · simp only [hl, if_false] at h
      cases hd : digitsValue digits 0 with
      | none => simp [hd] at h
      | some un =>
        simp only [hd] at h
        by_cases hneg : c = '-'
        · simp [hneg] at h
          obtain ⟨hb, rfl⟩ := h
          constructor <;> norm_num <;> omega
        · simp [hneg] at h
          obtain ⟨hb, rfl⟩ := h
          constructor <;> norm_num <;> omega

/-- C15: `parseValue` trims the operand and then applies the first rule that
fits, in this order: (1) at least two bytes between matching double or single
quotes give the inner text as a string; (2) the lower-cased text `true`/`false`
gives a boolean; (3) the lower-cased text `null` gives null; (4) a text that
`strconv.ParseInt` accepts, a decimal literal in the signed 64-bit range, gives
that integer; (5) a text `strconv.ParseFloat` accepts gives a float; (6) an
RFC-3339 timestamp and (7) a `2006-01-02` date give a time; (8) anything else gives
the trimmed text as a string. No input gives an error; `"42"` is the string 42 and
`18` the integer 18. -/
theorem parseValue_first_rule (lib : GoLib) (value : String) :
    (isQuoted (TrimSpace value) = true →
        parseValue lib value = .ok (.str (unquote (TrimSpace value)))) ∧
      (isQuoted (TrimSpace value) = false →
        (lib.ToLower (TrimSpace value) = "true" → parseValue lib value = .ok (.bool true)) ∧
        (lib.ToLower (TrimSpace value) = "false" → parseValue lib value = .ok (.bool false)) ∧
        (lib.ToLower (TrimSpace value) = "null" → parseValue lib value = .ok .null) ∧
        (lib.ToLower (TrimSpace value) ≠ "true" → lib.ToLower (TrimSpace value) ≠ "false" →
          lib.ToLower (TrimSpace value) ≠ "null" →
          (∀ i, ParseInt (TrimSpace value) = some i →
            parseValue lib value = .ok (.int i) ∧ -(2 ^ 63 : Int) ≤ i ∧ i ≤ 2 ^ 63 - 1) ∧
          (ParseInt (TrimSpace value) = none →
            (∀ f, lib.ParseFloat (TrimSpace value) = some f →
              parseValue lib value = .ok (.float f)) ∧
            (lib.ParseFloat (TrimSpace value) = none →
              (∀ t, lib.timeParse RFC3339 (TrimSpace value) = some t →
                parseValue lib value = .ok (.time t)) ∧
              (lib.timeParse RFC3339 (TrimSpace value) = none →
                (∀ t, lib.timeParse "2006-01-02" (TrimSpace value) = some t →
                  parseValue lib value = .ok (.time t)) ∧
                (lib.timeParse "2006-01-02" (TrimSpace value) = none →
                  parseValue lib value = .ok (.str (TrimSpace value)))))))) ∧
      (∃ r, parseValue lib value = .ok r) ∧
      parseValue lib "\"42\"" = .ok (.str "42") ∧
      parseValue lib "18" = .ok (.int 18) := by
  refine ⟨?_, ?_, ?_, rfl, rfl⟩
  · intro hq
    simp [parseValue, hq]
  · intro hq
    refine ⟨?_, ?_, ?_, ?_⟩
    · intro h; simp [parseValue, hq, h]
    · intro h; simp [parseValue, hq, h]
    · intro h; simp [parseValue, hq, h]
    · intro h1 h2 h3
      refine ⟨?_, ?_⟩
      · intro i hi
        exact ⟨by simp [parseValue, hq, h1, h2, h3, hi], ParseInt_range _ i hi⟩
      · intro hi
        refine ⟨?_, ?_⟩
        · intro f hf; simp [parseValue, hq, h1, h2, h3, hi, hf]
        · intro hf
          refine ⟨?_, ?_⟩
          · intro t ht; simp [parseValue, hq, h1, h2, h3, hi, hf, ht]
          · intro ht
            refine ⟨?_, ?_⟩
            · intro t ht2; simp [parseValue, hq, h1, h2, h3, hi, hf, ht, ht2]
            · intro ht2; simp [parseValue, hq, h1, h2, h3, hi, hf, ht, ht2]
  · unfold parseValue
    simp only
    split_ifs
    all_goals first
      | exact ⟨_, rfl⟩
      | (cases ParseInt (TrimSpace value) <;> cases lib.ParseFloat (TrimSpace value) <;>
          cases lib.timeParse RFC3339 (TrimSpace value) <;>
          cases lib.timeParse "2006-01-02" (TrimSpace value) <;> exact ⟨_, rfl⟩)

/-- The operand ` 18 ` is the integer 18, whatever the float parser accepts. -/
theorem parseValue_first_rule_witness :
    ParseInt (TrimSpace " 18 ") = some 18 ∧
      parseValue asciiLib " 18 " = .ok (.int 18) :=
  ⟨by decide,
    ((((parseValue_first_rule asciiLib " 18 ").2.1 (by decide)).2.2.2 (by decide) (by decide)
      (by decide)).1 18 (by decide)).1⟩

/-! ## Splitting at a separator -/

theorem applyOffset_Limit (pag : Pagination) (offset : String) :
    (applyOffset pag offset).Limit = pag.Limit := by
  unfold applyOffset
  split_ifs
  · cases Atoi offset with
    | none => rfl
    | some o =>
      simp only
      split_ifs <;> rfl
  · rfl

theorem applyPage_Limit (pag : Pagination) (page : String) :
    (applyPage pag page).Limit = pag.Limit := by
  unfold applyPage
  split_ifs
  · cases Atoi page with
    | none => rfl
    | some p =>
      simp only
      split_ifs <;> rfl
  · rfl

theorem parsePagination_Limit (query : UrlValues) :
    (parsePagination query).Limit =
      (applyLimit { Limit := 50, Offset := 0, Page := 0 } (query.Get "limit")).Limit := by
  simp only [parsePagination, applyPage_Limit, applyOffset_Limit]

theorem Atoi_empty : Atoi "" = none := by
  decide

/-! ## C17 -/

/-- C17: for every query string the `Limit` of `parsePagination` lies in
1..1000: it is 50 when `limit` is absent, empty or not accepted by
`strconv.Atoi` as an integer, it is `l` when `limit` is an integer with
1 ≤ l ≤ 1000, and it is 1000 when `limit` is an integer greater than 1000. -/
theorem parsePagination_limit_clamped (query : UrlValues) :
    1 ≤ (parsePagination query).Limit ∧ (parsePagination query).Limit ≤ 1000 ∧
      (Atoi (query.Get "limit") = none → (parsePagination query).Limit = 50) ∧
      (∀ l, Atoi (query.Get "limit") = some l → 1 ≤ l → l ≤ 1000 →
        (parsePagination query).Limit = l) ∧
      (∀ l, Atoi (query.Get "limit") = some l → l > 1000 →
        (parsePagination query).Limit = 1000) := by
  rw [parsePagination_Limit]
  unfold applyLimit
  by_cases he : query.Get "limit" = ""
  · simp [he, Atoi_empty]
  · simp only [ne_eq, he, not_false_eq_true, if_true]
    cases ha : Atoi (query.Get "limit") with
    | none => simp
    | some l =>
      simp only
      by_cases hpos : l > 0
      · by_cases hbig : l > 1000
        · simp only [hpos, hbig, if_true]
          refine ⟨by norm_num, by norm_num, by simp, ?_, ?_⟩
          · intro l' hl' _ hle
            simp only [Option.some.injEq] at hl'
            omega
          · intro l' _ _
            trivial
        · simp only [hpos, hbig, if_true, if_false]
          refine ⟨by omega, by omega, by simp, ?_, ?_⟩
          · intro l' hl' _ _
            simp only [Option.some.injEq] at hl'
            exact hl'
          · intro l' hl' hgt
            simp only [Option.some.injEq] at hl'
            omega
      · simp only [hpos, if_false]
        refine ⟨by norm_num, by norm_num, by simp, ?_, ?_⟩
        · intro l' hl' h1 _
          simp only [Option.some.injEq] at hl'
          omega
        · intro l' hl' hgt
          simp only [Option.some.injEq] at hl'
          omega

/-- The values `limit=5000` and `limit=20`. -/
theorem parsePagination_limit_clamped_witness :
    (parsePagination [("limit", ["5000"])]).Limit = 1000 ∧
      (parsePagination [("limit", ["20"])]).Limit = 20 :=
  ⟨(parsePagination_limit_clamped [("limit", ["5000"])]).2.2.2.2 5000 (by decide) (by decide),
    (parsePagination_limit_clamped [("limit", ["20"])]).2.2.2.1 20 (by decide) (by decide)
      (by decide)⟩

/-! ## C18 -/

/-- C18 (divergence): the product `(p - 1) * Limit` of the `page` step is a Go
`int` and wraps around. For `page=9223372036854775807` and the default limit 50
the `Offset` of `parsePagination` is -100, and `BuildSelect` then emits no OFFSET
clause at all. -/
theorem parsePagination_offset_negative :
    parsePagination [("page", ["9223372036854775807"])] =
        ⟨50, -100, 9223372036854775807⟩ ∧
      (parsePagination [("page", ["9223372036854775807"])]).Offset < 0 ∧
      offsetClause (some (parsePagination [("page", ["9223372036854775807"])])) = "" := by
  decide

/-! ## C19 -/

theorem wrapInt64_of_range (x : Int) (h1 : -(2 ^ 63 : Int) ≤ x) (h2 : x ≤ 2 ^ 63 - 1) :
    wrapInt64 x = x := by
  unfold wrapInt64
  have h : (x + 2 ^ 63) % 2 ^ 64 = x + 2 ^ 63 :=
    Int.emod_eq_of_lt (by omega) (by norm_num at h2 ⊢; omega)
  rw [h]
  ring

theorem applyOffset_eq (pag : Pagination) (offset : String) :
    (applyOffset pag offset).Offset =
      match Atoi offset with
      | some o => if o ≥ 0 then o else pag.Offset
      | none => pag.Offset := by
  unfold applyOffset
  by_cases he : offset = ""
  · simp [he, Atoi_empty]
  · simp only [ne_eq, he, not_false_eq_true, if_true]
    cases Atoi offset with
    | none => rfl
    | some o =>
      simp only
      split_ifs <;> rfl

theorem applyLimit_Offset (pag : Pagination) (limit : String) :
    (applyLimit pag limit).Offset = pag.Offset := by
  unfold applyLimit
  split_ifs
  · cases Atoi limit with
    | none => rfl
    | some l =>
      simp only
      split_ifs <;> rfl
  · rfl

/-- C19: when `page` is an integer `p > 0` and `(p - 1) * Limit` fits a 64-bit
integer, `parsePagination` returns `Page = p` and `Offset = (p - 1) * Limit` with
the clamped limit, whatever `offset` was supplied; when `page` is absent, not an
integer or not positive, the `Offset` is the `offset` parameter if that is an
integer ≥ 0, and 0 otherwise. -/
theorem parsePagination_page_offset (query : UrlValues) :
    (∀ p, Atoi (query.Get "page") = some p → p > 0 →
        (p - 1) * (parsePagination query).Limit ≤ 2 ^ 63 - 1 →
        (parsePagination query).Page = p ∧
          (parsePagination query).Offset = (p - 1) * (parsePagination query).Limit) ∧
      ((Atoi (query.Get "page") = none ∨ ∃ p, Atoi (query.Get "page") = some p ∧ p ≤ 0) →
        (∀ o, Atoi (query.Get "offset") = some o → o ≥ 0 →
          (parsePagination query).Offset = o) ∧
        ((Atoi (query.Get "offset") = none ∨
            ∃ o, Atoi (query.Get "offset") = some o ∧ o < 0) →
          (parsePagination query).Offset = 0)) := by
  have hlim := parsePagination_limit_clamped query
  constructor
  · intro p hp hpos hfit
    have hne : query.Get "page" ≠ "" := by
      intro e
      rw [e, Atoi_empty] at hp
      cases hp
    have hL : (parsePagination query).Limit =
        (applyOffset (applyLimit { Limit := 50, Offset := 0, Page := 0 } (query.Get "limit"))
          (query.Get "offset")).Limit := by
      simp only [parsePagination, applyPage_Limit]
    have hboth : (parsePagination query).Page = p ∧
        (parsePagination query).Offset = wrapInt64 ((p - 1) * (parsePagination query).Limit) := by
      rw [hL]
      simp [parsePagination, applyPage, hne, hp, hpos]
    refine ⟨hboth.1, ?_⟩
    rw [hboth.2]
    apply wrapInt64_of_range
    · have h1 : (0 : Int) ≤ p - 1 := by omega
      have h2 : (0 : Int) ≤ (parsePagination query).Limit := by
        have := hlim.1
        omega
      exact le_trans (by norm_num) (Int.mul_nonneg h1 h2)
    · exact hfit
  · intro hpage
    have hsame : parsePagination query =
        applyOffset (applyLimit { Limit := 50, Offset := 0, Page := 0 } (query.Get "limit"))
          (query.Get "offset") := by
      simp only [parsePagination, applyPage]
      split_ifs
      · rcases hpage with h | ⟨p, hp1, hp2⟩
        · simp [h]
        · have : ¬ p > 0 := by omega
          simp [hp1, this]
      · rfl
    rw [hsame, applyOffset_eq, applyLimit_Offset]
    constructor
    · intro o ho hge
      simp [ho, hge]
    · intro ho
      rcases ho with h | ⟨o, ho1, ho2⟩
      · simp [h]
      · have : ¬ o ≥ 0 := by omega
        simp [ho1, this]

/-- The query `page=3&limit=5000&offset=7`: the limit is clamped to 1000 and the
offset parameter is overridden by 2000. -/
theorem parsePagination_page_offset_witness :
    Atoi (UrlValues.Get [("page", ["3"]), ("limit", ["5000"]), ("offset", ["7"])] "page") =
        some 3 ∧
      (parsePagination [("page", ["3"]), ("limit", ["5000"]), ("offset", ["7"])]).Page = 3 ∧
      (parsePagination [("page", ["3"]), ("limit", ["5000"]), ("offset", ["7"])]).Offset =
        (3 - 1) *
          (parsePagination [("page", ["3"]), ("limit", ["5000"]), ("offset", ["7"])]).Limit :=
  ⟨by decide,
    (parsePagination_page_offset [("page", ["3"]), ("limit", ["5000"]), ("offset", ["7"])]).1 3
      (by decide) (by decide) (by decide)⟩

/-! ## C20 -/

theorem splitAll_cutFirst (sep : Char) (l : List Char) :
    splitAll sep l =
      match cutFirst sep l with
      | some (before, after) => before :: splitAll sep after
      | none => [l] := by
  induction l with
  | nil => simp [splitAll, cutFirst]
  | cons c cs ih =>
    by_cases h : c = sep
    · simp [splitAll, cutFirst, h]
    · simp only [splitAll, cutFirst, h, if_false]
      rw [ih]
      cases hc : cutFirst sep cs with
      | none => simp
      | some ba =>
        obtain ⟨before, after⟩ := ba
        simp

theorem Split_head (s : String) (sep : Char) :
    (Split s sep).headD "" = beforeFirst s sep := by
  unfold Split beforeFirst
  rw [splitAll_cutFirst]
  cases hc : cutFirst sep s.data with
  | none => simp
  | some ba =>
    obtain ⟨before, after⟩ := ba
    simp

/-- C20: `parseSorting` returns no `Sorting` exactly when `order` and `sort` are
both absent or empty; otherwise it reads `order` when that is non-empty and
`sort` when `order` is empty, the `Field` is the text before the first `.`, and
the `Direction` is `desc` exactly when there is a segment after the first `.`
that, lower-cased, is `desc`, `d` or `-`, and `asc` in every other case. -/
theorem parseSorting_rules (lib : GoLib) (query : UrlValues) :
    (parseSorting lib query = none ↔ query.Get "order" = "" ∧ query.Get "sort" = "") ∧
      ∀ orderParam : String,
        orderParam = (if query.Get "order" = "" then query.Get "sort" else query.Get "order") →
        orderParam ≠ "" →
        ∃ s : Sorting, parseSorting lib query = some s ∧
          s.Field = beforeFirst orderParam '.' ∧
          (s.Direction = "desc" ∨ s.Direction = "asc") ∧
          (s.Direction = "desc" ↔
            ∃ part1, (Split orderParam '.')[1]? = some part1 ∧
              (lib.ToLower part1 = "desc" ∨ lib.ToLower part1 = "d" ∨
                lib.ToLower part1 = "-")) := by
  have hsome : ∀ orderParam : String,
      orderParam = (if query.Get "order" = "" then query.Get "sort" else query.Get "order") →
      orderParam ≠ "" →
      ∃ s : Sorting, parseSorting lib query = some s ∧
        s.Field = beforeFirst orderParam '.' ∧
        (s.Direction = "desc" ∨ s.Direction = "asc") ∧
        (s.Direction = "desc" ↔
          ∃ part1, (Split orderParam '.')[1]? = some part1 ∧
            (lib.ToLower part1 = "desc" ∨ lib.ToLower part1 = "d" ∨
              lib.ToLower part1 = "-")) := by
    intro orderParam hdef hne
    have hfield := Split_head orderParam '.'
    unfold parseSorting
    simp only [← hdef, hne, if_false]
    cases hparts : Split orderParam '.' with
    | nil =>
      rw [hparts] at hfield
      exact ⟨_, rfl, hfield, Or.inr rfl, by simp⟩
    | cons part0 rest =>
      rw [hparts] at hfield
      cases rest with
      | nil => exact ⟨_, rfl, hfield, Or.inr rfl, by simp⟩
      | cons part1 rest2 =>
        simp only
        by_cases hd : lib.ToLower part1 = "desc" ∨ lib.ToLower part1 = "d" ∨
            lib.ToLower part1 = "-"
        · rw [if_pos hd]
          exact ⟨_, rfl, hfield, Or.inl rfl, by simpa using hd⟩
        · rw [if_neg hd]
          refine ⟨_, rfl, hfield, Or.inr rfl, ?_⟩
          simp only [List.getElem?_cons_succ, List.getElem?_cons_zero, Option.some.injEq,
            exists_eq_left']
          constructor
          · intro h
            exact absurd h (by decide)
          · intro h
            exact absurd h hd
  refine ⟨?_, hsome⟩
  constructor
  · intro hnone
    by_contra hn
    have hne : (if query.Get "order" = "" then query.Get "sort" else query.Get "order") ≠ "" := by
      split_ifs with h
      · exact fun e => hn ⟨h, e⟩
      · exact h
    obtain ⟨s, hs, _⟩ := hsome _ rfl hne
    rw [hs] at hnone
    cases hnone
  · intro h
    simp [parseSorting, h.1, h.2]

/-- The query `sort=name.D` with an empty `order`. -/
theorem parseSorting_rules_witness :
    parseSorting asciiLib [("order", [""]), ("sort", ["name.D"])] = some ⟨"name", "desc"⟩ ∧
      ∃ s : Sorting, parseSorting asciiLib [("order", [""]), ("sort", ["name.D"])] = some s ∧
        s.Field = beforeFirst "name.D" '.' ∧
        (s.Direction = "desc" ∨ s.Direction = "asc") ∧
        (s.Direction = "desc" ↔
          ∃ part1, (Split "name.D" '.')[1]? = some part1 ∧
            (asciiLib.ToLower part1 = "desc" ∨ asciiLib.ToLower part1 = "d" ∨
              asciiLib.ToLower part1 = "-")) :=
  ⟨by decide,
    (parseSorting_rules asciiLib [("order", [""]), ("sort", ["name.D"])]).2 "name.D"
      (by decide) (by decide)⟩

/-! ## The filter parser returns no error -/

theorem parseValue_ok (lib : GoLib) (value : String) : ∃ v, parseValue lib value = .ok v := by
  unfold parseValue
  simp only
  split_ifs
  · exact ⟨_, rfl⟩
  · exact ⟨_, rfl⟩
  · exact ⟨_, rfl⟩
  · exact ⟨_, rfl⟩
  · split
    · exact ⟨_, rfl⟩
    · split
      · exact ⟨_, rfl⟩
      · split
        · exact ⟨_, rfl⟩
        · split
          · exact ⟨_, rfl⟩
          · exact ⟨_, rfl⟩

theorem parseFilter_ok (lib : GoLib) (field value : String) :
    ∃ r, parseFilter lib field value = .ok r := by
  have hwhole : ∃ r, (match parseValue lib value with
      | .error e => (.error e : Except String (Option Filter))
      | .ok parsedVal => .ok (some ⟨field, OpEqual, parsedVal, []⟩)) = .ok r := by
    obtain ⟨v, hv⟩ := parseValue_ok lib value
    rw [hv]
    exact ⟨_, rfl⟩
  unfold parseFilter
  simp only
  split_ifs
  · exact ⟨_, rfl⟩
  · split
    · split_ifs
      · exact ⟨_, rfl⟩
      · rename_i part0 part1 _ _
        obtain ⟨v, hv⟩ := parseValue_ok lib part1
        rw [hv]
        exact ⟨_, rfl⟩
    · exact hwhole
  · exact hwhole

theorem parseFilterEntries_eq (lib : GoLib) (query : UrlValues) :
    parseFilterEntries lib query = .ok (query.filterMap (entryFilter lib)) := by
  induction query with
  | nil => rfl
  | cons entry rest ih =>
    obtain ⟨key, values⟩ := entry
    cases values with
    | nil => simpa [parseFilterEntries, entryFilter] using ih
    | cons value more =>
      unfold parseFilterEntries
      simp only [entryFilter, List.filterMap_cons]
      by_cases hres : lib.ToLower key ∈ reservedKeys
      · simp only [hres, if_true]
        exact ih
      · simp only [hres, if_false]
        obtain ⟨r, hr⟩ := parseFilter_ok lib (lib.ToLower key) value
        rw [hr, ih]
        cases r <;> rfl

theorem ParseFilters_eq (lib : GoLib) (query : UrlValues) :
    ParseFilters lib query =
      .ok ⟨query.filterMap (entryFilter lib), some (parsePagination query),
        parseSorting lib query, parseFields query⟩ := by
  unfold ParseFilters
  rw [parseFilterEntries_eq]

/-! ## C21 -/

/-- C21, as stated, fails: no field and no filter value make `parseFilter` return
an error, and no query makes `ParseFilters` return one. -/
theorem parseFilter_no_parse_error :
    (¬ ∃ (lib : GoLib) (field value err : String), parseFilter lib field value = .error err) ∧
      ¬ ∃ (lib : GoLib) (query : UrlValues) (err : String),
        ParseFilters lib query = .error err := by
  constructor
  · rintro ⟨lib, field, value, err, h⟩
    obtain ⟨r, hr⟩ := parseFilter_ok lib field value
    rw [hr] at h
    cases h
  · rintro ⟨lib, query, err, h⟩
    rw [ParseFilters_eq] at h
    cases h

/-- C21, amended: the filter parser cannot fail. For every field and every
filter value `parseFilter` returns a nil error (with a filter or the nil filter),
and for every query `ParseFilters` returns a `QueryParams` and a nil error; the
pagination of the result is never nil. -/
theorem ParseFilters_total (lib : GoLib) (query : UrlValues) :
    (∀ field value : String, ∃ r, parseFilter lib field value = .ok r) ∧
      ∃ params, ParseFilters lib query = .ok params ∧
        params.Pagination = some (parsePagination query) :=
  ⟨parseFilter_ok lib, _, ParseFilters_eq lib query, rfl⟩

/-! ## C24 -/

/-- C24, as stated, fails when no underlying error is passed: the call of the
panic-recovery path, status 500 with the nil error, keeps the message of the
caller. -/
theorem SendError_nil_error_keeps_message :
    (recoverySendError sampleStatusText).Body =
        ⟨"Internal Server Error", "Internal server error", 500⟩ ∧
      (recoverySendError sampleStatusText).Body.Message ≠ "An internal error occurred" := by
  decide

/-- C24, amended: for every status of 500 or more and every message, when an
underlying error is passed the envelope of `SendError` has the status text as
error, the status as code and the message `An internal error occurred`; when no
underlying error is passed the message is the message of the caller. -/
theorem SendError_sanitizes_server_errors (StatusText : Int → String) (status : Int)
    (message : String) (hstatus : status ≥ 500) :
    (∀ e : String, SendError StatusText status message (some e) =
        ⟨"application/json", status,
          ⟨StatusText status, "An internal error occurred", status⟩⟩) ∧
      SendError StatusText status message none =
        ⟨"application/json", status, ⟨StatusText status, message, status⟩⟩ := by
  constructor
  · intro e
    simp [SendError, hstatus]
  · simp [SendError]

/-- A database failure reported with status 500, and the panic-recovery call. -/
theorem SendError_sanitizes_server_errors_witness :
    (500 : Int) ≥ 500 ∧
      (∀ e : String, SendError sampleStatusText 500 "Database error" (some e) =
        ⟨"application/json", 500,
          ⟨sampleStatusText 500, "An internal error occurred", 500⟩⟩) ∧
      SendError sampleStatusText 500 "Database error" none =
        ⟨"application/json", 500, ⟨sampleStatusText 500, "Database error", 500⟩⟩ :=
  ⟨by decide, SendError_sanitizes_server_errors sampleStatusText 500 "Database error"
    (by decide)⟩

/-! ## C25 -/

/-- C25, as stated, fails: for the unknown-column error that `ListTable`
reports with status 400 and `ErrInvalidRequest`, the message of the envelope is
`Invalid request`, in which the text of the error does not occur. -/
theorem SendError_unknown_column_detail_dropped :
    (SendError sampleStatusText 400 ErrInvalidRequest
          (some "unknown column 'x' in table 't'")).Body =
        ⟨"Bad Request", "Invalid request", 400⟩ ∧
      ¬ ("unknown column 'x' in table 't'".data <:+: "Invalid request".data) := by
  decide

/-- C25, amended: for every status below 500, every message and every
underlying error, nil or not, the envelope of `SendError` has the status text as
error, the status as code and the message of the caller as message; the text of
the underlying error is not used. -/
theorem SendError_client_error_message (StatusText : Int → String) (status : Int)
    (message : String) (err : Option String) (hstatus : status < 500) :
    SendError StatusText status message err =
      ⟨"application/json", status, ⟨StatusText status, message, status⟩⟩ := by
  have h : ¬ status ≥ 500 := by omega
  simp [SendError, h]

/-- The unknown-column error reported with status 400. -/
theorem SendError_client_error_message_witness :
    (400 : Int) < 500 ∧
      SendError sampleStatusText 400 ErrInvalidRequest
          (some "unknown column 'x' in table 't'") =
        ⟨"application/json", 400, ⟨sampleStatusText 400, ErrInvalidRequest, 400⟩⟩ :=
  ⟨by decide, SendError_client_error_message sampleStatusText 400 ErrInvalidRequest
    (some "unknown column 'x' in table 't'") (by decide)⟩

/-! ## C26 -/

/-- C26: the base token is looked up as written. `VARCHAR(255)` and
`INT UNSIGNED` are classified unknown (`interface{}`), while their lower-case
forms are classified `string` and `int64`; modifiers, a parenthesised length
and a missing token behave as specified for lower-case input. -/
theorem getGoType_upper_case_unknown :
    mysql.getGoType "VARCHAR(255)" = "interface\x7b\x7d" ∧
      mysql.getGoType "varchar(255)" = "string" ∧
      mysql.getGoType "INT UNSIGNED" = "interface\x7b\x7d" ∧
      mysql.getGoType "int unsigned" = "int64" ∧
      mysql.ParseType "INT UNSIGNED" = "INT" ∧
      mysql.getGoType "varchar(255) unsigned" = "string" ∧
      mysql.getGoType "varchar" = "string" ∧
      mysql.getGoType "geometry" = "interface\x7b\x7d" := by
  decide

/-! ## C30 -/

/-- C30: for an enabled access control whose whitelist map holds exactly the
table `t`: every table other than `t` is denied; after `RemoveFromWhitelist t`
the whitelist is empty and every table that is not blacklisted is allowed; and
`AddToBlacklist t` makes `IsTableAllowed t` false and leaves the decision for
every other table unchanged. -/
theorem RemoveFromWhitelist_last_entry_allows_all (ac : AccessControl) (t : String)
    (henabled : ac.cfg.Enabled = true) (hwhite : mapKeys ac.whitelistMap = [t]) :
    (∀ u, u ≠ t → ac.IsTableAllowed u = false) ∧
      (ac.RemoveFromWhitelist t).whitelistMap = [] ∧
      (∀ u, mapBool ac.blacklistMap u = false →
        (ac.RemoveFromWhitelist t).IsTableAllowed u = true) ∧
      (ac.AddToBlacklist t).IsTableAllowed t = false ∧
      (∀ u, u ≠ t → (ac.AddToBlacklist t).IsTableAllowed u = ac.IsTableAllowed u) := by
  obtain ⟨cfg, white, black⟩ := ac
  simp only at henabled hwhite
  have hw : ∃ v, white = [(t, v)] := by
    cases white with
    | nil => simp [mapKeys] at hwhite
    | cons hd tl =>
      obtain ⟨k, v⟩ := hd
      simp only [mapKeys, List.map_cons, List.cons.injEq, List.map_eq_nil_iff] at hwhite
      exact ⟨v, by rw [hwhite.1, hwhite.2]⟩
  obtain ⟨v, rfl⟩ := hw
  refine ⟨?_, ?_, ?_, ?_, ?_⟩
  · intro u hu
    have hu' : ¬ t = u := fun e => hu e.symm
    simp only [AccessControl.IsTableAllowed, henabled]
    cases hb : mapBool black u <;> simp [mapBool, mapGet, hu']
  · simp [AccessControl.RemoveFromWhitelist, mapDelete]
  · intro u hu
    simp [AccessControl.IsTableAllowed, AccessControl.RemoveFromWhitelist, mapDelete,
      henabled, hu]
  · simp [AccessControl.IsTableAllowed, AccessControl.AddToBlacklist, henabled,
      mapBool_mapSet_true]
  · intro u hu
    have hu' : ¬ t = u := fun e => hu e.symm
    simp [AccessControl.IsTableAllowed, AccessControl.AddToBlacklist, henabled,
      mapBool_mapSet_true, hu']

/-- The access control built from the whitelist `users` and the blacklist
`audit`. -/
theorem RemoveFromWhitelist_last_entry_allows_all_witness :
    (NewAccessControl ⟨true, ["users"], ["audit"], false⟩).cfg.Enabled = true ∧
      mapKeys (NewAccessControl ⟨true, ["users"], ["audit"], false⟩).whitelistMap =
        ["users"] ∧
      ((NewAccessControl ⟨true, ["users"], ["audit"], false⟩).RemoveFromWhitelist
        "users").IsTableAllowed "orders" = true ∧
      ((NewAccessControl ⟨true, ["users"], ["audit"], false⟩).AddToBlacklist
        "users").IsTableAllowed "users" = false :=
  ⟨rfl, rfl,
    (RemoveFromWhitelist_last_entry_allows_all
      (NewAccessControl ⟨true, ["users"], ["audit"], false⟩) "users" rfl rfl).2.2.1
      "orders" (by decide),
    (RemoveFromWhitelist_last_entry_allows_all
      (NewAccessControl ⟨true, ["users"], ["audit"], false⟩) "users" rfl rfl).2.2.2.1⟩

/-! ## C28 -/

theorem parseValue_null (lib : GoLib) : parseValue lib "null" = .ok .null := by
  have hlower : lib.ToLower "null" = "null" := rfl
  have htrim : TrimSpace "null" = "null" := by decide
  unfold parseValue
  simp only [htrim, hlower]
  rfl

theorem filterPredicate_null (field : String) :
    (filterPredicate ⟨field, OpEqual, .null, []⟩).ToSql = ⟨field ++ " IS NULL", [], none⟩ ∧
      (filterPredicate ⟨field, OpNotEqual, .null, []⟩).ToSql =
        ⟨field ++ " IS NOT NULL", [], none⟩ := by
  constructor
  · show sq.eqToSQL false field .null = _
    simp only [sq.eqToSQL, String.append_assoc]
    rfl
  · show sq.eqToSQL true field .null = _
    simp only [sq.eqToSQL, String.append_assoc]
    rfl

theorem parseFilter_null (lib : GoLib) (c : String) :
    parseFilter lib c "null" = .ok (some ⟨c, OpEqual, .null, []⟩) ∧
      parseFilter lib c "eq.null" = .ok (some ⟨c, OpEqual, .null, []⟩) ∧
      parseFilter lib c "ne.null" = .ok (some ⟨c, OpNotEqual, .null, []⟩) := by
  have hnull := parseValue_null lib
  have heq : lib.ToLower "eq" = "eq" := rfl
  have hne : lib.ToLower "ne" = "ne" := rfl
  refine ⟨?_, ?_, ?_⟩
  · unfold parseFilter
    have h1 : Contains "null" '.' = false := by decide
    simp [h1, hnull]
  · unfold parseFilter
    have h1 : Contains "eq.null" '.' = true := by decide
    have h2 : SplitN2 "eq.null" '.' = ["eq", "null"] := by decide
    have h3 : isListOperator "eq" = false := by decide
    simp [h1, h2, h3, heq, hnull, OpEqual]
  · unfold parseFilter
    have h1 : Contains "ne.null" '.' = true := by decide
    have h2 : SplitN2 "ne.null" '.' = ["ne", "null"] := by decide
    have h3 : isListOperator "ne" = false := by decide
    simp [h1, h2, h3, hne, hnull, OpNotEqual]

theorem BuildSelect_single_filter (b : Builder) (table : String) (ts : TableSchema)
    (f : Filter) (pag : Option Pagination) (text : String) (args : List Value)
    (hget : b.schema.Get table = some ts) (hf : f.Field ∈ mapKeys ts.Columns)
    (hpred : (filterPredicate f).ToSql = ⟨text, args, none⟩) :
    b.BuildSelect table ⟨[f], pag, none, []⟩ =
        ⟨"SELECT " ++ sq.writtenFrom ", " 0 (mapKeys ts.Columns) ++ " FROM " ++ table ++
          " WHERE " ++ text ++ limitClause pag ++ offsetClause pag, args, none⟩ ∧
      b.BuildCount table ⟨[f], pag, none, []⟩ =
        ⟨"SELECT COUNT(*) as count FROM " ++ table ++ " WHERE " ++ text, args, none⟩ := by
  have hne : mapKeys ts.Columns ≠ [] := List.ne_nil_of_mem hf
  constructor
  · rw [BuildSelect_eq b table ts ⟨[f], pag, none, []⟩ (mapKeys ts.Columns) hget rfl hne
      (by intro g hg; rw [List.mem_singleton.1 hg]; exact hf)
      (by intro g hg; rw [List.mem_singleton.1 hg, hpred])
      (by intro s hs; cases hs)]
    simp [hpred, whereClause, orderByClause, String.intercalate, String.intercalate.go,
      String.append_assoc]
  · rw [BuildCount_eq b table ts ⟨[f], pag, none, []⟩ hget
      (by intro g hg; rw [List.mem_singleton.1 hg, hpred])]
    simp [hpred, whereClause, String.intercalate, String.intercalate.go, String.append_assoc]

/-- C28: for every table with a column `c`, the filters that `c=null` and
`c=eq.null` produce have operator `eq` and the operand null, the filter of
`c=ne.null` has operator `ne` and the operand null; with the first one
`BuildSelect` and `BuildCount` emit the predicate `c IS NULL`, with the second
one `c IS NOT NULL`, in both cases with no bound argument. -/
theorem null_operand_changes_predicate (lib : GoLib) (b : Builder) (table : String)
    (ts : TableSchema) (c : String) (pag : Option Pagination)
    (hget : b.schema.Get table = some ts) (hc : c ∈ mapKeys ts.Columns) :
    parseFilter lib c "null" = .ok (some ⟨c, OpEqual, .null, []⟩) ∧
      parseFilter lib c "eq.null" = .ok (some ⟨c, OpEqual, .null, []⟩) ∧
      parseFilter lib c "ne.null" = .ok (some ⟨c, OpNotEqual, .null, []⟩) ∧
      b.BuildSelect table ⟨[⟨c, OpEqual, .null, []⟩], pag, none, []⟩ =
        ⟨"SELECT " ++ sq.writtenFrom ", " 0 (mapKeys ts.Columns) ++ " FROM " ++ table ++
          " WHERE " ++ (c ++ " IS NULL") ++ limitClause pag ++ offsetClause pag, [], none⟩ ∧
      b.BuildCount table ⟨[⟨c, OpEqual, .null, []⟩], pag, none, []⟩ =
        ⟨"SELECT COUNT(*) as count FROM " ++ table ++ " WHERE " ++ (c ++ " IS NULL"),
          [], none⟩ ∧
      b.BuildSelect table ⟨[⟨c, OpNotEqual, .null, []⟩], pag, none, []⟩ =
        ⟨"SELECT " ++ sq.writtenFrom ", " 0 (mapKeys ts.Columns) ++ " FROM " ++ table ++
          " WHERE " ++ (c ++ " IS NOT NULL") ++ limitClause pag ++ offsetClause pag,
          [], none⟩ ∧
      b.BuildCount table ⟨[⟨c, OpNotEqual, .null, []⟩], pag, none, []⟩ =
        ⟨"SELECT COUNT(*) as count FROM " ++ table ++ " WHERE " ++ (c ++ " IS NOT NULL"),
          [], none⟩ :=
  ⟨(parseFilter_null lib c).1, (parseFilter_null lib c).2.1, (parseFilter_null lib c).2.2,
    (BuildSelect_single_filter b table ts _ pag _ _ hget hc (filterPredicate_null c).1).1,
    (BuildSelect_single_filter b table ts _ pag _ _ hget hc (filterPredicate_null c).1).2,
    (BuildSelect_single_filter b table ts _ pag _ _ hget hc (filterPredicate_null c).2).1,
    (BuildSelect_single_filter b table ts _ pag _ _ hget hc (filterPredicate_null c).2).2⟩

/-- The column `email` of `users` with the default pagination. -/
theorem null_operand_changes_predicate_witness :
    sampleBuilder.BuildSelect "users"
          ⟨[⟨"email", OpEqual, .null, []⟩], some ⟨50, 0, 0⟩, none, []⟩ =
        ⟨"SELECT id, email, age, created_at, active FROM users WHERE email IS NULL LIMIT 50",
          [], none⟩ ∧
      sampleBuilder.BuildCount "users"
          ⟨[⟨"email", OpNotEqual, .null, []⟩], some ⟨50, 0, 0⟩, none, []⟩ =
        ⟨"SELECT COUNT(*) as count FROM users WHERE email IS NOT NULL", [], none⟩ :=
  ⟨(null_operand_changes_predicate asciiLib sampleBuilder "users" usersTable "email"
      (some ⟨50, 0, 0⟩) (by decide) (by decide)).2.2.2.1,
    (null_operand_changes_predicate asciiLib sampleBuilder "users" usersTable "email"
      (some ⟨50, 0, 0⟩) (by decide) (by decide)).2.2.2.2.2.2⟩

/-! ## The key order of `SetMap` -/

theorem insertSorted_pairwise (k : String × Value) (l : List (String × Value))
    (h : l.Pairwise fun a b => a.1 ≤ b.1) :
    (sq.insertSorted k l).Pairwise fun a b => a.1 ≤ b.1 := by
  induction l with
  | nil => simp [sq.insertSorted]
  | cons x xs ih =>
    unfold sq.insertSorted
    split_ifs with hle
    · refine List.Pairwise.cons ?_ h
      intro y hy
      rcases List.mem_cons.1 hy with rfl | hy
      · exact hle
      · exact le_trans hle (List.rel_of_pairwise_cons h hy)
    · have hxk : x.1 ≤ k.1 := le_of_lt (not_le.1 hle)
      refine List.Pairwise.cons ?_ (ih h.of_cons)
      intro y hy
      rcases List.mem_cons.1 ((insertSorted_perm k xs).subset hy) with rfl | hy
      · exact hxk
      · exact List.rel_of_pairwise_cons h hy

theorem sortedEntries_pairwise (l : List (String × Value)) :
    (sq.sortedEntries l).Pairwise fun a b => a.1 ≤ b.1 := by
  induction l with
  | nil => exact List.Pairwise.nil
  | cons x xs ih =>
    unfold sq.sortedEntries
    exact insertSorted_pairwise x _ ih

theorem sortedEntries_strict (l : List (String × Value)) (hnodup : (mapKeys l).Nodup) :
    (sq.sortedEntries l).Pairwise fun a b => a.1 < b.1 := by
  have hkeys : ((sq.sortedEntries l).map Prod.fst).Nodup :=
    ((sortedEntries_perm l).map Prod.fst).nodup_iff.2 hnodup
  have hne : (sq.sortedEntries l).Pairwise fun a b => a.1 ≠ b.1 := by
    rw [List.Nodup, List.pairwise_map] at hkeys
    exact hkeys
  exact ((sortedEntries_pairwise l).and hne).imp fun h => lt_of_le_of_ne h.1 h.2

theorem sortedEntries_congr (l l' : List (String × Value)) (hnodup : (mapKeys l).Nodup)
    (hperm : l'.Perm l) : sq.sortedEntries l' = sq.sortedEntries l := by
  have hnodup' : (mapKeys l').Nodup := (hperm.map Prod.fst).nodup_iff.2 hnodup
  haveI : IsAntisymm (String × Value) (fun a b => a.1 < b.1) :=
    ⟨fun a b h1 h2 => absurd h1 (lt_asymm h2)⟩
  exact List.eq_of_perm_of_sorted
    (((sortedEntries_perm l').trans hperm).trans (sortedEntries_perm l).symm)
    (sortedEntries_strict l' hnodup') (sortedEntries_strict l hnodup)

theorem BuildUpdate_perm (b : Builder) (table : String) (id : Value)
    (data data' : List (String × Value)) (hnodup : (mapKeys data).Nodup)
    (hperm : data'.Perm data) :
    (b.BuildUpdate table id data').sql = (b.BuildUpdate table id data).sql ∧
      (b.BuildUpdate table id data').args = (b.BuildUpdate table id data).args := by
  cases hget : b.schema.Get table with
  | none => simp [Builder.BuildUpdate, hget]
  | some ts =>
    by_cases hpk : ts.PrimaryKey = ""
    · simp [Builder.BuildUpdate, hget, hpk]
    · by_cases hknown : ∀ k ∈ mapKeys data, k ∈ mapKeys ts.Columns
      · have hknown' : ∀ k ∈ mapKeys data', k ∈ mapKeys ts.Columns :=
          fun k hk => hknown k ((hperm.map Prod.fst).subset hk)
        rw [BuildUpdate_known b table ts id data hget hpk hknown,
          BuildUpdate_known b table ts id data' hget hpk hknown']
        have hfilter := hperm.filter
          (fun kv => !(isPrimaryKey ts kv.1 || isAutoIncrement ts kv.1))
        have hnodupf : (mapKeys (data.filter
            fun kv => !(isPrimaryKey ts kv.1 || isAutoIncrement ts kv.1))).Nodup := by
          unfold mapKeys
          rw [filter_keys]
          exact hnodup.filter _
        rw [hfilter.length_eq]
        unfold sq.UpdateData.SetMap
        rw [sortedEntries_congr _ _ hnodupf hfilter]
        exact ⟨rfl, rfl⟩
      · have hex : ∃ k ∈ mapKeys data, k ∉ mapKeys ts.Columns := by
          push_neg at hknown
          exact hknown
        have hex' : ∃ k ∈ mapKeys data', k ∉ mapKeys ts.Columns := by
          obtain ⟨k, hk, hk'⟩ := hex
          exact ⟨k, (hperm.map Prod.fst).symm.subset hk, hk'⟩
        obtain ⟨e, he⟩ := updateColumns_error ts table data hex
        obtain ⟨e', he'⟩ := updateColumns_error ts table data' hex'
        simp [Builder.BuildUpdate, hget, hpk, he, he', SqlResult.fail]

theorem age_lt_email : ("age" : String) < "email" :=
  String.lt_iff_toList_lt.2 (by decide)

theorem BuildUpdate_email_age :
    sampleBuilder.BuildUpdate "users" (.str "7")
        [("email", Value.str "x@y"), ("age", Value.int 31)] =
      ⟨"UPDATE users SET age = ?, email = ? WHERE id = ?",
        [.int 31, .str "x@y", .str "7"], none⟩ := by
  have h1 : ¬ ("email" : String) ≤ "age" := not_le.2 age_lt_email
  have hu : updateColumns usersTable "users"
      [("email", Value.str "x@y"), ("age", Value.int 31)] =
      .ok [("email", Value.str "x@y"), ("age", Value.int 31)] := rfl
  have hg : sampleBuilder.schema.Get "users" = some usersTable := rfl
  have hp : ¬ usersTable.PrimaryKey = "" := by decide
  have hs : sq.sortedEntries [("email", Value.str "x@y"), ("age", Value.int 31)] =
      [("age", Value.int 31), ("email", Value.str "x@y")] := by
    simp [sq.sortedEntries, sq.insertSorted, h1]
  unfold Builder.BuildUpdate
  rw [hg]
  simp only [hp, hu, if_false, sq.UpdateData.SetMap, hs]
  rfl

/-! ## C27 -/

/-- C27, as stated, fails for the nil id: the WHERE clause of `BuildUpdate` is
then `id IS NULL` and the id is not among the arguments. -/
theorem BuildUpdate_nil_id_not_bound :
    sampleBuilder.BuildUpdate "users" .null scenario5Payload =
      ⟨"UPDATE users SET email = ? WHERE id IS NULL", [.str "x@y"], none⟩ :=
  rfl

/-- C27, amended: `BuildUpdate` depends on its payload as a finite map only. Two
calls whose payloads hold the same entries, visited in any two orders, return
the same SQL text and the same arguments. For a table with primary key `pk`, a
payload of known columns with at least one effective column and an id that is a
non-null scalar, the SQL is `UPDATE t SET c1 = ?, …, cn = ? WHERE pk = ?` where
`c1 < … < cn` are the effective columns in ascending order, and the arguments
are the payload values of `c1 … cn` followed by the id. -/
theorem BuildUpdate_independent_of_iteration_order (b : Builder) (table : String)
    (id : Value) (data data' : List (String × Value)) (hnodup : (mapKeys data).Nodup)
    (hperm : data'.Perm data) :
    (b.BuildUpdate table id data').sql = (b.BuildUpdate table id data).sql ∧
      (b.BuildUpdate table id data').args = (b.BuildUpdate table id data).args ∧
      ∀ ts : TableSchema, b.schema.Get table = some ts → ts.PrimaryKey ≠ "" → table ≠ "" →
        (∀ k ∈ mapKeys data, k ∈ mapKeys ts.Columns) →
        (mapKeys data).filter (fun k => !(isPrimaryKey ts k || isAutoIncrement ts k)) ≠ [] →
        id.isScalar = true →
        ∃ columns : List String,
          columns.Pairwise (fun c d => c < d) ∧
          columns.Perm
            ((mapKeys data).filter (fun k => !(isPrimaryKey ts k || isAutoIncrement ts k))) ∧
          b.BuildUpdate table id data =
            ⟨"UPDATE " ++ table ++ setClause columns ++ " WHERE " ++ ts.PrimaryKey ++ " = ?",
              columns.map (fun c => (mapGet data c).getD .null) ++ [id], none⟩ ∧
          b.BuildUpdate table id data' = b.BuildUpdate table id data := by
  refine ⟨(BuildUpdate_perm b table id data data' hnodup hperm).1,
    (BuildUpdate_perm b table id data data' hnodup hperm).2, ?_⟩
  intro ts hget hpk htable hknown heff hid
  have hknown' : ∀ k ∈ mapKeys data', k ∈ mapKeys ts.Columns :=
    fun k hk => hknown k ((hperm.map Prod.fst).subset hk)
  have hfilter := hperm.filter (fun kv => !(isPrimaryKey ts kv.1 || isAutoIncrement ts kv.1))
  have hnodupf : (mapKeys (data.filter
      fun kv => !(isPrimaryKey ts kv.1 || isAutoIncrement ts kv.1))).Nodup := by
    unfold mapKeys
    rw [filter_keys]
    exact hnodup.filter _
  have hne : (data.filter fun kv => !(isPrimaryKey ts kv.1 || isAutoIncrement ts kv.1)) ≠ [] := by
    intro h
    apply heff
    rw [← filter_keys, h]
    rfl
  have hlen : ¬ (data.filter
      fun kv => !(isPrimaryKey ts kv.1 || isAutoIncrement ts kv.1)).length = 0 :=
    fun h => hne (List.length_eq_zero.1 h)
  have hsorted := sortedEntries_strict _ hnodupf
  have hsperm := sortedEntries_perm
    (data.filter fun kv => !(isPrimaryKey ts kv.1 || isAutoIncrement ts kv.1))
  refine ⟨(sq.sortedEntries (data.filter
    fun kv => !(isPrimaryKey ts kv.1 || isAutoIncrement ts kv.1))).map Prod.fst, ?_, ?_, ?_, ?_⟩
  · rw [List.pairwise_map]
    exact hsorted
  · rw [← filter_keys]
    exact hsperm.map Prod.fst
  · rw [BuildUpdate_known b table ts id data hget hpk hknown, if_neg hlen,
      Update_ToSql table _ ts.PrimaryKey id htable hne, eqToSQL_scalar false _ _ hid]
    have hvals : (sq.sortedEntries (data.filter
        fun kv => !(isPrimaryKey ts kv.1 || isAutoIncrement ts kv.1))).map Prod.snd =
        ((sq.sortedEntries (data.filter
          fun kv => !(isPrimaryKey ts kv.1 || isAutoIncrement ts kv.1))).map Prod.fst).map
            (fun c => (mapGet data c).getD .null) := by
      rw [List.map_map]
      apply List.map_congr_left
      intro kv hkv
      have hmem : kv ∈ data := (List.mem_filter.1 (hsperm.subset hkv)).1
      simp [mapGet_of_mem_nodup data hnodup kv hmem]
    rw [hvals]
    simp [String.append_assoc]
  · rw [BuildUpdate_known b table ts id data hget hpk hknown,
      BuildUpdate_known b table ts id data' hget hpk hknown', hfilter.length_eq]
    simp only [sq.UpdateData.SetMap, sortedEntries_congr _ _ hnodupf hfilter]

/-- The payload `{"email":"x@y","age":31}` on `users` with id 7, visited in two
orders. -/
theorem BuildUpdate_independent_of_iteration_order_witness :
    (mapKeys [("email", Value.str "x@y"), ("age", Value.int 31)]).Nodup ∧
      [("age", Value.int 31), ("email", Value.str "x@y")].Perm
        [("email", Value.str "x@y"), ("age", Value.int 31)] ∧
      (sampleBuilder.BuildUpdate "users" (.str "7")
          [("age", Value.int 31), ("email", Value.str "x@y")]).sql =
        (sampleBuilder.BuildUpdate "users" (.str "7")
          [("email", Value.str "x@y"), ("age", Value.int 31)]).sql ∧
      sampleBuilder.BuildUpdate "users" (.str "7")
          [("email", Value.str "x@y"), ("age", Value.int 31)] =
        ⟨"UPDATE users SET age = ?, email = ? WHERE id = ?",
          [.int 31, .str "x@y", .str "7"], none⟩ :=
  ⟨by decide, List.Perm.swap _ _ _,
    (BuildUpdate_independent_of_iteration_order sampleBuilder "users" (.str "7")
      [("email", Value.str "x@y"), ("age", Value.int 31)]
      [("age", Value.int 31), ("email", Value.str "x@y")]
      (by decide) (List.Perm.swap _ _ _)).1,
    BuildUpdate_email_age⟩

/-! ## The entries of a query and the keys `ParseFilters` reads -/

theorem parseFilter_Field (lib : GoLib) (field value : String) (f : Filter)
    (h : parseFilter lib field value = .ok (some f)) : f.Field = field := by
  have hwhole : ∀ r : Except String (Option Filter),
      r = (match parseValue lib value with
        | .error e => (.error e : Except String (Option Filter))
        | .ok parsedVal => .ok (some ⟨field, OpEqual, parsedVal, []⟩)) →
      r = .ok (some f) → f.Field = field := by
    intro r hr hf
    obtain ⟨v, hv⟩ := parseValue_ok lib value
    rw [hv] at hr
    rw [hr] at hf
    cases hf
    rfl
  unfold parseFilter at h
  simp only at h
  split_ifs at h
  · cases h
  · split at h
    · split_ifs at h
      · cases h
        rfl
      · rename_i part0 part1 _ _
        obtain ⟨v, hv⟩ := parseValue_ok lib part1
        rw [hv] at h
        cases h
        rfl
    · exact hwhole _ rfl h
  · exact hwhole _ rfl h

theorem entryFilter_Field (lib : GoLib) (entry : String × List String) (f : Filter)
    (h : entryFilter lib entry = some f) :
    f.Field = lib.ToLower entry.1 ∧ lib.ToLower entry.1 ∉ reservedKeys := by
  obtain ⟨key, values⟩ := entry
  cases values with
  | nil => simp [entryFilter] at h
  | cons value more =>
    simp only [entryFilter] at h
    split_ifs at h with hres
    obtain ⟨r, hr⟩ := parseFilter_ok lib (lib.ToLower key) value
    rw [hr] at h
    cases r with
    | none => simp at h
    | some g =>
      simp only [Option.some.injEq] at h
      subst h
      exact ⟨parseFilter_Field lib _ _ _ hr, hres⟩

theorem mapGet_append_cons_of_ne {β : Type} (q1 q2 : List (String × β)) (K k : String)
    (v : β) (hne : K ≠ k) : mapGet (q1 ++ (K, v) :: q2) k = mapGet (q1 ++ q2) k := by
  induction q1 with
  | nil => simp [mapGet, hne]
  | cons hd tl ih =>
    obtain ⟨k', v'⟩ := hd
    show mapGet ((k', v') :: (tl ++ (K, v) :: q2)) k = mapGet ((k', v') :: (tl ++ q2)) k
    simp only [mapGet]
    rw [ih]

theorem Get_append_cons_of_ne (q1 q2 : UrlValues) (K k : String) (vs : List String)
    (hne : K ≠ k) : UrlValues.Get (q1 ++ (K, vs) :: q2) k = UrlValues.Get (q1 ++ q2) k := by
  unfold UrlValues.Get
  rw [mapGet_append_cons_of_ne q1 q2 K k vs hne]

theorem mem_reservedKeys (k : String) :
    k ∈ reservedKeys ↔
      k = "limit" ∨ k = "offset" ∨ k = "page" ∨ k = "order" ∨ k = "sort" ∨ k = "fields" := by
  simp [reservedKeys]

theorem projectFields_error_form (ts : TableSchema) (table : String) (fields : List String)
    (e : String) (h : projectFields ts table fields = .error e) :
    ∃ col, col ∉ mapKeys ts.Columns ∧ e = unknownColumn col table := by
  induction fields with
  | nil => simp [projectFields] at h
  | cons f rest ih =>
    unfold projectFields at h
    cases hg : mapGet ts.Columns f with
    | none =>
      rw [hg] at h
      simp only [Except.error.injEq] at h
      exact ⟨f, (mapGet_eq_none_iff _ _).1 hg, h.symm⟩
    | some c =>
      rw [hg] at h
      simp only at h
      cases hr : projectFields ts table rest with
      | error e' =>
        rw [hr] at h
        simp only [Except.error.injEq] at h
        subst h
        exact ih hr
      | ok cols =>
        rw [hr] at h
        cases h

theorem selectFilters_error_form (ts : TableSchema) (table : String) (filters : List Filter)
    (query : sq.SelectData) (e : String) (h : selectFilters ts table query filters = .error e) :
    ∃ col, col ∉ mapKeys ts.Columns ∧ e = unknownColumn col table := by
  induction filters generalizing query with
  | nil => simp [selectFilters] at h
  | cons f rest ih =>
    unfold selectFilters at h
    cases hg : mapGet ts.Columns f.Field with
    | none =>
      rw [hg] at h
      simp only [Except.error.injEq] at h
      exact ⟨f.Field, (mapGet_eq_none_iff _ _).1 hg, h.symm⟩
    | some c =>
      rw [hg] at h
      exact ih _ h

theorem BuildSelect_unknown_filter (b : Builder) (table : String) (ts : TableSchema)
    (params : QueryParams) (hget : b.schema.Get table = some ts)
    (h : ∃ f ∈ params.Filters, f.Field ∉ mapKeys ts.Columns) :
    ∃ col, col ∉ mapKeys ts.Columns ∧
      b.BuildSelect table params = ⟨"", [], some (unknownColumn col table)⟩ := by
  unfold Builder.BuildSelect
  rw [hget]
  simp only
  cases hcols : selectColumns ts table params.Fields with
  | error e =>
    have hform : ∃ col, col ∉ mapKeys ts.Columns ∧ e = unknownColumn col table := by
      unfold selectColumns at hcols
      split_ifs at hcols
      exact projectFields_error_form ts table _ e hcols
    obtain ⟨col, hcol, rfl⟩ := hform
    exact ⟨col, hcol, rfl⟩
  | ok columns =>
    simp only
    obtain ⟨e, he⟩ := selectFilters_error ts table params.Filters h
      ((sq.Select columns).from_ table)
    obtain ⟨col, hcol, rfl⟩ := selectFilters_error_form ts table _ _ e he
    rw [he]
    exact ⟨col, hcol, rfl⟩

/-! ## C29 -/

/-- C29, as stated, fails in its last sentence. On the table `items` with the
column `Order`, the entry `Order=gt.5` has the reserved key `order` after
lower-casing, so it gives no filter and `BuildSelect` succeeds without a WHERE
clause; on `orders` the entry `Total=` with an empty value gives no filter
either; and on a column map that holds both `Total` and `total` the entry
`Total=gt.5` becomes a filter on the column `total`, which `BuildSelect`
accepts. -/
theorem reserved_column_filter_dropped :
    "Order" ∈ mapKeys itemsTable.Columns ∧ asciiLib.ToLower "Order" ≠ "Order" ∧
      ParseFilters asciiLib [("Order", ["gt.5"])] = .ok ⟨[], some ⟨50, 0, 0⟩, none, []⟩ ∧
      itemsBuilder.BuildSelect "items" ⟨[], some ⟨50, 0, 0⟩, none, []⟩ =
        ⟨"SELECT id, Order, Page FROM items LIMIT 50", [], none⟩ ∧
      "Total" ∈ mapKeys ordersTable.Columns ∧
      ParseFilters asciiLib [("Total", [""])] = .ok ⟨[], some ⟨50, 0, 0⟩, none, []⟩ ∧
      ordersBuilder.BuildSelect "orders" ⟨[], some ⟨50, 0, 0⟩, none, []⟩ =
        ⟨"SELECT Id, Total FROM orders LIMIT 50", [], none⟩ ∧
      "Total" ∈ mapKeys ledgerTable.Columns ∧
      ParseFilters asciiLib [("Total", ["gt.5"])] =
        .ok ⟨[⟨"total", OpGreater, .int 5, []⟩], some ⟨50, 0, 0⟩, none, []⟩ ∧
      ledgerBuilder.BuildSelect "ledger"
          ⟨[⟨"total", OpGreater, .int 5, []⟩], some ⟨50, 0, 0⟩, none, []⟩ =
        ⟨"SELECT id, Total, total FROM ledger WHERE total > ? LIMIT 50", [.int 5], none⟩ :=
  ⟨by decide, by decide, rfl, rfl, by decide, rfl, rfl, by decide, rfl, rfl⟩

/-- C29, amended: `ParseFilters` lower-cases every key before using it. The
field of every filter it produces is the lower-cased text of a key of the query,
and that text is not a reserved word. An entry whose key is a reserved word only
after lower-casing (such as `LIMIT` or `Order`) changes nothing in the result:
it gives no filter and is not read as pagination, sorting or projection; an
entry with an empty value gives no filter either. Hence, for a table with a
column `C` that contains an upper-case letter and whose lower-cased name is
neither a reserved word nor a column of the table (column names of one table
differ in more than letter case), every entry `C=v` with a non-empty value
makes `BuildSelect` fail with an unknown-column error, empty SQL and no
arguments. -/
theorem ParseFilters_lower_cases_keys (lib : GoLib) (query : UrlValues) :
    (∃ params, ParseFilters lib query = .ok params ∧
        ∀ f ∈ params.Filters, ∃ entry ∈ query,
          f.Field = lib.ToLower entry.1 ∧ lib.ToLower entry.1 ∉ reservedKeys) ∧
      (∀ (q1 q2 : UrlValues) (K : String) (values : List String),
        lib.ToLower K ∈ reservedKeys → K ∉ reservedKeys →
        ParseFilters lib (q1 ++ (K, values) :: q2) = ParseFilters lib (q1 ++ q2)) ∧
      (∀ (b : Builder) (table : String) (ts : TableSchema) (C v : String)
          (more : List String),
        b.schema.Get table = some ts → C ∈ mapKeys ts.Columns → lib.ToLower C ≠ C →
        lib.ToLower C ∉ mapKeys ts.Columns → lib.ToLower C ∉ reservedKeys →
        (C, v :: more) ∈ query → v ≠ "" →
        ∃ params, ParseFilters lib query = .ok params ∧
          (∃ f ∈ params.Filters, f.Field = lib.ToLower C) ∧
          ∃ col, col ∉ mapKeys ts.Columns ∧
            b.BuildSelect table params = ⟨"", [], some (unknownColumn col table)⟩) ∧
      (∀ (q1 q2 : UrlValues) (K : String) (more : List String),
        ∃ params params', ParseFilters lib (q1 ++ (K, "" :: more) :: q2) = .ok params ∧
          ParseFilters lib (q1 ++ q2) = .ok params' ∧ params.Filters = params'.Filters) := by
  refine ⟨?_, ?_, ?_, ?_⟩
  rotate_left 3
  · intro q1 q2 K more
    refine ⟨_, _, ParseFilters_eq lib _, ParseFilters_eq lib _, ?_⟩
    have hnone : entryFilter lib (K, "" :: more) = none := by
      simp only [entryFilter]
      split_ifs
      · rfl
      · rfl
    simp only [List.filterMap_append, List.filterMap_cons, hnone]
  · refine ⟨_, ParseFilters_eq lib query, ?_⟩
    intro f hf
    obtain ⟨entry, hentry, he⟩ := List.mem_filterMap.1 hf
    exact ⟨entry, hentry, entryFilter_Field lib entry f he⟩
  · intro q1 q2 K values hlow hK
    have hmem := (mem_reservedKeys K).not.1 hK
    push_neg at hmem
    obtain ⟨h1, h2, h3, h4, h5, h6⟩ := hmem
    have hnone : entryFilter lib (K, values) = none := by
      cases values with
      | nil => rfl
      | cons value more => simp [entryFilter, hlow]
    rw [ParseFilters_eq, ParseFilters_eq]
    simp only [List.filterMap_append, List.filterMap_cons, hnone, parsePagination,
      parseSorting, parseFields, Get_append_cons_of_ne q1 q2 K _ values h1,
      Get_append_cons_of_ne q1 q2 K _ values h2, Get_append_cons_of_ne q1 q2 K _ values h3,
      Get_append_cons_of_ne q1 q2 K _ values h4, Get_append_cons_of_ne q1 q2 K _ values h5,
      Get_append_cons_of_ne q1 q2 K _ values h6]
  · intro b table ts C v more hget _ _ hcol hres hmem hv
    refine ⟨_, ParseFilters_eq lib query, ?_⟩
    obtain ⟨r, hr⟩ := parseFilter_ok lib (lib.ToLower C) v
    have hsome : ∃ f, r = some f := by
      cases r with
      | some f => exact ⟨f, rfl⟩
      | none =>
        exfalso
        unfold parseFilter at hr
        rw [if_neg hv] at hr
        simp only at hr
        obtain ⟨x, hx⟩ := parseValue_ok lib v
        split_ifs at hr
        · split at hr
          · split_ifs at hr
            · cases hr
            · rename_i part0 part1 _ _
              obtain ⟨y, hy⟩ := parseValue_ok lib part1
              rw [hy] at hr
              cases hr
          · rw [hx] at hr
            cases hr
        · rw [hx] at hr
          cases hr
    obtain ⟨f, rfl⟩ := hsome
    have hentry : entryFilter lib (C, v :: more) = some f := by
      simp [entryFilter, hres, hr]
    have hfield : f.Field = lib.ToLower C := parseFilter_Field lib _ _ _ hr
    have hf : f ∈ query.filterMap (entryFilter lib) :=
      List.mem_filterMap.2 ⟨_, hmem, hentry⟩
    refine ⟨⟨f, hf, hfield⟩, ?_⟩
    exact BuildSelect_unknown_filter b table ts _ hget ⟨f, hf, by rw [hfield]; exact hcol⟩

/-- The table `orders` with the column `Total`: the entry `Total=gt.5` gives a
filter on `total`, and the entry `LIMIT=5` is dropped. -/
theorem ParseFilters_lower_cases_keys_witness :
    (ParseFilters asciiLib ([("Total", ["gt.5"])] ++ ("LIMIT", ["5"]) :: []) =
        ParseFilters asciiLib ([("Total", ["gt.5"])] ++ [])) ∧
      ∃ params, ParseFilters asciiLib [("Total", ["gt.5"]), ("LIMIT", ["5"])] = .ok params ∧
        (∃ f ∈ params.Filters, f.Field = asciiLib.ToLower "Total") ∧
        ∃ col, col ∉ mapKeys ordersTable.Columns ∧
          ordersBuilder.BuildSelect "orders" params =
            ⟨"", [], some (unknownColumn col "orders")⟩ :=
  ⟨(ParseFilters_lower_cases_keys asciiLib []).2.1 [("Total", ["gt.5"])] [] "LIMIT" ["5"]
      (by decide) (by decide),
    (ParseFilters_lower_cases_keys asciiLib [("Total", ["gt.5"]), ("LIMIT", ["5"])]).2.2.1
      ordersBuilder "orders" ordersTable "Total" "gt.5" [] rfl (by decide) (by decide)
      (by decide) (by decide) (by simp) (by decide)⟩

/-! ## The query as a map: independence of the visiting order -/

theorem mapGet_eq_some_iff {β : Type} (m : List (String × β)) (hnodup : (mapKeys m).Nodup)
    (k : String) (v : β) : mapGet m k = some v ↔ (k, v) ∈ m := by
  induction m with
  | nil => simp [mapGet]
  | cons hd tl ih =>
    obtain ⟨k', v'⟩ := hd
    simp only [mapKeys, List.map_cons, List.nodup_cons] at hnodup
    by_cases hk : k' = k
    · subst hk
      simp only [mapGet, if_true, Option.some.injEq, List.mem_cons, Prod.mk.injEq, true_and]
      constructor
      · intro h
        exact Or.inl h.symm
      · rintro (h | h)
        · exact h.symm
        · exact absurd (List.mem_map_of_mem Prod.fst h) hnodup.1
    · have hk' : ¬ k = k' := fun e => hk e.symm
      simp only [mapGet, hk, if_false, List.mem_cons, Prod.mk.injEq, hk', false_and, false_or]
      exact ih hnodup.2

theorem mapGet_perm {β : Type} (m m' : List (String × β)) (hnodup : (mapKeys m).Nodup)
    (hperm : m'.Perm m) (k : String) : mapGet m' k = mapGet m k := by
  have hnodup' : (mapKeys m').Nodup := (hperm.map Prod.fst).nodup_iff.2 hnodup
  apply Option.ext
  intro v
  simp only [Option.mem_def]
  rw [mapGet_eq_some_iff m' hnodup', mapGet_eq_some_iff m hnodup]
  exact hperm.mem_iff

theorem ParseFilters_perm (lib : GoLib) (q q' : UrlValues) (hnodup : (mapKeys q).Nodup)
    (hperm : q'.Perm q) (f : Filter) (hf : q.filterMap (entryFilter lib) = [f]) :
    ParseFilters lib q' =
      .ok ⟨[f], some (parsePagination q), parseSorting lib q, parseFields q⟩ := by
  have hget : ∀ k, UrlValues.Get q' k = UrlValues.Get q k := by
    intro k
    unfold UrlValues.Get
    rw [mapGet_perm q q' hnodup hperm k]
  have hfilters : q'.filterMap (entryFilter lib) = [f] := by
    have h := hperm.filterMap (entryFilter lib)
    rw [hf] at h
    exact List.perm_singleton.1 h
  rw [ParseFilters_eq, hfilters]
  simp only [parsePagination, parseSorting, parseFields, hget]

/-! ## Splitting at a separator -/

theorem splitAll_of_not_mem (sep : Char) (l : List Char) (h : sep ∉ l) :
    splitAll sep l = [l] := by
  induction l with
  | nil => rfl
  | cons c cs ih =>
    have hc : ¬ c = sep := fun e => h (by simp [e])
    have hcs : sep ∉ cs := fun e => h (List.mem_cons_of_mem _ e)
    simp [splitAll, hc, ih hcs]

theorem splitAll_append (sep : Char) (l r : List Char) (h : sep ∉ l) :
    splitAll sep (l ++ sep :: r) = l :: splitAll sep r := by
  induction l with
  | nil => simp [splitAll]
  | cons c cs ih =>
    have hc : ¬ c = sep := fun e => h (by simp [e])
    have hcs : sep ∉ cs := fun e => h (List.mem_cons_of_mem _ e)
    simp [splitAll, hc, ih hcs]

theorem Split_two (sep : Char) (a b : String) (ha : sep ∉ a.data) (hb : sep ∉ b.data) :
    Split (a ++ String.mk [sep] ++ b) sep = [a, b] := by
  unfold Split
  have hdata : (a ++ String.mk [sep] ++ b).data = a.data ++ sep :: b.data := by
    simp [String.data_append]
  rw [hdata, splitAll_append sep _ _ ha, splitAll_of_not_mem sep _ hb]
  rfl

theorem parseFilter_scalar_operator (lib : GoLib) (field operand : String) (op : List Char)
    (v : Value)
    (hop : isListOperator (lib.ToLower (String.mk op)) = false) (hdot : '.' ∉ op)
    (hv : parseValue lib operand = .ok v) :
    parseFilter lib field (String.mk op ++ "." ++ operand) =
      .ok (some ⟨field, lib.ToLower (String.mk op), v, []⟩) := by
  have hdata : (String.mk op ++ "." ++ operand).data = op ++ '.' :: operand.data := by
    simp [String.data_append]
  have hnonempty : String.mk op ++ "." ++ operand ≠ "" := by
    intro h
    have := congrArg String.data h
    rw [hdata] at this
    cases op <;> simp at this
  have hcut : ∀ (l : List Char), '.' ∉ l →
      cutFirst '.' (l ++ '.' :: operand.data) = some (l, operand.data) := by
    intro l
    induction l with
    | nil => intro _; simp [cutFirst]
    | cons c cs ih =>
      intro hmem
      have hc : ¬ c = '.' := fun e => hmem (by simp [e])
      have hcs : '.' ∉ cs := fun e => hmem (List.mem_cons_of_mem _ e)
      simp [cutFirst, hc, ih hcs]
  unfold parseFilter
  rw [if_neg hnonempty]
  simp only [Contains, SplitN2, hdata, hcut op hdot]
  simp [hop, hv]

/-! ## Integer literals -/

theorem digitsValue_digits (l : List Char) (acc n : Nat) (h : digitsValue l acc = some n) :
    ∀ c ∈ l, 48 ≤ c.toNat ∧ c.toNat ≤ 57 := by
  induction l generalizing acc with
  | nil => simp
  | cons c cs ih =>
    unfold digitsValue at h
    split_ifs at h with hc
    intro d hd
    rcases List.mem_cons.1 hd with rfl | hd
    · exact hc
    · exact ih _ h d hd

theorem ParseInt_chars (s : String) (i : Int) (h : ParseInt s = some i) :
    s.data ≠ [] ∧
      ∀ c ∈ s.data, c.toNat = 43 ∨ c.toNat = 45 ∨ (48 ≤ c.toNat ∧ c.toNat ≤ 57) := by
  unfold ParseInt at h
  cases hd : s.data with
  | nil => rw [hd] at h; cases h
  | cons c rest =>
    rw [hd] at h
    simp only at h
    refine ⟨List.cons_ne_nil _ _, ?_⟩
    by_cases hlen : (if c = '+' ∨ c = '-' then rest else c :: rest).length = 0
    · rw [if_pos hlen] at h
      cases h
    · cases hv : digitsValue (if c = '+' ∨ c = '-' then rest else c :: rest) 0 with
      | none =>
        rw [if_neg hlen] at h
        simp only [hv] at h
        cases h
      | some un =>
        have hdig := digitsValue_digits _ _ _ hv
        intro d hd'
        by_cases hsign : c = '+' ∨ c = '-'
        · rw [if_pos hsign] at hdig
          rcases List.mem_cons.1 hd' with rfl | hmem
          · rcases hsign with rfl | rfl
            · exact Or.inl rfl
            · exact Or.inr (Or.inl rfl)
          · exact Or.inr (Or.inr (hdig d hmem))
        · rw [if_neg hsign] at hdig
          exact Or.inr (Or.inr (hdig d hd'))

theorem plain_char_facts (c : Char)
    (h : c.toNat = 43 ∨ c.toNat = 45 ∨ (48 ≤ c.toNat ∧ c.toNat ≤ 57)) :
    isSpace c = false ∧ c ≠ doubleQuote ∧ c ≠ singleQuote ∧ c.toNat < 128 ∧
      c.toLower = c ∧ c ≠ 't' ∧ c ≠ 'f' ∧ c ≠ 'n' := by
  have hne : ∀ d : Char, c.toNat ≠ d.toNat → c ≠ d := fun d hd e => hd (by rw [e])
  refine ⟨?_, ?_, ?_, ?_, ?_, ?_, ?_, ?_⟩
  · unfold isSpace
    simp only [Bool.or_eq_false_iff, decide_eq_false_iff_not, Bool.and_eq_false_iff]
    omega
  · apply hne
    show c.toNat ≠ 34
    omega
  · apply hne
    show c.toNat ≠ 39
    omega
  · omega
  · unfold Char.toLower
    have : ¬ (c.toNat ≥ 65 ∧ c.toNat ≤ 90) := by omega
    simp only [this, if_false]
  · apply hne
    show c.toNat ≠ 116
    omega
  · apply hne
    show c.toNat ≠ 102
    omega
  · apply hne
    show c.toNat ≠ 110
    omega

theorem dropWhile_of_all_false (p : Char → Bool) (l : List Char) (h : ∀ c ∈ l, p c = false) :
    l.dropWhile p = l := by
  cases l with
  | nil => rfl
  | cons c cs => simp [List.dropWhile, h c (List.mem_cons_self _ _)]

theorem TrimSpace_of_no_space (s : String) (h : ∀ c ∈ s.data, isSpace c = false) :
    TrimSpace s = s := by
  unfold TrimSpace
  rw [dropWhile_of_all_false isSpace s.data h,
    dropWhile_of_all_false isSpace s.data.reverse (fun c hc => h c (List.mem_reverse.1 hc)),
    List.reverse_reverse]

theorem ToLower_of_plain (lib : GoLib) (s : String)
    (h : ∀ c ∈ s.data, c.toNat < 128 ∧ c.toLower = c) : lib.ToLower s = s := by
  unfold GoLib.ToLower
  have hmap : s.data.map (fun c => if c.toNat < 128 then c.toLower else lib.unicodeToLower c) =
      s.data.map id := by
    apply List.map_congr_left
    intro c hc
    simp [(h c hc).1, (h c hc).2]
  rw [hmap, List.map_id]

theorem parseValue_int (lib : GoLib) (s : String) (i : Int) (h : ParseInt s = some i) :
    parseValue lib s = .ok (.int i) := by
  obtain ⟨hne, hchars⟩ := ParseInt_chars s i h
  have hfacts := fun c hc => plain_char_facts c (hchars c hc)
  have htrim : TrimSpace s = s := TrimSpace_of_no_space s (fun c hc => (hfacts c hc).1)
  have hlower : lib.ToLower s = s :=
    ToLower_of_plain lib s (fun c hc => ⟨(hfacts c hc).2.2.2.1, (hfacts c hc).2.2.2.2.1⟩)
  have hquoted : isQuoted s = false := by
    unfold isQuoted
    cases hd : s.data with
    | nil => exact absurd hd hne
    | cons c rest =>
      have hc := hfacts c (by rw [hd]; exact List.mem_cons_self _ _)
      have h1 : ¬ c = doubleQuote := hc.2.1
      have h2 : ¬ c = singleQuote := hc.2.2.1
      simp [h1, h2]
  have hhead : ∀ d : Char, (d = 't' ∨ d = 'f' ∨ d = 'n') → ∀ rest, s ≠ String.mk (d :: rest) := by
    intro d hd rest e
    have hmem : d ∈ s.data := by rw [e]; exact List.mem_cons_self _ _
    have hc := hfacts d hmem
    rcases hd with rfl | rfl | rfl
    · exact hc.2.2.2.2.2.1 rfl
    · exact hc.2.2.2.2.2.2.1 rfl
    · exact hc.2.2.2.2.2.2.2 rfl
  have htrue : ¬ s = "true" := hhead 't' (Or.inl rfl) _
  have hfalse : ¬ s = "false" := hhead 'f' (Or.inr (Or.inl rfl)) _
  have hnull : ¬ s = "null" := hhead 'n' (Or.inr (Or.inr rfl)) _
  unfold parseValue
  simp only [htrim, hquoted, hlower, htrue, hfalse, hnull, if_false, h, Bool.false_eq_true]

/-! ## From a query to a SELECT with one filter -/

theorem BuildSelect_one_filter (b : Builder) (table : String) (ts : TableSchema)
    (f : Filter) (pag : Option Pagination) (sorting : Option Sorting) (fields : List String)
    (hget : b.schema.Get table = some ts) (hf : f.Field ∈ mapKeys ts.Columns)
    (hfields : ∀ g ∈ fields, g ∈ mapKeys ts.Columns)
    (hsort : ∀ s, sorting = some s → s.Field ∈ mapKeys ts.Columns)
    (hop : isListOperator f.Operator = false) (hv : f.Value.isScalar = true) :
    b.BuildSelect table ⟨[f], pag, sorting, fields⟩ =
      ⟨"SELECT " ++
          sq.writtenFrom ", " 0 (if fields.length > 0 then fields else mapKeys ts.Columns) ++
          " FROM " ++ table ++ " WHERE " ++ (f.Field ++ " " ++ operatorSymbol f.Operator ++ " ?") ++
          orderByClause sorting ++ limitClause pag ++ offsetClause pag,
        [f.Value], none⟩ := by
  have hcols : selectColumns ts table fields =
      .ok (if fields.length > 0 then fields else mapKeys ts.Columns) := by
    unfold selectColumns
    split_ifs
    · exact projectFields_ok ts table fields hfields
    · rfl
  have hne : (if fields.length > 0 then fields else mapKeys ts.Columns) ≠ [] := by
    split_ifs with h
    · exact fun e => by simp [e] at h
    · exact List.ne_nil_of_mem hf
  have hpred := filterPredicate_scalar f hop hv
  rw [BuildSelect_eq b table ts ⟨[f], pag, sorting, fields⟩ _ hget hcols hne
    (by intro g hg; rw [List.mem_singleton.1 hg]; exact hf)
    (by intro g hg; rw [List.mem_singleton.1 hg, hpred])
    hsort]
  simp [hpred, whereClause, String.intercalate, String.intercalate.go, String.append_assoc]

theorem Get_cons_of_ne (q : UrlValues) (K k : String) (vs : List String) (hne : K ≠ k) :
    UrlValues.Get ((K, vs) :: q) k = UrlValues.Get q k := by
  simp [UrlValues.Get, mapGet, hne]

theorem Get_cons_self (q : UrlValues) (k v : String) (vs : List String) :
    UrlValues.Get ((k, v :: vs) :: q) k = v := by
  simp [UrlValues.Get, mapGet]

theorem Get_nil (k : String) : UrlValues.Get [] k = "" := rfl

theorem length_ne_zero_of_ne_empty (s : String) (h : s ≠ "") : ¬ s.length = 0 :=
  fun e => h (eq_empty_of_length_eq_zero s e)

/-! ## Scenario 1 end to end; C22 -/

theorem scenario1_query_parsed (lib : GoLib) (c s nText lText : String) (n L : Int)
    (query : UrlValues)
    (hlower : lib.ToLower c = c) (hres : c ∉ reservedKeys) (hdot : '.' ∉ s.data)
    (hn : ParseInt nText = some n) (hL : Atoi lText = some L) (hL1 : 1 ≤ L) (hL2 : L ≤ 1000)
    (hquery : query.Perm
      [(c, ["gt." ++ nText]), ("order", [s ++ ".desc"]), ("limit", [lText])]) :
    ParseFilters lib query =
      .ok ⟨[⟨c, OpGreater, .int n, []⟩], some ⟨L, 0, 0⟩, some ⟨s, "desc"⟩, []⟩ := by
  have hmem := (mem_reservedKeys c).not.1 hres
  push_neg at hmem
  obtain ⟨h1, h2, h3, h4, h5, h6⟩ := hmem
  have hnodup : (mapKeys
      [(c, ["gt." ++ nText]), ("order", [s ++ ".desc"]), ("limit", [lText])]).Nodup := by
    simp [mapKeys, h1, h4]
  have hfilter : parseFilter lib c ("gt." ++ nText) =
      .ok (some ⟨c, OpGreater, .int n, []⟩) :=
    parseFilter_scalar_operator lib c nText ['g', 't'] (.int n) rfl (by decide)
      (parseValue_int lib nText n hn)
  have horder : lib.ToLower "order" = "order" := rfl
  have hlimit : lib.ToLower "limit" = "limit" := rfl
  have hfilters : List.filterMap (entryFilter lib)
      [(c, ["gt." ++ nText]), ("order", [s ++ ".desc"]), ("limit", [lText])] =
      [⟨c, OpGreater, .int n, []⟩] := by
    have e1 : entryFilter lib (c, ["gt." ++ nText]) = some ⟨c, OpGreater, .int n, []⟩ := by
      simp [entryFilter, hlower, hres, hfilter]
    have e2 : entryFilter lib ("order", [s ++ ".desc"]) = none := by
      simp [entryFilter, horder, reservedKeys]
    have e3 : entryFilter lib ("limit", [lText]) = none := by
      simp [entryFilter, hlimit, reservedKeys]
    rw [List.filterMap_cons_some e1, List.filterMap_cons_none e2, List.filterMap_cons_none e3,
      List.filterMap_nil]
  rw [ParseFilters_perm lib _ query hnodup hquery _ hfilters]
  have hlne : lText ≠ "" := by
    intro e
    rw [e, Atoi_empty] at hL
    cases hL
  have hpag : parsePagination
      [(c, ["gt." ++ nText]), ("order", [s ++ ".desc"]), ("limit", [lText])] = ⟨L, 0, 0⟩ := by
    have hpos : L > 0 := by omega
    have hle : ¬ L > 1000 := by omega
    simp [parsePagination, Get_cons_of_ne _ c _ _ h1, Get_cons_of_ne _ c _ _ h2,
      Get_cons_of_ne _ c _ _ h3, Get_cons_of_ne _ "order", Get_cons_self, Get_nil,
      Get_cons_of_ne _ "limit", applyLimit, applyOffset, applyPage, hlne, hL, hpos, hle]
  have hsplit : Split (s ++ ".desc") '.' = [s, "desc"] := by
    have h := Split_two '.' s "desc" hdot (by decide)
    rw [String.append_assoc] at h
    exact h
  have hone : s ++ ".desc" ≠ "" := by
    intro e
    have := congrArg String.length e
    simp [String.length_append] at this
    have hlen : ".desc".length = 5 := by decide
    omega
  have hsort : parseSorting lib
      [(c, ["gt." ++ nText]), ("order", [s ++ ".desc"]), ("limit", [lText])] =
      some ⟨s, "desc"⟩ := by
    have hdesc : lib.ToLower "desc" = "desc" := rfl
    simp [parseSorting, Get_cons_of_ne _ c _ _ h4, Get_cons_self, hone, hsplit, hdesc]
  have hfields : parseFields
      [(c, ["gt." ++ nText]), ("order", [s ++ ".desc"]), ("limit", [lText])] = [] := by
    simp [parseFields, Get_cons_of_ne _ c _ _ h6, Get_cons_of_ne _ "order",
      Get_cons_of_ne _ "limit", Get_nil]
  rw [hpag, hsort, hfields]

/-- C22 (divergence): `ParseFilters` lower-cases the key of a filter, while the
sorting and projection parameters keep the case of the column names they name.
On the table `orders` with the column `Total`, the query
`Total=gt.18&order=Total.desc&limit=2` is parsed into a filter on `total` and
the sorting `Total desc`, and `BuildSelect` rejects the filter as an unknown
column; the same column name is accepted from `order` and `fields`. -/
theorem scenario1_upper_case_column_rejected :
    "Total" ∈ mapKeys ordersTable.Columns ∧
      ParseFilters asciiLib
          [("Total", ["gt.18"]), ("order", ["Total.desc"]), ("limit", ["2"])] =
        .ok ⟨[⟨"total", OpGreater, .int 18, []⟩], some ⟨2, 0, 0⟩, some ⟨"Total", "desc"⟩, []⟩ ∧
      ordersBuilder.BuildSelect "orders"
          ⟨[⟨"total", OpGreater, .int 18, []⟩], some ⟨2, 0, 0⟩, some ⟨"Total", "desc"⟩, []⟩ =
        ⟨"", [], some "unknown column 'total' in table 'orders'"⟩ ∧
      ParseFilters asciiLib
          [("fields", ["Total"]), ("order", ["Total.desc"]), ("limit", ["2"])] =
        .ok ⟨[], some ⟨2, 0, 0⟩, some ⟨"Total", "desc"⟩, ["Total"]⟩ ∧
      ordersBuilder.BuildSelect "orders"
          ⟨[], some ⟨2, 0, 0⟩, some ⟨"Total", "desc"⟩, ["Total"]⟩ =
        ⟨"SELECT Total FROM orders ORDER BY Total DESC LIMIT 2", [], none⟩ :=
  ⟨by decide, rfl, rfl, rfl, rfl⟩

/-- Scenario 1 on a lower-case filter column: for every table `t` having columns
`c` and `s`, where `c` is its own lower-case form and not one of the reserved
keys and `s` contains no dot, every integer literal `n` and every limit `L` with
`1 ≤ L ≤ 1000`: the query `c=gt.n&order=s.desc&limit=L`, with its entries
visited in any order, is parsed by `ParseFilters` into the filter `c gt n`, the sorting `s desc` and the
pagination limit `L`, offset 0, and `BuildSelect` compiles the result to
`SELECT <cols> FROM t WHERE c > ? ORDER BY s DESC LIMIT L` without OFFSET, with
the integer `n` as the only argument. -/
theorem scenario1_compiles (lib : GoLib) (b : Builder) (table : String) (ts : TableSchema)
    (c s nText lText : String) (n L : Int) (query : UrlValues)
    (hget : b.schema.Get table = some ts)
    (hc : c ∈ mapKeys ts.Columns) (hs : s ∈ mapKeys ts.Columns)
    (hlower : lib.ToLower c = c) (hres : c ∉ reservedKeys) (hdot : '.' ∉ s.data)
    (hn : ParseInt nText = some n) (hL : Atoi lText = some L) (hL1 : 1 ≤ L) (hL2 : L ≤ 1000)
    (hquery : query.Perm
      [(c, ["gt." ++ nText]), ("order", [s ++ ".desc"]), ("limit", [lText])]) :
    ∃ params, ParseFilters lib query = .ok params ∧
      params.Pagination = some ⟨L, 0, 0⟩ ∧
      b.BuildSelect table params =
        ⟨"SELECT " ++ sq.writtenFrom ", " 0 (mapKeys ts.Columns) ++ " FROM " ++ table ++
            " WHERE " ++ c ++ " > ?" ++ " ORDER BY " ++ s ++ " DESC" ++
            " LIMIT " ++ Nat.repr L.toNat,
          [.int n], none⟩ := by
  refine ⟨_, scenario1_query_parsed lib c s nText lText n L query hlower hres hdot hn hL
    hL1 hL2 hquery, rfl, ?_⟩
  rw [BuildSelect_one_filter b table ts ⟨c, OpGreater, .int n, []⟩ (some ⟨L, 0, 0⟩)
    (some ⟨s, "desc"⟩) [] hget hc (by simp)
    (by intro s' hs'; cases hs'; exact hs) rfl rfl]
  have hpos : L > 0 := by omega
  simp [orderByClause, limitClause, offsetClause, operatorSymbol, OpGreater, OpNotEqual,
    hpos, String.append_assoc]
  rfl

/-- Scenario 1: `users`, `age=gt.18&order=created_at.desc&limit=2`. -/
theorem scenario1_compiles_witness :
    ∃ params, ParseFilters asciiLib scenario1Query = .ok params ∧
      params.Pagination = some ⟨2, 0, 0⟩ ∧
      sampleBuilder.BuildSelect "users" params =
        ⟨"SELECT id, email, age, created_at, active FROM users WHERE age > ? " ++
            "ORDER BY created_at DESC LIMIT 2",
          [.int 18], none⟩ :=
  scenario1_compiles asciiLib sampleBuilder "users" usersTable "age" "created_at" "18" "2"
    18 2 scenario1Query (by decide) (by decide) (by decide) (by decide) (by decide)
    (by decide) (by decide) (by decide) (by decide) (by decide) (List.Perm.refl _)

/-! ## C23 -/

theorem scenario2_query_parsed (lib : GoLib) (c f1 f2 P : String) (query : UrlValues)
    (hlower : lib.ToLower c = c) (hres : c ∉ reservedKeys)
    (hP : parseValue lib P = .ok (.str P))
    (hcomma1 : ',' ∉ f1.data) (hcomma2 : ',' ∉ f2.data)
    (htrim1 : TrimSpace f1 = f1) (htrim2 : TrimSpace f2 = f2)
    (hne1 : f1 ≠ "") (hne2 : f2 ≠ "")
    (hquery : query.Perm [(c, ["like." ++ P]), ("fields", [f1 ++ "," ++ f2])]) :
    ParseFilters lib query =
      .ok ⟨[⟨c, OpLike, .str P, []⟩], some ⟨50, 0, 0⟩, none, [f1, f2]⟩ := by
  have hmem := (mem_reservedKeys c).not.1 hres
  push_neg at hmem
  obtain ⟨h1, h2, h3, h4, h5, h6⟩ := hmem
  have hnodup : (mapKeys [(c, ["like." ++ P]), ("fields", [f1 ++ "," ++ f2])]).Nodup := by
    simp [mapKeys, h6]
  have hfilter : parseFilter lib c ("like." ++ P) = .ok (some ⟨c, OpLike, .str P, []⟩) :=
    parseFilter_scalar_operator lib c P ['l', 'i', 'k', 'e'] (.str P) rfl (by decide) hP
  have hfieldsKey : lib.ToLower "fields" = "fields" := rfl
  have hfilters : List.filterMap (entryFilter lib)
      [(c, ["like." ++ P]), ("fields", [f1 ++ "," ++ f2])] = [⟨c, OpLike, .str P, []⟩] := by
    have e1 : entryFilter lib (c, ["like." ++ P]) = some ⟨c, OpLike, .str P, []⟩ := by
      simp [entryFilter, hlower, hres, hfilter]
    have e2 : entryFilter lib ("fields", [f1 ++ "," ++ f2]) = none := by
      simp [entryFilter, hfieldsKey, reservedKeys]
    rw [List.filterMap_cons_some e1, List.filterMap_cons_none e2, List.filterMap_nil]
  rw [ParseFilters_perm lib _ query hnodup hquery _ hfilters]
  have hpag : parsePagination [(c, ["like." ++ P]), ("fields", [f1 ++ "," ++ f2])] =
      ⟨50, 0, 0⟩ := by
    simp [parsePagination, Get_cons_of_ne _ c _ _ h1, Get_cons_of_ne _ c _ _ h2,
      Get_cons_of_ne _ c _ _ h3, Get_cons_of_ne _ "fields", Get_nil, applyLimit, applyOffset,
      applyPage]
  have hsort : parseSorting lib [(c, ["like." ++ P]), ("fields", [f1 ++ "," ++ f2])] =
      none := by
    simp [parseSorting, Get_cons_of_ne _ c _ _ h4, Get_cons_of_ne _ c _ _ h5,
      Get_cons_of_ne _ "fields", Get_nil]
  have hsplit : Split (f1 ++ "," ++ f2) ',' = [f1, f2] := Split_two ',' f1 f2 hcomma1 hcomma2
  have hone : f1 ++ "," ++ f2 ≠ "" := by
    intro e
    have hlen := congrArg String.length e
    simp only [String.length_append] at hlen
    have h0 := length_ne_zero_of_ne_empty f1 hne1
    have hz : "".length = 0 := rfl
    omega
  have hfields : parseFields [(c, ["like." ++ P]), ("fields", [f1 ++ "," ++ f2])] =
      [f1, f2] := by
    simp [parseFields, Get_cons_of_ne _ c _ _ h6, Get_cons_self, hone, hsplit, htrim1, htrim2,
      hne1, hne2]
  rw [hpag, hsort, hfields]

/-- C23, as stated, fails: without a `limit` parameter the pagination has the
default limit 50, so the SQL of scenario 2 ends in `LIMIT 50`; and on the table
`orders` with the columns `Id` and `Total` the query `Total=like.x&fields=Id,Total`
gives a filter on `total`, which `BuildSelect` rejects as an unknown column. -/
theorem scenario2_has_default_limit :
    ParseFilters asciiLib scenario2Query =
        .ok ⟨[⟨"email", OpLike, .str "%@example.com", []⟩], some ⟨50, 0, 0⟩, none,
          ["id", "email"]⟩ ∧
      sampleBuilder.BuildSelect "users"
          ⟨[⟨"email", OpLike, .str "%@example.com", []⟩], some ⟨50, 0, 0⟩, none,
            ["id", "email"]⟩ =
        ⟨"SELECT id, email FROM users WHERE email LIKE ? LIMIT 50",
          [.str "%@example.com"], none⟩ ∧
      "SELECT id, email FROM users WHERE email LIKE ? LIMIT 50" ≠
        "SELECT id, email FROM users WHERE email LIKE ?" ∧
      ParseFilters asciiLib [("Total", ["like.x"]), ("fields", ["Id,Total"])] =
        .ok ⟨[⟨"total", OpLike, .str "x", []⟩], some ⟨50, 0, 0⟩, none, ["Id", "Total"]⟩ ∧
      ordersBuilder.BuildSelect "orders"
          ⟨[⟨"total", OpLike, .str "x", []⟩], some ⟨50, 0, 0⟩, none, ["Id", "Total"]⟩ =
        ⟨"", [], some "unknown column 'total' in table 'orders'"⟩ :=
  ⟨rfl, rfl, by decide, rfl, rfl⟩

/-- C23, amended: for every table `t` having columns `f1`, `f2` and `c`, where
`c` is its own lower-case form and not one of the reserved keys and `f1`, `f2`
are non-empty names without a comma or surrounding white space, and every
pattern `P` that `parseValue` keeps as the string `P` (not a quoted, boolean,
null, numeric or date literal): the query `c=like.P&fields=f1,f2` without
limit, offset or page, with its entries visited in any order, is parsed with the
default pagination limit 50, offset 0, and `BuildSelect` compiles the result to
`SELECT f1, f2 FROM t WHERE c LIKE ? LIMIT 50` with the string `P` as the only
argument. -/
theorem scenario2_compiles (lib : GoLib) (b : Builder) (table : String) (ts : TableSchema)
    (c f1 f2 P : String) (query : UrlValues)
    (hget : b.schema.Get table = some ts)
    (hc : c ∈ mapKeys ts.Columns) (hf1 : f1 ∈ mapKeys ts.Columns)
    (hf2 : f2 ∈ mapKeys ts.Columns)
    (hlower : lib.ToLower c = c) (hres : c ∉ reservedKeys)
    (hP : parseValue lib P = .ok (.str P))
    (hcomma1 : ',' ∉ f1.data) (hcomma2 : ',' ∉ f2.data)
    (htrim1 : TrimSpace f1 = f1) (htrim2 : TrimSpace f2 = f2)
    (hne1 : f1 ≠ "") (hne2 : f2 ≠ "")
    (hquery : query.Perm [(c, ["like." ++ P]), ("fields", [f1 ++ "," ++ f2])]) :
    ∃ params, ParseFilters lib query = .ok params ∧
      params.Pagination = some ⟨50, 0, 0⟩ ∧
      b.BuildSelect table params =
        ⟨"SELECT " ++ f1 ++ ", " ++ f2 ++ " FROM " ++ table ++ " WHERE " ++ c ++ " LIKE ?" ++
            " LIMIT 50",
          [.str P], none⟩ := by
  refine ⟨_, scenario2_query_parsed lib c f1 f2 P query hlower hres hP hcomma1 hcomma2 htrim1
    htrim2 hne1 hne2 hquery, rfl, ?_⟩
  rw [BuildSelect_one_filter b table ts ⟨c, OpLike, .str P, []⟩ (some ⟨50, 0, 0⟩) none
    [f1, f2] hget hc
    (by
      intro g hg
      simp only [List.mem_cons, List.mem_singleton, List.not_mem_nil, or_false] at hg
      rcases hg with rfl | rfl
      · exact hf1
      · exact hf2)
    (by intro s' hs'; cases hs') rfl rfl]
  have hl1 := length_ne_zero_of_ne_empty f1 hne1
  have hl2 := length_ne_zero_of_ne_empty f2 hne2
  have hlimit : limitClause (some ⟨50, 0, 0⟩) = " LIMIT 50" := by decide
  have hoffset : offsetClause (some ⟨50, 0, 0⟩) = "" := by decide
  simp [orderByClause, hlimit, hoffset, operatorSymbol, OpLike, OpNotEqual, OpGreater,
    OpGreaterEqual, OpLess, OpLessEqual, sq.writtenFrom, hl1, hl2, String.append_assoc]

/-- Scenario 2: `users`, `email=like.%25@example.com&fields=id,email`. -/
theorem scenario2_compiles_witness :
    ∃ params, ParseFilters asciiLib scenario2Query = .ok params ∧
      params.Pagination = some ⟨50, 0, 0⟩ ∧
      sampleBuilder.BuildSelect "users" params =
        ⟨"SELECT id, email FROM users WHERE email LIKE ? LIMIT 50",
          [.str "%@example.com"], none⟩ :=
  scenario2_compiles asciiLib sampleBuilder "users" usersTable "email" "id" "email"
    "%@example.com" scenario2Query (by decide) (by decide) (by decide) (by decide) (by decide)
    (by decide) rfl (by decide) (by decide) (by decide) (by decide) (by decide) (by decide)
    (List.Perm.refl _)

/-! ## Two visits of the column map -/

theorem projectFields_revisit (ts ts' : TableSchema) (table : String) (fields : List String)
    (h : ∀ k, mapGet ts'.Columns k = mapGet ts.Columns k) :
    projectFields ts' table fields = projectFields ts table fields := by
  induction fields with
  | nil => rfl
  | cons f rest ih =>
    unfold projectFields
    rw [h f, ih]

theorem selectFilters_revisit (ts ts' : TableSchema) (table : String) (filters : List Filter)
    (h : ∀ k, mapGet ts'.Columns k = mapGet ts.Columns k) (query : sq.SelectData) :
    selectFilters ts' table query filters = selectFilters ts table query filters := by
  induction filters generalizing query with
  | nil => rfl
  | cons f rest ih =>
    unfold selectFilters
    rw [h f.Field]
    cases mapGet ts.Columns f.Field with
    | none => rfl
    | some c => exact ih _

theorem selectColumns_revisit (ts ts' : TableSchema) (table : String) (fields : List String)
    (h : ∀ k, mapGet ts'.Columns k = mapGet ts.Columns k) :
    selectColumns ts' table fields =
      if fields.length > 0 then selectColumns ts table fields
      else .ok (mapKeys ts'.Columns) := by
  unfold selectColumns
  split_ifs
  · exact projectFields_revisit ts ts' table fields h
  · rfl

/-! ## C3 -/

/-- C3, as stated, fails when no projection is requested: the SELECT list is
then written in the order in which the call visits the `Columns` map. Two
visits of the same map of `users`, with parameters that differ only in the
operand value, give two different SQL texts. -/
theorem BuildSelect_default_columns_follow_visiting_order :
    usersTableRevisited.Columns.Perm usersTable.Columns ∧
      (sampleBuilder.BuildSelect "users" ⟨[⟨"age", OpGreater, .int 18, []⟩], none, none, []⟩).sql =
        "SELECT id, email, age, created_at, active FROM users WHERE age > ?" ∧
      (revisitedBuilder.BuildSelect "users"
          ⟨[⟨"age", OpGreater, .int 65, []⟩], none, none, []⟩).sql =
        "SELECT email, id, age, created_at, active FROM users WHERE age > ?" ∧
      (sampleBuilder.BuildSelect "users" ⟨[⟨"age", OpGreater, .int 18, []⟩], none, none, []⟩).sql ≠
        (revisitedBuilder.BuildSelect "users"
          ⟨[⟨"age", OpGreater, .int 65, []⟩], none, none, []⟩).sql :=
  ⟨List.Perm.swap _ _ _, by decide, by decide, by decide⟩

/-- C3, amended: take two calls of `BuildSelect` on a table whose `Columns` map
is visited in any two orders, with parameter sets that have the same fields,
sorting and pagination and whose filters agree in field, operator and list
length and differ only in their (non-null scalar, or list element) operand
values. Both calls have the same error outcome. On success the returned
arguments are exactly the operand values, in filter order. When a projection
is requested, or when both calls visit the map in the same order, the two SQL
texts are identical. When no projection is requested the two SQL texts are
`SELECT`, the columns of the table in the visiting order of the call, and one
common remainder `FROM … WHERE … ORDER BY … LIMIT … OFFSET …`. -/
theorem BuildSelect_operands_only_in_args (b b' : Builder) (table : String)
    (ts ts' : TableSchema) (p q : QueryParams)
    (hget : b.schema.Get table = some ts) (hget' : b'.schema.Get table = some ts')
    (hperm : ts'.Columns.Perm ts.Columns) (hnodup : (mapKeys ts.Columns).Nodup)
    (hfields : p.Fields = q.Fields) (hsorting : p.Sorting = q.Sorting)
    (hpagination : p.Pagination = q.Pagination)
    (hshape : List.Forall₂ sameShape p.Filters q.Filters) :
    (b.BuildSelect table p).err = (b'.BuildSelect table q).err ∧
      ((b.BuildSelect table p).err = none →
        (b.BuildSelect table p).args = p.Filters.flatMap operands ∧
        (b'.BuildSelect table q).args = q.Filters.flatMap operands) ∧
      ((p.Fields ≠ [] ∨ mapKeys ts'.Columns = mapKeys ts.Columns) →
        (b.BuildSelect table p).sql = (b'.BuildSelect table q).sql) ∧
      ((b.BuildSelect table p).err = none → p.Fields = [] →
        (b.BuildSelect table p).sql =
          "SELECT " ++ sq.writtenFrom ", " 0 (mapKeys ts.Columns) ++
            (" FROM " ++ table ++
              whereClause (p.Filters.map fun f => (filterPredicate f).ToSql.sql) ++
              orderByClause p.Sorting ++ limitClause p.Pagination ++
              offsetClause p.Pagination) ∧
        (b'.BuildSelect table q).sql =
          "SELECT " ++ sq.writtenFrom ", " 0 (mapKeys ts'.Columns) ++
            (" FROM " ++ table ++
              whereClause (p.Filters.map fun f => (filterPredicate f).ToSql.sql) ++
              orderByClause p.Sorting ++ limitClause p.Pagination ++
              offsetClause p.Pagination)) := by
  have hmg : ∀ k, mapGet ts'.Columns k = mapGet ts.Columns k :=
    fun k => mapGet_perm ts.Columns ts'.Columns hnodup hperm k
  have hkeys : ∀ k, k ∈ mapKeys ts'.Columns ↔ k ∈ mapKeys ts.Columns :=
    fun k => (hperm.map Prod.fst).mem_iff
  have hcq : selectColumns ts' table q.Fields =
      if p.Fields.length > 0 then selectColumns ts table p.Fields
      else .ok (mapKeys ts'.Columns) := by
    rw [← hfields]
    exact selectColumns_revisit ts ts' table p.Fields hmg
  cases hc : selectColumns ts table p.Fields with
  | error e =>
    have hlen : p.Fields.length > 0 := by
      by_contra hn
      simp [selectColumns, hn] at hc
    rw [if_pos hlen, hc] at hcq
    simp [Builder.BuildSelect, hget, hget', hc, hcq, SqlResult.fail]
  | ok columns =>
    have hex : ∃ columns', selectColumns ts' table q.Fields = .ok columns' ∧
        ((p.Fields ≠ [] ∨ mapKeys ts'.Columns = mapKeys ts.Columns) → columns' = columns) ∧
        (columns' = [] ↔ columns = []) ∧
        (p.Fields = [] → columns = mapKeys ts.Columns ∧ columns' = mapKeys ts'.Columns) := by
      by_cases hlen : p.Fields.length > 0
      · rw [if_pos hlen, hc] at hcq
        refine ⟨columns, hcq, fun _ => rfl, Iff.rfl, ?_⟩
        intro h
        simp [h] at hlen
      · rw [if_neg hlen] at hcq
        have hcol : columns = mapKeys ts.Columns := by
          simp only [selectColumns, hlen, if_false, Except.ok.injEq] at hc
          exact hc.symm
        refine ⟨mapKeys ts'.Columns, hcq, ?_, ?_, ?_⟩
        · rintro (h | h)
          · exact absurd (List.length_pos.2 h) hlen
          · rw [h, hcol]
        · rw [hcol]
          simp only [mapKeys, List.map_eq_nil_iff]
          constructor
          · intro h
            exact List.length_eq_zero.1 (by rw [← hperm.length_eq, h]; rfl)
          · intro h
            exact List.length_eq_zero.1 (by rw [hperm.length_eq, h]; rfl)
        · intro _
          exact ⟨hcol, rfl⟩
    obtain ⟨columns', hc', hsame, hnil, hdefault⟩ := hex
    rcases selectFilters_congr ts table p.Filters q.Filters hshape
        ((sq.Select columns).from_ table) ((sq.Select columns').from_ table) with
      ⟨e, h1, h2⟩ | ⟨k1, k2⟩
    · have h2' : selectFilters ts' table ((sq.Select columns').from_ table) q.Filters =
          .error e := by
        rw [selectFilters_revisit ts ts' table q.Filters hmg, h2]
      simp [Builder.BuildSelect, hget, hget', hc, hc', h1, h2', SqlResult.fail]
    · have k2' : ∀ g ∈ q.Filters, g.Field ∈ mapKeys ts'.Columns :=
        fun g hg => (hkeys _).2 (k2 g hg)
      by_cases hs : ∃ s, p.Sorting = some s ∧ s.Field ∉ mapKeys ts.Columns
      · obtain ⟨s, hs1, hs2⟩ := hs
        rw [BuildSelect_sorting_unknown b table ts p columns s hget hc k1 hs1 hs2,
          BuildSelect_sorting_unknown b' table ts' q columns' s hget' hc' k2' (hsorting ▸ hs1)
            (fun h => hs2 ((hkeys _).1 h))]
        simp [SqlResult.fail]
      · have hsp : ∀ s, p.Sorting = some s → s.Field ∈ mapKeys ts.Columns := by
          intro s hs1
          by_contra hn
          exact hs ⟨s, hs1, hn⟩
        have hsq : ∀ s, q.Sorting = some s → s.Field ∈ mapKeys ts'.Columns :=
          fun s hs1 => (hkeys _).2 (hsp s (hsorting ▸ hs1))
        by_cases hne : columns = []
        · have hne' : columns' = [] := hnil.2 hne
          subst hne
          subst hne'
          rw [BuildSelect_no_columns b table ts p hget hc k1 hsp,
            BuildSelect_no_columns b' table ts' q hget' hc' k2' hsq]
          simp [SqlResult.fail]
        · have hne' : columns' ≠ [] := fun h => hne (hnil.1 h)
          obtain ⟨e1, e2, e3, e4, e5⟩ := sameShape_facts p.Filters q.Filters hshape
          rw [BuildSelect_eq b table ts p columns hget hc hne k1 e1 hsp,
            BuildSelect_eq b' table ts' q columns' hget' hc' hne' k2' e2 hsq]
          refine ⟨rfl, fun _ => ⟨?_, ?_⟩, ?_, ?_⟩
          · exact flatMap_forall₂_args _ e4
          · exact flatMap_forall₂_args _ e5
          · intro h
            simp only [hsame h, e3, hsorting, hpagination]
          · intro _ hempty
            obtain ⟨h1, h2⟩ := hdefault hempty
            simp only [h1, h2, e3, hsorting, hpagination, String.append_assoc, and_self]

/-- Two requests on `users` that differ only in operand values, on two visits
of the column map in different orders, with the projection `id`. -/
theorem BuildSelect_operands_only_in_args_witness :
    usersTableRevisited.Columns.Perm usersTable.Columns ∧
      (mapKeys usersTable.Columns).Nodup ∧
      List.Forall₂ sameShape
        [⟨"age", OpGreater, .int 18, []⟩, ⟨"email", OpIn, .null, [.str "a", .str "b"]⟩]
        [⟨"age", OpGreater, .int 65, []⟩, ⟨"email", OpIn, .null, [.str "x", .int 0]⟩] ∧
      (sampleBuilder.BuildSelect "users"
        ⟨[⟨"age", OpGreater, .int 18, []⟩, ⟨"email", OpIn, .null, [.str "a", .str "b"]⟩],
          some ⟨2, 0, 0⟩, none, ["id"]⟩).sql =
      (revisitedBuilder.BuildSelect "users"
        ⟨[⟨"age", OpGreater, .int 65, []⟩, ⟨"email", OpIn, .null, [.str "x", .int 0]⟩],
          some ⟨2, 0, 0⟩, none, ["id"]⟩).sql :=
  ⟨List.Perm.swap _ _ _, by decide, by repeat constructor,
    (BuildSelect_operands_only_in_args sampleBuilder revisitedBuilder "users" usersTable
      usersTableRevisited _ _ rfl rfl (List.Perm.swap _ _ _) (by decide) rfl rfl rfl
      (by repeat constructor)).2.2.1 (Or.inl (by simp))⟩

end InstantGate
